import Mathlib

/-!
# USBane transfer engine: a shallow embedding of `main/usb_malformed.c`

The engine drives host channel 0 of a DWC2 controller at register level.
The embedding keeps the C control flow and names.

* C integers are natural numbers; arithmetic done in `size_t` or `uint32_t`
  (32 bits on the target) is reduced modulo `2 ^ 32` where it can wrap.
* C arrays are lists of bytes read with `getD`; `memset` and `memcpy` keep the
  length of the destination. A request is well formed when `extra_data` has 248
  entries; the results do not need that assumption.
* The register accessors `usb_dwc_ll_*` belong to the vendor HAL. A call is
  recorded as a `HwOp` appended to `World.trace`; what the hardware answers
  (channel-enabled bit, channel interrupt flags, remaining transfer size, DMA
  data, port connection status) is read from the environment script stored in
  the `World`. A reading of the channel interrupt register is the outcome of
  the mask tests the engine applies to it.
* Time is not modelled. A polling loop `while ((now - start) < timeout_ticks)`
  is run over the list of readings its iterations obtain before the deadline;
  when the list is exhausted the deadline has passed. `vTaskDelay` is recorded
  as `HwOp.delay`.
* Behaviour that C leaves undefined (integer division by zero, `memcpy` past
  the end of a static array, a store through a null pointer) ends the run with
  `Status.crashed`.
* `World.bus` lists what the controller is handed at each enable of the
  channel: the programmed registers and, for an OUT transaction, the first
  `xfersize` bytes of the DMA array.
-/

namespace USBane

/-! ## Constants of `usb_malformed.h` -/

def USB_SETUP_PACKET_SIZE : Nat := 8

def USB_CONTROL_EP0_MPS : Nat := 64

def USB_MAX_EXTRA_DATA : Nat := 248

def USB_DMA_CHUNK_SIZE : Nat := 64

def USB_DEFAULT_TIMEOUT_MS : Nat := 1000

def USB_DEVICE_DESCRIPTOR_SIZE : Nat := 18

def USB_MAX_PACKET_SIZE : Nat := 256

/-- Number of values of `size_t` and `uint32_t` on the 32-bit target. -/
def SIZE_MOD : Nat := 2 ^ 32

def MAX_CONSECUTIVE_FAILURES : Int := 5

def MAX_RECOVERY_ATTEMPTS : Int := 3

/-- Result codes of `esp_err_t` used by the engine and by the configuration
store. -/
inductive esp_err_t where
  | ESP_OK
  | ESP_FAIL
  | ESP_ERR_INVALID_ARG
  | ESP_ERR_TIMEOUT
  | ESP_ERR_INVALID_RESPONSE
  | ESP_ERR_NOT_SUPPORTED
  | ESP_ERR_NVS_NOT_INITIALIZED
  | ESP_ERR_NVS_NOT_FOUND
  deriving DecidableEq, Repr

/-- A C pointer, as far as the engine looks at it: null or not. -/
inductive Ptr where
  | null
  | valid
  deriving DecidableEq, Repr

/-- The request record `usb_packet_config_t`. The memory behind
`response_buffer` and `bytes_received` lives in the `World`. -/
structure usb_packet_config_t where
  bmRequestType : Nat
  bRequest : Nat
  wValue : Nat
  wIndex : Nat
  wLength : Nat
  packet_size : Nat
  extra_data : List Nat
  device_addr : Nat
  endpoint : Nat
  max_packet_size : Nat
  expect_response : Bool
  timeout_ms : Nat
  max_nak_retries : Int
  response_buffer : Ptr
  response_buffer_size : Nat
  bytes_received : Ptr
  deriving DecidableEq, Repr

/-- The record `usb_device_info_t`. -/
structure usb_device_info_t where
  connected : Bool
  vid : Nat
  pid : Nat
  device_class : Nat
  device_subclass : Nat
  device_protocol : Nat
  max_packet_size : Nat
  manufacturer : String
  product : String
  serial : String
  deriving DecidableEq, Repr

/-- The static DMA-capable arrays of the engine. -/
inductive DmaBuf where
  | setup_dma
  | chunk_dma
  | rx_dma
  deriving DecidableEq, Repr

/-- The four places of the source that enable channel 0. -/
inductive EnableSite where
  | setup
  | data_out_chunk
  | data_in_start
  | nak_retry
  deriving DecidableEq, Repr

/-- One reading of the channel interrupt register, as the outcome of the mask
tests the engine performs on it (`hcint & USB_DWC_LL_INTR_CHAN_...`). -/
structure HcInt where
  chhltd : Bool
  xfercompl : Bool
  stall : Bool
  nak : Bool
  deriving DecidableEq, Repr

/-- Calls into the HAL and the scheduler, in program order. -/
inductive HwOp where
  | chan_is_enabled (answer : Bool)
  | disable_chan
  | delay (ms : Nat)
  | hcint_read_and_clear
  | flush_rx_fifo
  | flush_nptx_fifo
  | flush_ptx_fifo
  | hctsiz_init
  | set_ep_num (v : Nat)
  | set_dev_addr (v : Nat)
  | set_ep_type_ctrl
  | set_mps (v : Nat)
  | set_dir (v : Nat)
  | set_xfersize (v : Nat)
  | set_pktcnt (v : Nat)
  | set_pid (v : Nat)
  | hctsiz_set_pid (v : Nat)
  | set_dmaaddr (b : DmaBuf)
  | enable_chan (site : EnableSite)
  | read_xfersize (answer : Nat)
  | get_conn_status (answer : Bool)
  | get_speed
  | set_port_reset (level : Bool)
  | dis_pwr
  | en_pwr
  | gintsts_clear_intrs
  deriving DecidableEq, Repr

/-- What the controller is handed when the channel is enabled: the programmed
direction, PID, transfer size and packet count, and for an OUT transaction the
first `xfersize` bytes of the DMA array the address register points to. -/
structure Transaction where
  dir : Nat
  pid : Nat
  xfersize : Nat
  pktcnt : Nat
  payload : List Nat
  deriving DecidableEq, Repr

/-- The fields of the channel registers the engine writes. -/
structure ChanRegs where
  ep_num : Nat
  dev_addr : Nat
  mps : Nat
  dir : Nat
  xfersize : Nat
  pktcnt : Nat
  pid : Nat
  dmaaddr : DmaBuf
  deriving DecidableEq, Repr

/-- Engine state, caller memory, environment script and observations. -/
structure World where
  /-- successive answers of `usb_dwc_ll_hcchar_chan_is_enabled` -/
  env_enabled : List Bool
  /-- for each polling loop in turn, the interrupt readings of the iterations
  that begin before the deadline -/
  env_polls : List (List HcInt)
  /-- successive values read back from `hctsiz_reg.xfersize` -/
  env_xfersize : List Nat
  /-- contents of `rx_dma_buffer` found at each completed DATA-IN -/
  env_rx : List (List Nat)
  /-- successive answers of `usb_dwc_ll_hprt_get_conn_status` -/
  env_conn : List Bool
  regs : ChanRegs
  consecutive_failures : Int
  recovery_attempts : Int
  cached_device_info : usb_device_info_t
  usb_needs_reset : Bool
  packet_buffer : List Nat
  dma_buffer : List Nat
  chunk_buffer : List Nat
  response_buffer : List Nat
  bytes_received : Nat
  trace : List HwOp
  bus : List Transaction
  deriving DecidableEq, Repr

/-- Undefined behaviour the run can end in. -/
inductive Fault where
  | divide_by_zero
  | dma_buffer_overflow (len : Nat)
  | rx_buffer_overread (len : Nat)
  | null_store
  deriving DecidableEq, Repr

/-- How a call ended. -/
inductive Status where
  | returned (e : esp_err_t)
  | crashed (f : Fault)
  deriving DecidableEq, Repr

/-- Result of a call together with the world it leaves. -/
structure Outcome where
  status : Status
  world : World
  deriving DecidableEq, Repr

/-! ## Memory helpers -/

/-- The effect of `memcpy(dst + off, src, n)` on the array `dst`: the `n`
bytes from offset `off` on are replaced by the first `n` bytes of `src`. -/
def memcpy (dst : List Nat) (off : Nat) (src : List Nat) (n : Nat) : List Nat :=
  dst.take off ++ (List.range n).map (fun i => src.getD i 0) ++ dst.drop (off + n)

/-- The effect of `memset(buf, 0, sizeof buf)` on an array of `size` bytes. -/
def memset_zero (size : Nat) : List Nat := List.replicate size 0

/-! ## World helpers -/

/-- Append HAL calls to the trace. -/
def World.emit (w : World) (ops : List HwOp) : World :=
  { w with trace := w.trace ++ ops }

/-- Read the channel-enabled bit: `usb_dwc_ll_hcchar_chan_is_enabled`. -/
def chan_is_enabled (w : World) : Bool × World :=
  let answer := w.env_enabled.headD false
  (answer, { w with env_enabled := w.env_enabled.tail,
                    trace := w.trace ++ [HwOp.chan_is_enabled answer] })

/-- Read the port connection status: `usb_dwc_ll_hprt_get_conn_status`. -/
def get_conn_status (w : World) : Bool × World :=
  let answer := w.env_conn.headD false
  (answer, { w with env_conn := w.env_conn.tail,
                    trace := w.trace ++ [HwOp.get_conn_status answer] })

/-- The array the DMA address register points to. -/
def World.dma_contents (w : World) : List Nat :=
  match w.regs.dmaaddr with
  | DmaBuf.setup_dma => w.dma_buffer
  | DmaBuf.chunk_dma => w.chunk_buffer
  | DmaBuf.rx_dma => []

/-- The call `usb_dwc_ll_hcchar_enable_chan`: the controller starts the
transaction described by the channel registers. -/
def enable_chan (site : EnableSite) (w : World) : World :=
  { w with
    trace := w.trace ++ [HwOp.enable_chan site],
    bus := w.bus ++ [{ dir := w.regs.dir, pid := w.regs.pid,
                       xfersize := w.regs.xfersize, pktcnt := w.regs.pktcnt,
                       payload := if w.regs.dir = 0 then w.dma_contents.take w.regs.xfersize
                                  else [] }] }

/-- The loop `for (i = 0; i < n; i++) { vTaskDelay(1); if (!enabled) break; }`
that waits for a disabled channel to halt. -/
def wait_chan_halt : Nat → World → World
  | 0, w => w
  | n + 1, w =>
    let w1 := w.emit [HwOp.delay 1]
    let r := chan_is_enabled w1
    if r.1 then wait_chan_halt n r.2 else r.2

/-! ## `usb_send_packet_impl`: building the packet -/

/-- Lines 549-573: the contents of the static `packet_buffer` after the build. -/
def build_packet_buffer (config : usb_packet_config_t) : List Nat :=
  let b0 := memset_zero USB_MAX_PACKET_SIZE
  let bytes_to_build :=
    if config.packet_size < USB_SETUP_PACKET_SIZE then config.packet_size
    else USB_SETUP_PACKET_SIZE
  let b1 := if bytes_to_build ≥ 1 then b0.set 0 config.bmRequestType else b0
  let b2 := if bytes_to_build ≥ 2 then b1.set 1 config.bRequest else b1
  let b3 := if bytes_to_build ≥ 3 then b2.set 2 (config.wValue &&& 0xFF) else b2
  let b4 := if bytes_to_build ≥ 4 then b3.set 3 ((config.wValue >>> 8) &&& 0xFF) else b3
  let b5 := if bytes_to_build ≥ 5 then b4.set 4 (config.wIndex &&& 0xFF) else b4
  let b6 := if bytes_to_build ≥ 6 then b5.set 5 ((config.wIndex >>> 8) &&& 0xFF) else b5
  let b7 := if bytes_to_build ≥ 7 then b6.set 6 (config.wLength &&& 0xFF) else b6
  let b8 := if bytes_to_build ≥ 8 then b7.set 7 ((config.wLength >>> 8) &&& 0xFF) else b7
  if config.packet_size > USB_SETUP_PACKET_SIZE then
    let extra_bytes := config.packet_size - USB_SETUP_PACKET_SIZE
    let extra_bytes := if extra_bytes > USB_MAX_EXTRA_DATA then USB_MAX_EXTRA_DATA else extra_bytes
    memcpy b8 USB_SETUP_PACKET_SIZE config.extra_data extra_bytes
  else b8

/-! ## `usb_send_reset_impl` and `usb_flush_all_fifos` -/

/-- Lines 470-512. The speed read only feeds the log. -/
def usb_send_reset_impl (w : World) : esp_err_t × World :=
  let c := get_conn_status w
  let w1 := if c.1 then c.2.emit [HwOp.get_speed] else c.2
  let w2 := w1.emit [HwOp.set_port_reset true, HwOp.delay 15,
                     HwOp.set_port_reset false, HwOp.delay 20]
  let c2 := get_conn_status w2
  let w3 := if c2.1 then c2.2.emit [HwOp.get_speed] else c2.2
  (esp_err_t.ESP_OK, w3)

/-- Lines 367-375. -/
def usb_flush_all_fifos (w : World) : World :=
  w.emit [HwOp.flush_nptx_fifo, HwOp.flush_ptx_fifo, HwOp.flush_rx_fifo, HwOp.delay 1]

/-! ## `usb_write_data` (DATA-OUT stage) -/

/-- How the polling loop of one DATA-OUT chunk ends. -/
inductive ChunkEnd where
  | complete
  | stalled
  | failed
  | timed_out
  deriving DecidableEq, Repr

/-- Lines 716-733: the polling loop of one chunk. The list holds the readings of
the iterations entered before the deadline `timeout_ticks`. -/
def write_chunk_poll : List HcInt → World → ChunkEnd × World
  | [], w => (ChunkEnd.timed_out, w)
  | hcint :: rest, w =>
    let w1 := w.emit [HwOp.hcint_read_and_clear]
    if hcint.chhltd then
      if hcint.xfercompl then (ChunkEnd.complete, w1)
      else if hcint.stall then (ChunkEnd.stalled, w1)
      else (ChunkEnd.failed, w1)
    else write_chunk_poll rest (w1.emit [HwOp.delay 1])

/-- Lines 681-693: contents of the 64-byte chunk array for the chunk that
starts at `total_sent`. -/
def chunk_fill (data : List Nat) (available_data total_sent chunk_size : Nat) : List Nat :=
  let dma_buffer := memset_zero USB_DMA_CHUNK_SIZE
  if total_sent < available_data then
    let copy_size :=
      if total_sent + chunk_size ≤ available_data then chunk_size
      else available_data - total_sent
    memcpy dma_buffer 0 (data.drop total_sent) copy_size
  else dma_buffer

/-- Lines 669-709: one iteration of the loop up to the point where the chunk
is handed to the controller. -/
def chunk_start (data : List Nat) (length available_data total_sent current_pid : Nat)
    (w : World) : World :=
  let r := chan_is_enabled w
  let w1 := if r.1 then r.2.emit [HwOp.disable_chan, HwOp.delay 1] else r.2
  let w2 := { w1 with regs := { w1.regs with dir := 0 } }.emit
    [HwOp.hcint_read_and_clear, HwOp.set_dir 0]
  let remaining := length - total_sent
  let chunk_size := if remaining > USB_DMA_CHUNK_SIZE then USB_DMA_CHUNK_SIZE else remaining
  let w3 := { w2 with
    chunk_buffer := chunk_fill data available_data total_sent chunk_size,
    regs := { w2.regs with xfersize := chunk_size, pktcnt := 1, pid := current_pid,
                           dmaaddr := DmaBuf.chunk_dma } }.emit
    [HwOp.hctsiz_init, HwOp.set_xfersize chunk_size, HwOp.set_pktcnt 1,
     HwOp.set_pid current_pid, HwOp.set_dmaaddr DmaBuf.chunk_dma]
  enable_chan EnableSite.data_out_chunk w3

/-- Lines 668-744: the loop `while (total_sent < length)`. The first argument
bounds the number of iterations; `usb_write_data` passes `length`, which the
loop never exhausts because every iteration sends at least one byte. -/
def write_data_loop (data : List Nat) (length available_data : Nat) :
    Nat → Nat → Nat → World → Outcome
  | 0, _, _, w => { status := Status.returned esp_err_t.ESP_OK, world := w }
  | fuel + 1, total_sent, current_pid, w =>
    if total_sent < length then
      let remaining := length - total_sent
      let chunk_size := if remaining > USB_DMA_CHUNK_SIZE then USB_DMA_CHUNK_SIZE else remaining
      let w4 := chunk_start data length available_data total_sent current_pid w
      let polls := w4.env_polls.headD []
      let w5 := { w4 with env_polls := w4.env_polls.tail }
      let p := write_chunk_poll polls w5
      match p.1 with
      | ChunkEnd.complete =>
        write_data_loop data length available_data fuel (total_sent + chunk_size)
          (if current_pid = 2 then 0 else 2) p.2
      | ChunkEnd.stalled =>
        { status := Status.returned esp_err_t.ESP_ERR_INVALID_RESPONSE, world := p.2 }
      | ChunkEnd.failed => { status := Status.returned esp_err_t.ESP_FAIL, world := p.2 }
      | ChunkEnd.timed_out => { status := Status.returned esp_err_t.ESP_ERR_TIMEOUT, world := p.2 }
    else { status := Status.returned esp_err_t.ESP_OK, world := w }

/-- Lines 651-749. `timeout_ms` fixes the deadline of each polling loop, whose
effect is the length of the reading list the environment supplies. -/
def usb_write_data (data : List Nat) (length : Nat) (_timeout_ms : Nat) (w : World) : Outcome :=
  let available_data := if length > USB_MAX_EXTRA_DATA then USB_MAX_EXTRA_DATA else length
  write_data_loop data length available_data length 0 2 w

/-! ## `usb_read_response` (DATA-IN stage) -/

/-- How the polling loop of the DATA-IN stage ends. -/
inductive ReadEnd where
  | received
  | gave_up
  | fault (f : Fault)
  deriving DecidableEq, Repr

/-- Lines 802-838: the polling loop. The Boolean is `first_poll`. -/
def read_poll_loop (buffer : Ptr) (max_len : Nat) (bytes_read : Ptr) :
    Bool → List HcInt → World → ReadEnd × World
  | _, [], w => (ReadEnd.gave_up, w)
  | first_poll, hcint :: rest, w =>
    let w1 := w.emit [HwOp.hcint_read_and_clear]
    if first_poll && hcint.chhltd && !hcint.xfercompl then
      read_poll_loop buffer max_len bytes_read false rest (w1.emit [HwOp.delay 1])
    else if hcint.chhltd then
      if hcint.xfercompl then
        let remaining := w1.env_xfersize.headD 0 % SIZE_MOD
        let w2 := { w1 with env_xfersize := w1.env_xfersize.tail,
                            trace := w1.trace ++ [HwOp.read_xfersize remaining] }
        if bytes_read = Ptr.null then (ReadEnd.fault Fault.null_store, w2)
        else
          let n := (max_len % SIZE_MOD + SIZE_MOD - remaining) % SIZE_MOD
          let w3 := { w2 with bytes_received := n }
          if n > 0 ∧ n ≤ max_len then
            if buffer = Ptr.null then (ReadEnd.fault Fault.null_store, w3)
            else if n > 256 then (ReadEnd.fault (Fault.rx_buffer_overread n), w3)
            else
              (ReadEnd.received,
               { w3 with response_buffer := memcpy w3.response_buffer 0 (w3.env_rx.headD []) n,
                         env_rx := w3.env_rx.tail,
                         consecutive_failures := 0,
                         recovery_attempts := 0 })
          else if hcint.nak then
            read_poll_loop buffer max_len bytes_read false rest
              ((enable_chan EnableSite.nak_retry w3).emit [HwOp.delay 1])
          else (ReadEnd.gave_up, w3)
      else if hcint.nak then
        read_poll_loop buffer max_len bytes_read false rest
          ((enable_chan EnableSite.nak_retry w1).emit [HwOp.delay 1])
      else (ReadEnd.gave_up, w1)
    else read_poll_loop buffer max_len bytes_read false rest (w1.emit [HwOp.delay 1])

/-- Lines 840-884: failure accounting and auto-recovery. -/
def read_failure_path (bytes_read : Ptr) (w : World) : Outcome :=
  if bytes_read = Ptr.null then { status := Status.crashed Fault.null_store, world := w }
  else
    let w1 := { w with bytes_received := 0, consecutive_failures := w.consecutive_failures + 1 }
    let w2 :=
      if w1.consecutive_failures ≥ MAX_CONSECUTIVE_FAILURES then
        let a := { w1 with recovery_attempts := w1.recovery_attempts + 1 }
        let b :=
          if a.recovery_attempts ≥ MAX_RECOVERY_ATTEMPTS then
            let p := a.emit [HwOp.dis_pwr, HwOp.delay 500, HwOp.en_pwr, HwOp.delay 500]
            let q := (usb_send_reset_impl p).2
            { q with recovery_attempts := 0 }.emit [HwOp.delay 200]
          else
            let p := (usb_flush_all_fifos a).emit [HwOp.gintsts_clear_intrs]
            let q := (usb_send_reset_impl p).2
            q.emit [HwOp.delay 150]
        { b with consecutive_failures := 0 }
      else w1
    { status := Status.returned esp_err_t.ESP_ERR_TIMEOUT, world := w2 }

/-- Lines 765-798: channel preparation and start of the IN transaction. -/
def read_start (max_len : Nat) (w : World) : World :=
  let r := chan_is_enabled w
  let w1 := if r.1 then wait_chan_halt 5 (r.2.emit [HwOp.disable_chan]) else r.2
  let pktcnt := ((max_len + 63) % SIZE_MOD) / 64
  let w2 := { w1 with regs := { w1.regs with dir := 1, xfersize := max_len, pktcnt := pktcnt,
                                             pid := 2, dmaaddr := DmaBuf.rx_dma } }.emit
    [HwOp.hcint_read_and_clear, HwOp.set_dir 1, HwOp.hctsiz_init, HwOp.set_xfersize max_len,
     HwOp.set_pktcnt pktcnt, HwOp.hctsiz_set_pid 1, HwOp.set_dmaaddr DmaBuf.rx_dma,
     HwOp.hcint_read_and_clear]
  (enable_chan EnableSite.data_in_start w2).emit [HwOp.delay 1]

/-- Lines 755-885. `max_nak_retries` is received and never read. -/
def usb_read_response (buffer : Ptr) (max_len : Nat) (_timeout_ms : Nat) (bytes_read : Ptr)
    (_max_nak_retries : Int) (w : World) : Outcome :=
  let w3 := read_start max_len w
  let polls := w3.env_polls.headD []
  let w4 := { w3 with env_polls := w3.env_polls.tail }
  let p := read_poll_loop buffer max_len bytes_read true polls w4
  match p.1 with
  | ReadEnd.received => { status := Status.returned esp_err_t.ESP_OK, world := p.2 }
  | ReadEnd.fault f => { status := Status.crashed f, world := p.2 }
  | ReadEnd.gave_up => read_failure_path bytes_read p.2

/-! ## `usb_send_packet_impl` (SETUP stage and dispatch) -/

/-- Lines 584-601: the channel reset that precedes the SETUP transaction. -/
def setup_channel_reset (w : World) : World :=
  let r := chan_is_enabled w
  let w1 := if r.1 then wait_chan_halt 10 (r.2.emit [HwOp.disable_chan]) else r.2
  w1.emit [HwOp.hcint_read_and_clear, HwOp.flush_rx_fifo, HwOp.hctsiz_init]

/-- Lines 549-627: from the packet build to the settle delay after the channel
is enabled. The result is the fault the stage ends in, if any, and the world. -/
def setup_stage (config : usb_packet_config_t) (w : World) : Option Fault × World :=
  let w0 := { w with packet_buffer := build_packet_buffer config }
  let w1 := setup_channel_reset w0
  let w2 := { w1 with regs := { w1.regs with ep_num := config.endpoint,
                                             dev_addr := config.device_addr,
                                             mps := config.max_packet_size,
                                             dir := 0 } }.emit
    [HwOp.set_ep_num config.endpoint, HwOp.set_dev_addr config.device_addr,
     HwOp.set_ep_type_ctrl, HwOp.set_mps config.max_packet_size, HwOp.set_dir 0]
  let w3 := { w2 with regs := { w2.regs with xfersize := config.packet_size } }.emit
    [HwOp.hctsiz_init, HwOp.set_xfersize config.packet_size]
  if config.max_packet_size = 0 then (some Fault.divide_by_zero, w3)
  else
    let pktcnt :=
      ((config.packet_size + config.max_packet_size - 1) % SIZE_MOD) / config.max_packet_size
    let w4 := { w3 with regs := { w3.regs with pktcnt := pktcnt, pid := 3 } }.emit
      [HwOp.set_pktcnt pktcnt, HwOp.set_pid 3]
    if config.packet_size > 256 then
      (some (Fault.dma_buffer_overflow config.packet_size), w4)
    else
      let w5 := { w4 with
        dma_buffer := memcpy w4.dma_buffer 0 w4.packet_buffer config.packet_size,
        regs := { w4.regs with dmaaddr := DmaBuf.setup_dma } }.emit
        [HwOp.set_dmaaddr DmaBuf.setup_dma]
      let w6 := enable_chan EnableSite.setup w5
      (none, w6.emit [HwOp.delay 10])

/-- Lines 526-646. The argument is `none` for a null `config` pointer. -/
def usb_send_packet_impl (config : Option usb_packet_config_t) (w : World) : Outcome :=
  match config with
  | none => { status := Status.returned esp_err_t.ESP_ERR_INVALID_ARG, world := w }
  | some config =>
    if config.packet_size ≤ 0 then
      { status := Status.returned esp_err_t.ESP_ERR_INVALID_ARG, world := w }
    else
      let s := setup_stage config w
      match s.1 with
      | some f => { status := Status.crashed f, world := s.2 }
      | none =>
        let is_host_to_device := (config.bmRequestType &&& 0x80) = 0
        if is_host_to_device ∧ config.wLength > 0 then
          usb_write_data config.extra_data config.wLength config.timeout_ms s.2
        else if ¬ is_host_to_device ∧ config.expect_response = true
            ∧ config.response_buffer ≠ Ptr.null then
          usb_read_response config.response_buffer config.response_buffer_size
            config.timeout_ms config.bytes_received config.max_nak_retries s.2
        else { status := Status.returned esp_err_t.ESP_OK, world := s.2 }

/-- Lines 891-911. -/
def usb_packet_config_default : usb_packet_config_t :=
  { bmRequestType := 0x80
    bRequest := 0x06
    wValue := 0x0100
    wIndex := 0x0000
    wLength := USB_DEVICE_DESCRIPTOR_SIZE
    packet_size := USB_SETUP_PACKET_SIZE
    extra_data := memset_zero 248
    device_addr := 0
    endpoint := 0
    max_packet_size := USB_CONTROL_EP0_MPS
    expect_response := true
    timeout_ms := USB_DEFAULT_TIMEOUT_MS
    max_nak_retries := -1
    response_buffer := Ptr.null
    response_buffer_size := 0
    bytes_received := Ptr.null }

/-- The engine with its statics zeroed, nothing on the bus, and an environment
that answers every read with its idle value. `usb_needs_reset`, which the
firmware starts as true, is false here, as after the first request has
cleared it. -/
def World.boot : World :=
  { env_enabled := []
    env_polls := []
    env_xfersize := []
    env_rx := []
    env_conn := []
    regs := { ep_num := 0, dev_addr := 0, mps := 0, dir := 0, xfersize := 0, pktcnt := 0,
              pid := 0, dmaaddr := DmaBuf.setup_dma }
    consecutive_failures := 0
    recovery_attempts := 0
    cached_device_info :=
      { connected := false, vid := 0, pid := 0, device_class := 0, device_subclass := 0,
        device_protocol := 0, max_packet_size := 0, manufacturer := "", product := "",
        serial := "" }
    usb_needs_reset := false
    packet_buffer := memset_zero 256
    dma_buffer := memset_zero 256
    chunk_buffer := memset_zero 64
    response_buffer := []
    bytes_received := 0
    trace := []
    bus := [] }

/-! ## Words of the specification and observed transactions -/

/-- The 8-byte setup layout in the words of the specification: type, request,
value low/high, index low/high, length low/high. -/
def spec_setup_layout (c : usb_packet_config_t) : List Nat :=
  [c.bmRequestType, c.bRequest, c.wValue % 256, c.wValue / 256 % 256,
   c.wIndex % 256, c.wIndex / 256 % 256, c.wLength % 256, c.wLength / 256 % 256]

/-- Fields a pure register access leaves alone: everything but the trace and
the cursor into the channel-enabled answers. -/
def World.same_state (w w1 : World) : Prop :=
  w1.env_polls = w.env_polls ∧ w1.env_xfersize = w.env_xfersize ∧ w1.env_rx = w.env_rx
    ∧ w1.env_conn = w.env_conn ∧ w1.regs = w.regs
    ∧ w1.consecutive_failures = w.consecutive_failures
    ∧ w1.recovery_attempts = w.recovery_attempts
    ∧ w1.cached_device_info = w.cached_device_info
    ∧ w1.usb_needs_reset = w.usb_needs_reset
    ∧ w1.packet_buffer = w.packet_buffer ∧ w1.dma_buffer = w.dma_buffer
    ∧ w1.chunk_buffer = w.chunk_buffer ∧ w1.response_buffer = w.response_buffer
    ∧ w1.bytes_received = w.bytes_received ∧ w1.bus = w.bus

/-- The transaction the SETUP stage of a request hands to the controller. -/
def setup_transaction (c : usb_packet_config_t) : Transaction :=
  { dir := 0
    pid := 3
    xfersize := c.packet_size
    pktcnt := ((c.packet_size + c.max_packet_size - 1) % SIZE_MOD) / c.max_packet_size
    payload := (build_packet_buffer c).take c.packet_size }

/-- The transaction that carries the chunk starting at `total_sent`. -/
def chunk_transaction (data : List Nat) (length available_data total_sent pid : Nat) :
    Transaction :=
  let chunk_size := if length - total_sent > USB_DMA_CHUNK_SIZE then USB_DMA_CHUNK_SIZE
    else length - total_sent
  { dir := 0
    pid := pid
    xfersize := chunk_size
    pktcnt := 1
    payload := (chunk_fill data available_data total_sent chunk_size).take chunk_size }

/-! ## Sample requests -/

/-- A request truncated to three bytes. -/
def request_truncated : usb_packet_config_t :=
  { usb_packet_config_default with packet_size := 3 }

/-- A request with three bytes appended to the setup packet. -/
def request_oversized : usb_packet_config_t :=
  { usb_packet_config_default with
    packet_size := 11
    extra_data := [0xAA, 0xAB, 0xAC] ++ memset_zero 245 }

/-- A request whose packet size exceeds the 256-byte arrays. -/
def request_too_large : usb_packet_config_t :=
  { usb_packet_config_default with packet_size := 300 }

/-- A request for an endpoint with a zero maximum packet size. -/
def request_zero_mps : usb_packet_config_t :=
  { usb_packet_config_default with max_packet_size := 0 }

/-- A request with the largest packet size a `size_t` holds. -/
def request_size_max : usb_packet_config_t :=
  { usb_packet_config_default with packet_size := 4294967295 }

/-- The transaction that starts the DATA-IN stage. -/
def data_in_transaction (max_len : Nat) : Transaction :=
  { dir := 1, pid := 2, xfersize := max_len, pktcnt := ((max_len + 63) % SIZE_MOD) / 64,
    payload := [] }

/-- A host-to-device request with a three-byte data stage. -/
def request_data_out : usb_packet_config_t :=
  { usb_packet_config_default with
    bmRequestType := 0x00
    bRequest := 0x09
    wLength := 3
    extra_data := [0x41, 0x42, 0x43] ++ memset_zero 245 }

/-- The default request with a caller buffer for the descriptor. -/
def request_data_in : usb_packet_config_t :=
  { usb_packet_config_default with
    response_buffer := Ptr.valid
    response_buffer_size := 18
    bytes_received := Ptr.valid }

/-! ## Result of a DATA-OUT chunk -/

/-- The result of one chunk in the words of the specification: decided by the
first reading that shows a halt; transfer-complete is success, stall without
transfer-complete is a protocol stall, any other halt a transfer error, and no
halt before the deadline a timeout. -/
def spec_chunk_result (polls : List HcInt) : esp_err_t :=
  match polls.find? (fun h => h.chhltd) with
  | none => esp_err_t.ESP_ERR_TIMEOUT
  | some h =>
    if h.xfercompl then esp_err_t.ESP_OK
    else if h.stall then esp_err_t.ESP_ERR_INVALID_RESPONSE
    else esp_err_t.ESP_FAIL

/-- The code `usb_write_data` returns for each way a chunk can end. -/
def chunk_end_code : ChunkEnd → esp_err_t
  | ChunkEnd.complete => esp_err_t.ESP_OK
  | ChunkEnd.stalled => esp_err_t.ESP_ERR_INVALID_RESPONSE
  | ChunkEnd.failed => esp_err_t.ESP_FAIL
  | ChunkEnd.timed_out => esp_err_t.ESP_ERR_TIMEOUT

/-- A device that completes the next polling loop at its first reading. -/
def world_one_completion : World :=
  { World.boot with
    env_polls := [[{ chhltd := true, xfercompl := true, stall := false, nak := false }]] }

/-! ## The reset sequence before an enable -/

/-- What has been done to the channel since it was last enabled. Each field
after `cleared` records a step done after the steps before it. -/
structure ResetProgress where
  /-- the channel was found idle, or was disabled -/
  halted : Bool
  /-- the channel interrupt flags were read and cleared -/
  cleared : Bool
  /-- the interrupt flags were cleared after the halt -/
  halted_cleared : Bool
  /-- the RX FIFO was flushed after halt and clear -/
  flushed : Bool
  /-- the transfer size register was re-initialised after halt, clear and flush -/
  full : Bool
  /-- the transfer size register was re-initialised after halt and clear -/
  part : Bool
  deriving DecidableEq, Repr

/-- Nothing done yet: the state right after an enable. -/
def ResetProgress.fresh : ResetProgress :=
  { halted := false, cleared := false, halted_cleared := false, flushed := false,
    full := false, part := false }

/-- The effect of one HAL call other than an enable. -/
def ResetProgress.step (s : ResetProgress) : HwOp → ResetProgress
  | HwOp.chan_is_enabled false => { s with halted := true }
  | HwOp.disable_chan => { s with halted := true }
  | HwOp.hcint_read_and_clear =>
    { s with cleared := true, halted_cleared := s.halted || s.halted_cleared }
  | HwOp.flush_rx_fifo => { s with flushed := s.halted_cleared || s.flushed }
  | HwOp.hctsiz_init => { s with full := s.flushed || s.full, part := s.halted_cleared || s.part }
  | _ => s

/-- The discipline of the claim: every enable follows the full sequence. -/
def full_reset_required (s : ResetProgress) (_site : EnableSite) : Bool := s.full

/-- The discipline of the code: the full sequence before the SETUP transaction,
halt, clear and transfer size re-initialisation before a DATA-OUT chunk and
before the DATA-IN start, and a read-and-clear before a NAK re-enable. -/
def reset_as_coded (s : ResetProgress) : EnableSite → Bool
  | EnableSite.setup => s.full
  | EnableSite.data_out_chunk => s.part
  | EnableSite.data_in_start => s.part
  | EnableSite.nak_retry => s.cleared

/-- One step of the audit of a trace: an enable is checked against the
discipline and starts the progress afresh, any other call advances it. -/
def audit_step (ok : ResetProgress → EnableSite → Bool) (a : Bool × ResetProgress) :
    HwOp → Bool × ResetProgress
  | HwOp.enable_chan site => (a.1 && ok a.2 site, ResetProgress.fresh)
  | op => (a.1, a.2.step op)

/-- Audit of a trace: whether every enable so far met the discipline, and the
progress since the last enable. -/
def audit (ok : ResetProgress → EnableSite → Bool) (trace : List HwOp) : Bool × ResetProgress :=
  trace.foldl (audit_step ok) (true, ResetProgress.fresh)

/-- Every enable of the trace is preceded, since the previous enable, by what
the discipline asks for. -/
def enables_follow (ok : ResetProgress → EnableSite → Bool) (trace : List HwOp) : Bool :=
  (audit ok trace).1

/-- A device that answers the DATA-IN stage with a NAK and then completes. -/
def world_nak_then_data : World :=
  { World.boot with
    env_polls := [[{ chhltd := false, xfercompl := false, stall := false, nak := false },
                   { chhltd := true, xfercompl := false, stall := false, nak := true },
                   { chhltd := true, xfercompl := true, stall := false, nak := false }]]
    env_rx := [[18, 1, 0, 2, 0, 0, 0, 64, 0x34, 0x12, 0x78, 0x56, 0, 1, 1, 2, 3, 1]] }

/-- A device that stalls the first DATA-OUT chunk. -/
def world_stall : World :=
  { World.boot with
    env_polls := [[{ chhltd := false, xfercompl := false, stall := false, nak := false },
                   { chhltd := true, xfercompl := false, stall := true, nak := false }]] }

/-- Whether a reading lets the DATA-IN polling loop go on to the next one
without a transfer-complete: no halt, a halt on the first poll (discarded), or a
halt with NAK (retried). -/
def keeps_polling (first_poll : Bool) (h : HcInt) : Bool :=
  !h.chhltd || (!h.xfercompl && (first_poll || h.nak))

/-- All readings of the list keep the DATA-IN loop polling; only the first one
is taken as a first poll. -/
def all_keep_polling : Bool → List HcInt → Bool
  | _, [] => true
  | first_poll, h :: rest => keeps_polling first_poll h && all_keep_polling false rest

/-- A reading without any flag. -/
def hcint_idle : HcInt := { chhltd := false, xfercompl := false, stall := false, nak := false }

/-- A halt with transfer-complete. -/
def hcint_complete : HcInt := { chhltd := true, xfercompl := true, stall := false, nak := false }

/-- A halt with the stall flag. -/
def hcint_stall : HcInt := { chhltd := true, xfercompl := false, stall := true, nak := false }

/-- A halt with no other flag the engine tests (a transaction error). -/
def hcint_error : HcInt := { chhltd := true, xfercompl := false, stall := false, nak := false }

/-- A halt with NAK. -/
def hcint_nak : HcInt := { chhltd := true, xfercompl := false, stall := false, nak := true }

/-- A device that completes the IN transfer with nothing received: the
remaining transfer size read back equals the 18 bytes asked for. -/
def world_zero_length_completion : World :=
  { World.boot with env_polls := [[hcint_idle, hcint_complete]], env_xfersize := [18] }

/-- A device that delivers an 18-byte descriptor at the second poll. -/
def world_descriptor : World :=
  { World.boot with
    env_polls := [[hcint_idle, hcint_complete]]
    env_xfersize := [0]
    env_rx := [[18, 1, 0, 2, 0, 0, 0, 64, 0x34, 0x12, 0x78, 0x56, 0, 1, 1, 2, 3, 1]] }

/-- A device that stalls the IN transfer at the second poll. -/
def world_in_stall : World :=
  { World.boot with env_polls := [[hcint_idle, hcint_stall]] }

/-- A device that reports a transaction error at the second poll. -/
def world_in_error : World :=
  { World.boot with env_polls := [[hcint_idle, hcint_error]] }

/-- A world whose counters are raised and whose device then answers. -/
def world_elevated_then_data : World :=
  { world_descriptor with consecutive_failures := 4, recovery_attempts := 2 }

/-- A device that answers the DATA-IN stage with `k` NAKs after an idle first
reading and nothing else before the deadline. -/
def world_naks (k : Nat) : World :=
  { World.boot with env_polls := [hcint_idle :: List.replicate k hcint_nak] }

/-- Number of Tier-1 recoveries in a trace: each one clears the global
interrupt flags once, and nothing else does after initialisation. -/
def tier1_count (trace : List HwOp) : Nat := trace.count HwOp.gintsts_clear_intrs

/-- Number of Tier-2 recoveries in a trace: each one removes port power once. -/
def tier2_count (trace : List HwOp) : Nat := trace.count HwOp.dis_pwr

/-- The world after `n` consecutive `usb_read_response` calls. -/
def read_calls (buffer : Ptr) (max_len timeout_ms : Nat) (bytes_read : Ptr)
    (max_nak_retries : Int) : Nat → World → World
  | 0, w => w
  | n + 1, w =>
    (usb_read_response buffer max_len timeout_ms bytes_read max_nak_retries
      (read_calls buffer max_len timeout_ms bytes_read max_nak_retries n w)).world

/-! ## `usb_get_device_info_impl`, the cache and the connection monitor -/

/-- A `usb_device_info_t` after `memset(.., 0, ..)`. -/
def device_info_zero : usb_device_info_t :=
  { connected := false, vid := 0, pid := 0, device_class := 0, device_subclass := 0,
    device_protocol := 0, max_packet_size := 0, manufacturer := "", product := "", serial := "" }

/-- Element `i` of a `uint8_t` array. -/
def byte_at (l : List Nat) (i : Nat) : Nat := l.getD i 0 % 256

/-- Lines 953-969: the GET_DESCRIPTOR request built by `usb_get_device_info_impl`;
the fields not named by the initialiser are zero. -/
def device_descriptor_request : usb_packet_config_t :=
  { bmRequestType := 0x80
    bRequest := 0x06
    wValue := 0x0100
    wIndex := 0x0000
    wLength := USB_DEVICE_DESCRIPTOR_SIZE
    packet_size := USB_SETUP_PACKET_SIZE
    extra_data := memset_zero 248
    device_addr := 0
    endpoint := 0
    max_packet_size := USB_CONTROL_EP0_MPS
    expect_response := true
    timeout_ms := 500
    max_nak_retries := 50
    response_buffer := Ptr.valid
    response_buffer_size := USB_DEVICE_DESCRIPTOR_SIZE
    bytes_received := Ptr.valid }

/-- Lines 935-972: the optional bus reset and the descriptor transfer. The
transfer writes to the local `desc_buffer` and `bytes_received`, which take the
place of the caller memory of the `World` for the duration of the call; the
local array starts with indeterminate contents, modelled as zeros. -/
def descriptor_fetch (w : World) : Outcome :=
  let w1 :=
    if w.usb_needs_reset then
      ({ (usb_send_reset_impl w).2 with usb_needs_reset := false }).emit [HwOp.delay 100]
    else w
  usb_send_packet_impl (some device_descriptor_request)
    { w1 with response_buffer := memset_zero USB_DEVICE_DESCRIPTOR_SIZE, bytes_received := 0 }

/-- Lines 976-981: the fields parsed from the descriptor. -/
def parse_device_descriptor (info : usb_device_info_t) (desc_buffer : List Nat) :
    usb_device_info_t :=
  { info with
    vid := (byte_at desc_buffer 8 ||| (byte_at desc_buffer 9 <<< 8)) % 65536
    pid := (byte_at desc_buffer 10 ||| (byte_at desc_buffer 11 <<< 8)) % 65536
    device_class := byte_at desc_buffer 4
    device_subclass := byte_at desc_buffer 5
    device_protocol := byte_at desc_buffer 6
    max_packet_size := byte_at desc_buffer 7 }

/-- Lines 913-998. The argument is the `info` pointer; the second component of
the result is what `*info` holds at the return (`none` for a null pointer). -/
def usb_get_device_info_impl (info : Ptr) (w : World) : Outcome × Option usb_device_info_t :=
  if info = Ptr.null then
    ({ status := Status.returned esp_err_t.ESP_ERR_INVALID_ARG, world := w }, none)
  else
    let info0 := device_info_zero
    let c := get_conn_status w
    if ¬ c.1 then
      ({ status := Status.returned esp_err_t.ESP_FAIL,
         world := { c.2 with
           cached_device_info := { c.2.cached_device_info with connected := false } } },
       some { info0 with connected := false })
    else
      let info1 := { info0 with connected := true }
      if c.2.cached_device_info.connected then
        ({ status := Status.returned esp_err_t.ESP_OK, world := c.2 },
         some c.2.cached_device_info)
      else
        let f := descriptor_fetch c.2
        let desc_buffer := f.world.response_buffer
        let bytes_received := f.world.bytes_received
        let w3 := { f.world with response_buffer := c.2.response_buffer,
                                 bytes_received := c.2.bytes_received }
        match f.status with
        | Status.crashed x => ({ status := Status.crashed x, world := w3 }, some info1)
        | Status.returned ret =>
          if ret = esp_err_t.ESP_OK ∧ bytes_received ≥ USB_DEVICE_DESCRIPTOR_SIZE then
            let info2 := parse_device_descriptor info1 desc_buffer
            ({ status := Status.returned esp_err_t.ESP_OK,
               world := { w3 with cached_device_info := { info2 with connected := true } } },
             some { info2 with manufacturer := "N/A", product := "N/A", serial := "N/A" })
          else ({ status := Status.returned esp_err_t.ESP_FAIL, world := w3 }, some info1)

/-- Lines 190-193: the worker's `USB_OP_CLEAR_CACHE`. -/
def usb_clear_cache_op (w : World) : esp_err_t × World :=
  (esp_err_t.ESP_OK, { w with cached_device_info := device_info_zero })

/-- Lines 75-88 of `main.c`: one round of the connection monitor. The Boolean
is `last_connected`; `usb_is_device_connected` is the worker's read of the port
status. -/
def monitor_round (last_connected : Bool) (w : World) : Bool × World :=
  let c := get_conn_status w
  if c.1 ≠ last_connected then
    if c.1 then (c.1, { c.2 with usb_needs_reset := true })
    else (c.1, c.2)
  else (last_connected, c.2)

/-- A device with vendor 0x1234 and product 0x5678 is attached, taken away and
replaced: the port reads connected, disconnected, connected, connected; the
device answers one descriptor request. -/
def world_device_swapped : World :=
  { world_descriptor with env_conn := [true, false, true, true] }

/-! ## The worker's operations -/

/-- An operation with its argument, as the worker finds it in `pending_op`
(lines 167-198). `USB_OP_INIT` is left out: the bring-up sequence of lines
381-468 is not part of this model. -/
inductive WorkerOp where
  | USB_OP_RESET
  | USB_OP_SEND_PACKET (config : Option usb_packet_config_t)
  | USB_OP_GET_STATUS
  | USB_OP_GET_DEVICE_INFO (info : Ptr)
  | USB_OP_CLEAR_CACHE
  deriving DecidableEq, Repr

/-- Lines 167-198: the worker executes one operation; the status is
`pending_op.result`. -/
def worker_execute (op : WorkerOp) (w : World) : Outcome :=
  match op with
  | WorkerOp.USB_OP_RESET =>
    { status := Status.returned (usb_send_reset_impl w).1, world := (usb_send_reset_impl w).2 }
  | WorkerOp.USB_OP_SEND_PACKET config => usb_send_packet_impl config w
  | WorkerOp.USB_OP_GET_STATUS =>
    { status := Status.returned esp_err_t.ESP_OK, world := (get_conn_status w).2 }
  | WorkerOp.USB_OP_GET_DEVICE_INFO info => (usb_get_device_info_impl info w).1
  | WorkerOp.USB_OP_CLEAR_CACHE =>
    { status := Status.returned (usb_clear_cache_op w).1, world := (usb_clear_cache_op w).2 }

/-- The worker executes the operations one after the other (lines 160-205);
`none` when one of them ends in a fault. -/
def worker_run : List WorkerOp → World → Option World
  | [], w => some w
  | op :: ops, w =>
    match (worker_execute op w).status with
    | Status.crashed _ => none
    | Status.returned _ => worker_run ops (worker_execute op w).world

/-- The operation is a `get_device_info`. -/
def WorkerOp.is_info_request : WorkerOp → Bool
  | WorkerOp.USB_OP_GET_DEVICE_INFO _ => true
  | _ => false

/-- The port reads connected at every `get_device_info` of the run. -/
def reads_connected : List WorkerOp → World → Bool
  | [], _ => true
  | op :: ops, w =>
    (!op.is_info_request || w.env_conn.headD false)
    && reads_connected ops (worker_execute op w).world

/-- Two records agree on the six fields parsed from the descriptor. -/
def same_descriptor_fields (a b : usb_device_info_t) : Prop :=
  a.vid = b.vid ∧ a.pid = b.pid ∧ a.device_class = b.device_class
  ∧ a.device_subclass = b.device_subclass ∧ a.device_protocol = b.device_protocol
  ∧ a.max_packet_size = b.max_packet_size

/-- The device of `world_descriptor` stays attached: every port read finds it. -/
def world_device_attached : World :=
  { world_descriptor with env_conn := [true, true, true, true, true, true] }

/-- Operations run between two `get_device_info` calls: a status poll, a second
info request, a packet and a bus reset. -/
def sample_later_ops : List WorkerOp :=
  [WorkerOp.USB_OP_GET_STATUS, WorkerOp.USB_OP_GET_DEVICE_INFO Ptr.valid,
   WorkerOp.USB_OP_SEND_PACKET (some usb_packet_config_default), WorkerOp.USB_OP_RESET]

/-- The world `sample_later_ops` leaves behind after the first info request on
`world_device_attached`. -/
def world_after_later_ops : World :=
  (worker_run sample_later_ops
    (usb_get_device_info_impl Ptr.valid world_device_attached).1.world).getD World.boot

/-! ## The wait windows of the public wrappers -/

/-- Lines 47-55, without `USB_OP_NONE`, which no wrapper submits. -/
inductive usb_op_type_t where
  | USB_OP_INIT
  | USB_OP_RESET
  | USB_OP_SEND_PACKET
  | USB_OP_GET_STATUS
  | USB_OP_GET_DEVICE_INFO
  | USB_OP_CLEAR_CACHE
  deriving DecidableEq, Repr

/-- Lines 315-361: the time in milliseconds the public wrapper of each operation
kind waits for the completion signal. `timeout_ms` is `config->timeout_ms`, a
`uint32_t` that only `usb_send_packet` reads. -/
def completion_wait_ms (type : usb_op_type_t) (timeout_ms : Nat) : Nat :=
  match type with
  | usb_op_type_t.USB_OP_INIT => 10000
  | usb_op_type_t.USB_OP_RESET => 5000
  | usb_op_type_t.USB_OP_SEND_PACKET =>
    let timeout := (timeout_ms + 500) % 4294967296
    if timeout < 1000 then 1000 else timeout
  | usb_op_type_t.USB_OP_GET_STATUS => 1000
  | usb_op_type_t.USB_OP_GET_DEVICE_INFO => 2000
  | usb_op_type_t.USB_OP_CLEAR_CACHE => 1000

/-! ## Repeated resets -/

/-- The HAL calls of a port read in `usb_send_reset_impl`: the connection
status and, with a device on the port, the speed. -/
def port_check_ops (connected : Bool) : List HwOp :=
  if connected then [HwOp.get_conn_status true, HwOp.get_speed]
  else [HwOp.get_conn_status false]

/-- The HAL calls that drive the reset signal: assert, 15 ms, de-assert, 20 ms. -/
def reset_signal_ops : List HwOp :=
  [HwOp.set_port_reset true, HwOp.delay 15, HwOp.set_port_reset false, HwOp.delay 20]

/-- The world after `n` calls of `usb_send_reset_impl` one after the other. -/
def reset_calls : Nat → World → World
  | 0, w => w
  | n + 1, w => (usb_send_reset_impl (reset_calls n w)).2

/-- A port without a device whose status is read four times. -/
def world_no_device : World :=
  { World.boot with env_conn := [false, false, false, false],
                    consecutive_failures := 3, recovery_attempts := 1 }

/-- A device whose first reading is a stalled halt and whose second reading
completes the transfer with 18 bytes. -/
def world_stall_then_data : World :=
  { world_descriptor with env_polls := [[hcint_stall, hcint_complete]] }

/-- A device that is idle at the first reading, halts with a stall at the
second, and would complete at the third. -/
def world_idle_stall_data : World :=
  { world_descriptor with env_polls := [[hcint_idle, hcint_stall, hcint_complete]] }

/-! ## The recovery counters -/

/-- The range the recovery counters stay in: fewer than
`MAX_CONSECUTIVE_FAILURES` failures and fewer than `MAX_RECOVERY_ATTEMPTS`
recovery attempts. -/
def counters_in_range (w : World) : Prop :=
  0 ≤ w.consecutive_failures ∧ w.consecutive_failures ≤ 4
    ∧ 0 ≤ w.recovery_attempts ∧ w.recovery_attempts ≤ 2

/-- Both recovery counters are those of another world. -/
def same_counters (w w1 : World) : Prop :=
  w1.consecutive_failures = w.consecutive_failures
    ∧ w1.recovery_attempts = w.recovery_attempts

/-- A device whose completion leaves a remaining transfer size of 19, one more
than the 18 bytes asked for. -/
def world_remaining_above_max : World :=
  { World.boot with env_polls := [[hcint_idle, hcint_complete]], env_xfersize := [19] }

/-! ## The chunks of the DATA-OUT stage -/

/-- The data PID of the chunk sent `k` chunks after one sent with `pid`: line
741 toggles between 2 and 0 after every chunk. -/
def pid_after : Nat → Nat → Nat
  | pid, 0 => pid
  | pid, k + 1 => pid_after (if pid = 2 then 0 else 2) k

/-- A device that completes three chunks, each at its first reading. -/
def world_three_completions : World :=
  { World.boot with env_polls := [[hcint_complete], [hcint_complete], [hcint_complete]] }

/-! ## `api_send_request_handler` of `web_interface.c` -/

def HTTP_CUSTOM_DATA_MAX_LEN : Nat := 248

def HTTP_RESPONSE_BUFFER_SIZE : Nat := 512

def HTTP_HEX_STR_MAX_LEN : Nat := 384

def HTTP_ASCII_STR_MAX_LEN : Nat := 256

def HTTP_RESPONSE_MAX_BYTES : Nat := 128

/-- The query of a send request as the handler sees it: for each key that
`httpd_query_key_value` finds, the integer `strtol` or `atoi` returns for its
text; for `dataBytes`, when the key holds a non-empty string, the `strtol`
values of its tokens. -/
structure send_request_query where
  bmRequestType : Option Int
  bRequest : Option Int
  wValue : Option Int
  wIndex : Option Int
  wLength : Option Int
  packetSize : Option Int
  maxRetries : Option Int
  /-- the key `dataMode` is present and equals "append" -/
  dataMode_append : Bool
  dataBytes : Option (List Int)
  deriving DecidableEq, Repr

/-- The fields of the JSON answer that depend on the transfer; the echoed
request fields are left out. -/
structure send_response where
  status : String
  data : String
  ascii : String
  bytes_received : Nat
  connected : Bool
  deriving DecidableEq, Repr

/-- How a call of the handler ends. -/
inductive HandlerEnd where
  /-- no query string: nothing is sent -/
  | no_response
  | responded (r : send_response)
  /-- the engine ran into undefined behaviour -/
  | engine_fault (f : Fault)
  /-- `sprintf` wrote `needed` characters, terminator included, into the
  `HTTP_HEX_STR_MAX_LEN` characters of `hex_str` -/
  | hex_str_overflow (needed : Nat)
  deriving DecidableEq, Repr

/-- A C conversion of an `int` or `long` to an unsigned type with `modulus`
values. -/
def to_unsigned (v : Int) (modulus : Nat) : Nat := (v % (modulus : Int)).toNat

/-- Lines 246-250: the answer to a rejected `packetSize`. -/
def packet_size_rejected : send_response :=
  { status := "failed", data := "ERROR: packetSize <= 0 is invalid", ascii := "",
    bytes_received := 0, connected := false }

/-- Lines 216-243: `packetSize` after the query is parsed. -/
def query_packet_size (q : send_request_query) : Nat :=
  match q.packetSize with
  | some v => to_unsigned v SIZE_MOD
  | none => 8

/-- Lines 267-277: the bytes stored in `customData`, at most 248 of them. -/
def query_custom_data (q : send_request_query) : List Nat :=
  match q.dataBytes with
  | some tokens => (tokens.take HTTP_CUSTOM_DATA_MAX_LEN).map (fun t => to_unsigned t 256)
  | none => []

/-- Lines 291-345: the request handed to `usb_send_packet`. -/
def send_request_config (q : send_request_query) : usb_packet_config_t :=
  let bmRequestType := match q.bmRequestType with | some v => to_unsigned v 256 | none => 0x80
  let bRequest := match q.bRequest with | some v => to_unsigned v 256 | none => 0x06
  let wValue := match q.wValue with | some v => to_unsigned v 65536 | none => 0x0100
  let wIndex := match q.wIndex with | some v => to_unsigned v 65536 | none => 0x0000
  let wLength := match q.wLength with | some v => to_unsigned v 65536 | none => 18
  let packetSize := query_packet_size q
  let maxRetries := match q.maxRetries with | some v => v | none => -1
  let hasCustomData := q.dataBytes.isSome
  let customData := query_custom_data q
  let customDataLen := customData.length
  let config := { usb_packet_config_default with
    bmRequestType := bmRequestType
    bRequest := bRequest
    wValue := wValue
    wIndex := wIndex
    wLength := wLength
    packet_size := packetSize
    max_nak_retries := maxRetries
    response_buffer := Ptr.valid
    response_buffer_size := HTTP_RESPONSE_BUFFER_SIZE
    bytes_received := Ptr.valid }
  if hasCustomData = true ∧ customDataLen > 0 then
    if q.dataMode_append then
      let packetSize := USB_SETUP_PACKET_SIZE + customDataLen
      let customDataLen :=
        if packetSize > USB_MAX_PACKET_SIZE then USB_MAX_PACKET_SIZE - USB_SETUP_PACKET_SIZE
        else customDataLen
      let packetSize := if packetSize > USB_MAX_PACKET_SIZE then USB_MAX_PACKET_SIZE else packetSize
      { config with
        extra_data := memcpy config.extra_data 0 customData customDataLen
        packet_size := packetSize }
    else
      { config with
        extra_data := memcpy config.extra_data 0 customData customDataLen
        packet_size := USB_SETUP_PACKET_SIZE
        wLength := if wLength < customDataLen then customDataLen else wLength }
  else if packetSize > USB_SETUP_PACKET_SIZE then
    let extraDataLen := packetSize - USB_SETUP_PACKET_SIZE
    let extraDataLen := if extraDataLen > USB_MAX_EXTRA_DATA then USB_MAX_EXTRA_DATA else extraDataLen
    { config with
      extra_data := (List.range 248).map
        (fun i => if i < extraDataLen then (0xAA + i % 8) % 256 else config.extra_data.getD i 0) }
  else config

/-- A lower-case hexadecimal digit. -/
def hex_digit (n : Nat) : Char :=
  if n < 10 then Char.ofNat (48 + n) else Char.ofNat (87 + n)

/-- The three characters `sprintf` writes for `"%02x "` and a byte. -/
def hex_byte (b : Nat) : List Char := [hex_digit (b / 16 % 16), hex_digit (b % 16), ' ']

/-- Lines 382-392: the characters written to `hex_str`, without the
terminator. -/
def build_hex_str (response_buffer : List Nat) (bytes_received : Nat) : List Char :=
  let max_bytes :=
    if bytes_received > HTTP_RESPONSE_MAX_BYTES then HTTP_RESPONSE_MAX_BYTES else bytes_received
  let dump := ((List.range max_bytes).map (fun i => hex_byte (byte_at response_buffer i))).flatten
  if bytes_received > HTTP_RESPONSE_MAX_BYTES then
    dump ++ ['.', '.', '.', ' ', '('] ++ Nat.toDigits 10 (bytes_received - HTTP_RESPONSE_MAX_BYTES)
      ++ [' ', 'm', 'o', 'r', 'e', ')']
  else dump

/-- Line 397: a printable byte as itself, any other byte as a dot. A byte above
127 fails the test whether `char` is signed or not. -/
def ascii_char (c : Nat) : Char := if 32 ≤ c ∧ c ≤ 126 then Char.ofNat c else '.'

/-- Lines 394-399: the characters written to `ascii_str`, without the
terminator. -/
def build_ascii_str (response_buffer : List Nat) (bytes_received : Nat) : List Char :=
  let max_bytes :=
    if bytes_received > HTTP_RESPONSE_MAX_BYTES then HTTP_RESPONSE_MAX_BYTES else bytes_received
  (List.range max_bytes).map (fun i => ascii_char (byte_at response_buffer i))

/-- Lines 409-415: the reason tag of a failure. -/
def error_str (ret : esp_err_t) : String :=
  match ret with
  | esp_err_t.ESP_ERR_TIMEOUT => "TIMEOUT"
  | esp_err_t.ESP_ERR_INVALID_RESPONSE => "NAK"
  | esp_err_t.ESP_FAIL => "ERROR"
  | _ => "FAILED"

/-- Lines 365-418: the answer built from the result of `usb_send_packet`, the
byte count, the response buffer and the connection status. -/
def send_request_response (ret : esp_err_t) (bytes_received : Nat) (response_buffer : List Nat)
    (connected : Bool) : HandlerEnd :=
  let status := if ret = esp_err_t.ESP_OK then "success" else "failed"
  if bytes_received > 0 then
    let hex_str := build_hex_str response_buffer bytes_received
    let ascii_str := build_ascii_str response_buffer bytes_received
    if hex_str.length + 1 > HTTP_HEX_STR_MAX_LEN then
      HandlerEnd.hex_str_overflow (hex_str.length + 1)
    else
      HandlerEnd.responded
        { status := status, data := String.mk hex_str, ascii := String.mk ascii_str,
          bytes_received := bytes_received, connected := connected }
  else if ret = esp_err_t.ESP_OK then
    HandlerEnd.responded
      { status := status, data := "", ascii := "", bytes_received := bytes_received,
        connected := connected }
  else
    HandlerEnd.responded
      { status := status, data := error_str ret, ascii := "", bytes_received := bytes_received,
        connected := connected }

/-- Lines 207-429. The argument is `none` when the request has no query string.
The calls of the public wrappers are taken as the worker's execution of the
operation; the static `response_buffer` of the handler is the caller memory of
the `World`. -/
def api_send_request_handler (query : Option send_request_query) (w : World) :
    HandlerEnd × World :=
  match query with
  | none => (HandlerEnd.no_response, w)
  | some q =>
    if q.packetSize.isSome = true ∧ query_packet_size q ≤ 0 then
      (HandlerEnd.responded packet_size_rejected, w)
    else
      let w1 :=
        if w.usb_needs_reset then
          let c := get_conn_status w
          if c.1 then { (usb_send_reset_impl c.2).2 with usb_needs_reset := false } else c.2
        else w
      let o := usb_send_packet_impl (some (send_request_config q)) { w1 with bytes_received := 0 }
      match o.status with
      | Status.crashed f => (HandlerEnd.engine_fault f, o.world)
      | Status.returned ret =>
        let c := get_conn_status o.world
        (send_request_response ret o.world.bytes_received o.world.response_buffer c.1, c.2)

/-- A query that holds only `packetSize`. -/
def query_with_packet_size (v : Int) : send_request_query :=
  { bmRequestType := none, bRequest := none, wValue := none, wIndex := none, wLength := none,
    packetSize := some v, maxRetries := none, dataMode_append := false, dataBytes := none }

/-- A query without any key: the handler sends the default GET_DESCRIPTOR
request. -/
def query_default : send_request_query :=
  { bmRequestType := none, bRequest := none, wValue := none, wIndex := none, wLength := none,
    packetSize := none, maxRetries := none, dataMode_append := false, dataBytes := none }

/-- A query that asks for 255 bytes, as for a configuration descriptor. -/
def query_long_read : send_request_query := { query_default with wLength := some 255 }

/-- A device that answers the IN transfer with 200 bytes: of the 512 bytes the
channel is programmed for, 312 remain. -/
def world_long_response : World :=
  { World.boot with
    env_polls := [[hcint_idle, hcint_complete]]
    env_xfersize := [312]
    env_rx := [List.replicate 200 0x41]
    env_conn := [true] }

/-! ## The PHY configuration in the key-value store -/

/-- Line 25. -/
def NVS_NAMESPACE : String := "usb_config"

/-- Modelled from the spec: the external namespaced key-value store (the NVS
library of the platform), which is not part of the repository. It holds single
bytes under a namespace and a key; a namespace exists once it has been opened
for writing. -/
structure NvsStore where
  /-- the store has been set up and can be opened -/
  initialised : Bool
  namespaces : List String
  /-- the bytes written, the latest first -/
  entries : List ((String × String) × Nat)
  deriving DecidableEq, Repr

/-- Modelled from the spec: `nvs_open` of the external store in read-only mode,
which fails for a namespace that does not exist. -/
def nvs_open_readonly (store : NvsStore) (ns : String) : esp_err_t :=
  if store.initialised = false then esp_err_t.ESP_ERR_NVS_NOT_INITIALIZED
  else if ns ∈ store.namespaces then esp_err_t.ESP_OK
  else esp_err_t.ESP_ERR_NVS_NOT_FOUND

/-- Modelled from the spec: `nvs_open` of the external store in read-write
mode, which creates the namespace when it does not exist. -/
def nvs_open_readwrite (store : NvsStore) (ns : String) : esp_err_t × NvsStore :=
  if store.initialised = false then (esp_err_t.ESP_ERR_NVS_NOT_INITIALIZED, store)
  else if ns ∈ store.namespaces then (esp_err_t.ESP_OK, store)
  else (esp_err_t.ESP_OK, { store with namespaces := ns :: store.namespaces })

/-- Modelled from the spec: `nvs_get_u8` of the external store. The result is
the value of `*out_value` after the call: the stored byte, or what the variable
held when the key is absent. -/
def nvs_get_u8 (store : NvsStore) (ns key : String) (out_value : Nat) : Nat :=
  match store.entries.lookup (ns, key) with
  | some v => v
  | none => out_value

/-- Modelled from the spec: `nvs_set_u8` of the external store. -/
def nvs_set_u8 (store : NvsStore) (ns key : String) (value : Nat) : NvsStore :=
  { store with entries := ((ns, key), value % 256) :: store.entries }

/-- Modelled from the spec: `nvs_commit` of the external store, which makes the
bytes written durable. -/
def nvs_commit (_store : NvsStore) : esp_err_t := esp_err_t.ESP_OK

/-- The fields of `usb_phy_config_t` that lines 79-84 set. -/
structure usb_phy_config_t where
  controller : Nat
  target : Nat
  otg_mode : Nat
  otg_speed : Nat
  deriving DecidableEq, Repr

/-- Lines 77-114. `default_config` holds the platform constants
`USB_PHY_CTRL_OTG`, `USB_PHY_TARGET_INT`, `USB_OTG_MODE_HOST` and
`USB_PHY_SPEED_FULL`, whose values are declared outside the repository. The
second component is `*phy_config` at the return. -/
def load_usb_phy_config (default_config : usb_phy_config_t) (store : NvsStore) :
    esp_err_t × usb_phy_config_t :=
  let phy_config := default_config
  let ret := nvs_open_readonly store NVS_NAMESPACE
  if ret ≠ esp_err_t.ESP_OK then (esp_err_t.ESP_OK, phy_config)
  else
    let otg_mode := default_config.otg_mode % 256
    let otg_speed := default_config.otg_speed % 256
    let otg_mode := nvs_get_u8 store NVS_NAMESPACE "otg_mode" otg_mode
    let otg_speed := nvs_get_u8 store NVS_NAMESPACE "otg_speed" otg_speed
    (esp_err_t.ESP_OK, { phy_config with otg_mode := otg_mode, otg_speed := otg_speed })

/-- Lines 116-138. -/
def usb_save_phy_config (otg_mode otg_speed : Nat) (store : NvsStore) : esp_err_t × NvsStore :=
  let r := nvs_open_readwrite store NVS_NAMESPACE
  if r.1 ≠ esp_err_t.ESP_OK then (r.1, r.2)
  else
    let s1 := nvs_set_u8 r.2 NVS_NAMESPACE "otg_mode" otg_mode
    let s2 := nvs_set_u8 s1 NVS_NAMESPACE "otg_speed" otg_speed
    (nvs_commit s2, s2)

/-- An initialised store that holds nothing. -/
def store_empty : NvsStore := { initialised := true, namespaces := [], entries := [] }

/-- Sample platform defaults. -/
def sample_phy_defaults : usb_phy_config_t :=
  { controller := 0, target := 0, otg_mode := 1, otg_speed := 2 }

/-- A device that completes five chunks, each at its first reading. -/
def world_five_completions : World :=
  { World.boot with env_polls := List.replicate 5 [hcint_complete] }

/-- The 248 bytes of `extra_data`, all 0xAA. -/
def data_all_aa : List Nat := List.replicate 248 0xAA

/-- Lines 864-877: the HAL calls of a Tier-1 recovery, in order: flush of all
FIFOs, clearing of the global interrupts, bus reset, 150 ms. The Booleans are
the port readings before and after the reset signal. -/
def tier1_ops (c1 c2 : Bool) : List HwOp :=
  [HwOp.flush_nptx_fifo, HwOp.flush_ptx_fifo, HwOp.flush_rx_fifo, HwOp.delay 1,
   HwOp.gintsts_clear_intrs]
    ++ port_check_ops c1 ++ reset_signal_ops ++ port_check_ops c2 ++ [HwOp.delay 150]

/-- Lines 850-862: the HAL calls of a Tier-2 recovery, in order: port power off,
500 ms, port power on, 500 ms, bus reset, 200 ms. -/
def tier2_ops (c1 c2 : Bool) : List HwOp :=
  [HwOp.dis_pwr, HwOp.delay 500, HwOp.en_pwr, HwOp.delay 500]
    ++ port_check_ops c1 ++ reset_signal_ops ++ port_check_ops c2 ++ [HwOp.delay 200]

/-- The world in which the polling loop of a `usb_read_response` call ends
(lines 765-838), before the failure accounting of lines 840-884. -/
def read_poll_end (buffer : Ptr) (max_len : Nat) (bytes_read : Ptr) (w : World) : World :=
  (read_poll_loop buffer max_len bytes_read true ((read_start max_len w).env_polls.headD [])
    { read_start max_len w with env_polls := (read_start max_len w).env_polls.tail }).2

/-- The HAL calls the failure path of the `n`-th consecutive timeout appends:
every fifteenth runs Tier-2, every other fifth runs Tier-1, the rest nothing. -/
def recovery_ops (n : Nat) (c1 c2 : Bool) : List HwOp :=
  if n % 15 = 0 then tier2_ops c1 c2
  else if n % 5 = 0 then tier1_ops c1 c2
  else []

/-! ## The dispatcher: callers, the pending operation and the worker -/

/-- Lines 58-64: `pending_op`. `op` stands for `type` together with `arg1`;
`none` is `USB_OP_NONE`. -/
structure usb_pending_op_t where
  op : Option WorkerOp
  result : esp_err_t
  bool_result : Bool
  deriving DecidableEq, Repr

/-- A call of a public wrapper: one that goes through `usb_execute_on_core1`
with an operation (lines 211-248), or `usb_is_device_connected` (lines
330-352). -/
inductive ApiCall where
  | execute (op : WorkerOp)
  | is_connected
  deriving DecidableEq, Repr

/-- What a call returns: a result code, or the Boolean of
`usb_is_device_connected`. -/
inductive ApiResult where
  | code (e : esp_err_t)
  | flag (b : Bool)
  deriving DecidableEq, Repr

/-- The statement a caller executes next. `returned` holds what the call
returned and whether it returned on one of its two timeouts. -/
inductive CallerPc where
  /-- line 218 or 334: `xSemaphoreTake(usb_mutex, ...)` -/
  | take_mutex
  /-- line 224 or 337: `xSemaphoreTake(usb_op_done, 0)` -/
  | clear_done
  /-- lines 227-231 or 339-340: the writes to `pending_op` -/
  | set_pending
  /-- line 236 or 342: `xSemaphoreGive(usb_op_ready)` -/
  | give_ready
  /-- line 239 or 344: `xSemaphoreTake(usb_op_done, ...)` -/
  | wait_done
  | returned (r : ApiResult) (timed_out : Bool)
  deriving DecidableEq, Repr

/-- The statement the worker executes next: the wait of line 162, or the
operation whose type it read at line 163. -/
inductive WorkerPc where
  | wait_ready
  | executing (op : Option WorkerOp)
  deriving DecidableEq, Repr

/-- What has happened so far, in order. -/
inductive DispatchEvent where
  /-- the worker read the pending operation and began to execute it -/
  | op_begun (op : Option WorkerOp)
  /-- the worker stored the results of the operation and gave `usb_op_done` -/
  | op_done (result : esp_err_t) (bool_result : Bool)
  /-- caller `i` returned -/
  | call_returned (i : Nat) (r : ApiResult) (timed_out : Bool)
  deriving DecidableEq, Repr

/-- The synchronisation primitives of lines 66-70, the callers, the worker and
the engine. `usb_mutex` holds the index of the caller that has taken it. -/
structure Dispatcher where
  usb_mutex : Option Nat
  usb_op_ready : Bool
  usb_op_done : Bool
  pending_op : usb_pending_op_t
  worker : WorkerPc
  callers : List (ApiCall × CallerPc)
  world : World
  events : List DispatchEvent
  deriving DecidableEq, Repr

/-- One move of a schedule: caller `i` executes its next statement, caller `i`
runs into the timeout of the semaphore it waits for, or the worker executes its
next statement. -/
inductive Step where
  | caller (i : Nat)
  | timeout (i : Nat)
  | worker
  deriving DecidableEq, Repr

/-- What a call returns when a semaphore wait times out: `ESP_ERR_TIMEOUT`
(lines 220, 242) or `false` (lines 334, 346). -/
def timeout_result : ApiCall → ApiResult
  | ApiCall.execute _ => ApiResult.code esp_err_t.ESP_ERR_TIMEOUT
  | ApiCall.is_connected => ApiResult.flag false

/-- Lines 227-231 and 339-340: the writes of a caller to `pending_op`. -/
def write_pending (call : ApiCall) (p : usb_pending_op_t) : usb_pending_op_t :=
  match call with
  | ApiCall.execute op => { op := some op, result := esp_err_t.ESP_FAIL, bool_result := false }
  | ApiCall.is_connected =>
    { p with op := some WorkerOp.USB_OP_GET_STATUS, bool_result := false }

/-- Lines 245 and 349: what a caller reads from `pending_op` after the
completion signal. -/
def read_pending (call : ApiCall) (p : usb_pending_op_t) : ApiResult :=
  match call with
  | ApiCall.execute _ => ApiResult.code p.result
  | ApiCall.is_connected => ApiResult.flag p.bool_result

/-- Caller `i` executes its next statement; `none` when it is blocked on a
semaphore or has returned. -/
def caller_step (i : Nat) (d : Dispatcher) : Option Dispatcher :=
  match d.callers.get? i with
  | none => none
  | some (call, pc) =>
    match pc with
    | CallerPc.take_mutex =>
      if d.usb_mutex = none then
        some { d with usb_mutex := some i,
                      callers := d.callers.set i (call, CallerPc.clear_done) }
      else none
    | CallerPc.clear_done =>
      some { d with usb_op_done := false,
                    callers := d.callers.set i (call, CallerPc.set_pending) }
    | CallerPc.set_pending =>
      some { d with pending_op := write_pending call d.pending_op,
                    callers := d.callers.set i (call, CallerPc.give_ready) }
    | CallerPc.give_ready =>
      some { d with usb_op_ready := true,
                    callers := d.callers.set i (call, CallerPc.wait_done) }
    | CallerPc.wait_done =>
      if d.usb_op_done then
        some { d with
          usb_op_done := false
          usb_mutex := none
          callers := d.callers.set i
            (call, CallerPc.returned (read_pending call d.pending_op) false)
          events := d.events ++
            [DispatchEvent.call_returned i (read_pending call d.pending_op) false] }
      else none
    | CallerPc.returned _ _ => none

/-- Caller `i` gives up after the wait of line 218 or 334 (the mutex is held by
another caller) or of line 239 or 344 (no completion signal), where it gives
the mutex back. -/
def timeout_step (i : Nat) (d : Dispatcher) : Option Dispatcher :=
  match d.callers.get? i with
  | none => none
  | some (call, pc) =>
    match pc with
    | CallerPc.take_mutex =>
      if d.usb_mutex = none then none
      else
        some { d with
          callers := d.callers.set i (call, CallerPc.returned (timeout_result call) true)
          events := d.events ++ [DispatchEvent.call_returned i (timeout_result call) true] }
    | CallerPc.wait_done =>
      if d.usb_op_done then none
      else
        some { d with
          usb_mutex := none
          callers := d.callers.set i (call, CallerPc.returned (timeout_result call) true)
          events := d.events ++ [DispatchEvent.call_returned i (timeout_result call) true] }
    | _ => none

/-- The worker executes its next statement (lines 160-205): it takes
`usb_op_ready` and reads the pending operation, or it finishes the operation,
stores the results in `pending_op` and gives `usb_op_done`. `none` when it is
blocked or the operation ends in a fault. -/
def worker_step (d : Dispatcher) : Option Dispatcher :=
  match d.worker with
  | WorkerPc.wait_ready =>
    if d.usb_op_ready then
      some { d with
        usb_op_ready := false
        worker := WorkerPc.executing d.pending_op.op
        events := d.events ++ [DispatchEvent.op_begun d.pending_op.op] }
    else none
  | WorkerPc.executing none =>
    some { d with
      pending_op := { d.pending_op with result := esp_err_t.ESP_ERR_NOT_SUPPORTED }
      usb_op_done := true
      worker := WorkerPc.wait_ready
      events := d.events ++
        [DispatchEvent.op_done esp_err_t.ESP_ERR_NOT_SUPPORTED d.pending_op.bool_result] }
  | WorkerPc.executing (some op) =>
    match (worker_execute op d.world).status with
    | Status.crashed _ => none
    | Status.returned ret =>
      let bool_result :=
        if op = WorkerOp.USB_OP_GET_STATUS then (get_conn_status d.world).1
        else d.pending_op.bool_result
      some { d with
        pending_op := { d.pending_op with result := ret, bool_result := bool_result }
        usb_op_done := true
        worker := WorkerPc.wait_ready
        world := (worker_execute op d.world).world
        events := d.events ++ [DispatchEvent.op_done ret bool_result] }

/-- One move of a schedule. -/
def dispatch_step (s : Step) (d : Dispatcher) : Option Dispatcher :=
  match s with
  | Step.caller i => caller_step i d
  | Step.timeout i => timeout_step i d
  | Step.worker => worker_step d

/-- The moves of a schedule one after the other; `none` when one of them is not
possible. -/
def dispatch_run : List Step → Dispatcher → Option Dispatcher
  | [], d => some d
  | s :: rest, d =>
    match dispatch_step s d with
    | none => none
    | some d1 => dispatch_run rest d1

/-- The dispatcher after `usb_handler_start`, with the given calls about to be
made. -/
def Dispatcher.start (calls : List ApiCall) (w : World) : Dispatcher :=
  { usb_mutex := none
    usb_op_ready := false
    usb_op_done := false
    pending_op := { op := none, result := esp_err_t.ESP_OK, bool_result := false }
    worker := WorkerPc.wait_ready
    callers := calls.map (fun c => (c, CallerPc.take_mutex))
    world := w
    events := [] }

/-- The milliseconds of `vTaskDelay` in a trace. -/
def delay_total : List HwOp → Nat
  | [] => 0
  | HwOp.delay ms :: rest => ms + delay_total rest
  | _ :: rest => delay_total rest

/-- A device descriptor request with a timeout of 100 ms. -/
def request_short_timeout : usb_packet_config_t :=
  { request_data_in with timeout_ms := 100 }

/-- A connected device that has stopped answering: the 100 polls of the 100 ms
find no halt, and the recovery counters stand at 4 and 2, so that this timeout
runs the Tier-2 recovery. -/
def world_hung_device : World :=
  { World.boot with
    env_polls := [List.replicate 100 hcint_idle]
    env_conn := [true, true, true, true]
    consecutive_failures := 4
    recovery_attempts := 2 }

/-- Caller 0 sends the request and gives up waiting while the worker is still
busy with it; caller 1 then asks for the connection status and is woken by the
completion signal of the first operation; the worker executes the status
operation afterwards. -/
def schedule_stale_completion : List Step :=
  [Step.caller 0, Step.caller 0, Step.caller 0, Step.caller 0, Step.worker, Step.timeout 0,
   Step.caller 1, Step.caller 1, Step.caller 1, Step.caller 1, Step.worker, Step.caller 1,
   Step.worker, Step.worker]

/-- The operations the worker has begun and not yet finished, counted from the
events. -/
def ops_in_flight : List DispatchEvent → Int
  | [] => 0
  | DispatchEvent.op_begun _ :: rest => ops_in_flight rest + 1
  | DispatchEvent.op_done _ _ :: rest => ops_in_flight rest - 1
  | DispatchEvent.call_returned _ _ _ :: rest => ops_in_flight rest

/-- The number of operations the worker is executing: none while it waits for
`usb_op_ready`, one otherwise. -/
def worker_busy (d : Dispatcher) : Int :=
  match d.worker with
  | WorkerPc.wait_ready => 0
  | WorkerPc.executing _ => 1

/-! # Lemmas and theorems -/

/-! ## The packet buffer -/

theorem and_ff (n : Nat) : n &&& 0xFF = n % 256 := Nat.and_pow_two_sub_one_eq_mod n 8

theorem shr8 (n : Nat) : n >>> 8 = n / 256 := Nat.shiftRight_eq_div_pow n 8

theorem memset_256 :
    memset_zero USB_MAX_PACKET_SIZE = [0, 0, 0, 0, 0, 0, 0, 0] ++ List.replicate 248 0 := by
  show List.replicate (8 + 248) 0 = _
  rw [List.replicate_add]; rfl

theorem build_packet_buffer_small (c : usb_packet_config_t) (h : c.packet_size ≤ 8) :
    build_packet_buffer c
      = (spec_setup_layout c).take c.packet_size ++ List.replicate (8 - c.packet_size) 0
          ++ List.replicate 248 0 := by
  generalize hp : c.packet_size = p at h
  unfold build_packet_buffer spec_setup_layout
  rw [memset_256, hp]
  generalize List.replicate 248 0 = tail
  interval_cases p <;>
    simp [USB_SETUP_PACKET_SIZE, and_ff, shr8, List.replicate]

theorem build_packet_buffer_large (c : usb_packet_config_t) (h : 8 < c.packet_size) :
    build_packet_buffer c
      = spec_setup_layout c
          ++ (List.range (min (c.packet_size - 8) 248)).map (fun i => c.extra_data.getD i 0)
          ++ List.replicate (248 - min (c.packet_size - 8) 248) 0 := by
  have hmin : (if c.packet_size - 8 > 248 then 248 else c.packet_size - 8)
      = min (c.packet_size - 8) 248 := by
    split_ifs <;> omega
  unfold build_packet_buffer spec_setup_layout
  rw [memset_256]
  have h1 : ¬ c.packet_size < 8 := by omega
  simp only [USB_SETUP_PACKET_SIZE, USB_MAX_EXTRA_DATA, h1, h, if_true, if_false, hmin, memcpy]
  rw [← List.drop_replicate]
  generalize List.replicate 248 0 = tail
  simp only [and_ff, shr8, List.cons_append, List.nil_append, List.take, List.append_assoc,
    List.cons.injEq, true_and, List.append_cancel_left_eq]
  generalize min (c.packet_size - 8) 248 = n
  rw [Nat.add_comm]
  rfl

theorem map_range_getD_take (l : List Nat) (n : Nat) (h : n ≤ l.length) :
    (List.range n).map (fun i => l.getD i 0) = l.take n := by
  apply List.ext_getElem
  · simp [h]
  · intro i h1 h2
    simp at h1 h2
    simp [List.getD_eq_getElem?_getD]
    rw [List.getElem?_eq_getElem (by omega)]
    simp

theorem build_packet_buffer_length (c : usb_packet_config_t) :
    (build_packet_buffer c).length = 256 := by
  by_cases h : c.packet_size ≤ 8
  · rw [build_packet_buffer_small c h]
    simp only [spec_setup_layout, List.length_append, List.length_take, List.length_replicate,
      List.length_cons, List.length_nil]
    omega
  · rw [build_packet_buffer_large c (by omega)]
    simp only [spec_setup_layout, List.length_append, List.length_take, List.length_replicate,
      List.length_cons, List.length_nil, List.length_map, List.length_range]
    omega

theorem wait_chan_halt_same (n : Nat) (w : World) : w.same_state (wait_chan_halt n w) := by
  induction n generalizing w with
  | zero => simp [wait_chan_halt, World.same_state]
  | succ n ih =>
    simp only [wait_chan_halt, chan_is_enabled, World.emit]
    split_ifs
    · have h := ih { w with trace := w.trace ++ [HwOp.delay 1] ++ [HwOp.chan_is_enabled (w.env_enabled.headD false)], env_enabled := w.env_enabled.tail }
      simpa [World.same_state] using h
    · simp [World.same_state]

theorem setup_channel_reset_same (w : World) : w.same_state (setup_channel_reset w) := by
  simp only [setup_channel_reset, chan_is_enabled, World.emit]
  split_ifs
  · have h := wait_chan_halt_same 10 { w with trace := w.trace ++ [HwOp.chan_is_enabled (w.env_enabled.headD false)] ++ [HwOp.disable_chan], env_enabled := w.env_enabled.tail }
    simpa [World.same_state] using h
  · simp [World.same_state]

/-! ## The SETUP stage -/

theorem setup_stage_fault (c : usb_packet_config_t) (w : World) :
    (setup_stage c w).1 =
      if c.max_packet_size = 0 then some Fault.divide_by_zero
      else if c.packet_size > 256 then some (Fault.dma_buffer_overflow c.packet_size)
      else none := by
  unfold setup_stage
  split_ifs <;> rfl

theorem setup_stage_packet_buffer (c : usb_packet_config_t) (w : World) :
    (setup_stage c w).2.packet_buffer = build_packet_buffer c := by
  have h := setup_channel_reset_same { w with packet_buffer := build_packet_buffer c }
  simp only [World.same_state] at h
  unfold setup_stage
  split_ifs <;> simp [World.emit, enable_chan, h]

theorem setup_stage_xfersize (c : usb_packet_config_t) (w : World) :
    (setup_stage c w).2.regs.xfersize = c.packet_size := by
  unfold setup_stage
  split_ifs <;> simp [World.emit, enable_chan]

theorem setup_stage_bus (c : usb_packet_config_t) (w : World) :
    (setup_stage c w).2.bus =
      w.bus ++ (if c.max_packet_size = 0 ∨ c.packet_size > 256 then []
                else [setup_transaction c]) := by
  have h := setup_channel_reset_same { w with packet_buffer := build_packet_buffer c }
  simp only [World.same_state] at h
  unfold setup_stage
  split_ifs with h1 h2 h3 h4 h5
  all_goals first
    | (exfalso; omega)
    | (exfalso; tauto)
    | skip
  · simp [World.emit, h]
  · simp [World.emit, h]
  · have hl : c.packet_size ≤ (build_packet_buffer c).length := by
      rw [build_packet_buffer_length]; omega
    simp [World.emit, enable_chan, h, World.dma_contents, memcpy, setup_transaction,
      List.take_append_of_le_length]
    simpa [List.getD_eq_getElem?_getD] using map_range_getD_take _ _ hl

/-! ## Data stages keep the packet buffer and only add to the bus -/

theorem prefix_append_of_prefix {α : Type} {l m : List α} (x : List α) (h : l <+: m) :
    l <+: m ++ x :=
  h.trans (List.prefix_append m x)

@[simp] theorem emit_bus (w : World) (ops : List HwOp) : (w.emit ops).bus = w.bus := rfl

@[simp] theorem emit_packet_buffer (w : World) (ops : List HwOp) :
    (w.emit ops).packet_buffer = w.packet_buffer := rfl

@[simp] theorem emit_env_polls (w : World) (ops : List HwOp) :
    (w.emit ops).env_polls = w.env_polls := rfl

@[simp] theorem chan_is_enabled_bus (w : World) : (chan_is_enabled w).2.bus = w.bus := rfl

@[simp] theorem chan_is_enabled_packet_buffer (w : World) :
    (chan_is_enabled w).2.packet_buffer = w.packet_buffer := rfl

@[simp] theorem chan_is_enabled_env_polls (w : World) :
    (chan_is_enabled w).2.env_polls = w.env_polls := rfl

@[simp] theorem get_conn_status_bus (w : World) : (get_conn_status w).2.bus = w.bus := rfl

@[simp] theorem get_conn_status_packet_buffer (w : World) :
    (get_conn_status w).2.packet_buffer = w.packet_buffer := rfl

@[simp] theorem enable_chan_packet_buffer (s : EnableSite) (w : World) :
    (enable_chan s w).packet_buffer = w.packet_buffer := rfl

@[simp] theorem enable_chan_env_polls (s : EnableSite) (w : World) :
    (enable_chan s w).env_polls = w.env_polls := rfl

@[simp] theorem wait_chan_halt_bus (n : Nat) (w : World) : (wait_chan_halt n w).bus = w.bus :=
  (wait_chan_halt_same n w).2.2.2.2.2.2.2.2.2.2.2.2.2.2

@[simp] theorem wait_chan_halt_packet_buffer (n : Nat) (w : World) :
    (wait_chan_halt n w).packet_buffer = w.packet_buffer :=
  (wait_chan_halt_same n w).2.2.2.2.2.2.2.2.2.1

@[simp] theorem wait_chan_halt_env_polls (n : Nat) (w : World) :
    (wait_chan_halt n w).env_polls = w.env_polls :=
  (wait_chan_halt_same n w).1

@[simp] theorem write_chunk_poll_bus (polls : List HcInt) (w : World) :
    (write_chunk_poll polls w).2.bus = w.bus := by
  induction polls generalizing w with
  | nil => rfl
  | cons h rest ih => simp only [write_chunk_poll]; split_ifs <;> simp [ih]

@[simp] theorem write_chunk_poll_packet_buffer (polls : List HcInt) (w : World) :
    (write_chunk_poll polls w).2.packet_buffer = w.packet_buffer := by
  induction polls generalizing w with
  | nil => rfl
  | cons h rest ih => simp only [write_chunk_poll]; split_ifs <;> simp [ih]

@[simp] theorem write_chunk_poll_env_polls (polls : List HcInt) (w : World) :
    (write_chunk_poll polls w).2.env_polls = w.env_polls := by
  induction polls generalizing w with
  | nil => rfl
  | cons h rest ih => simp only [write_chunk_poll]; split_ifs <;> simp [ih]

@[simp] theorem chunk_start_bus (data : List Nat) (length available_data total_sent pid : Nat)
    (w : World) :
    (chunk_start data length available_data total_sent pid w).bus
      = w.bus ++ [chunk_transaction data length available_data total_sent pid] := by
  simp only [chunk_start, enable_chan, World.emit, chan_is_enabled, chunk_transaction,
    World.dma_contents]
  split_ifs <;> simp

@[simp] theorem chunk_start_packet_buffer (data : List Nat)
    (length available_data total_sent pid : Nat) (w : World) :
    (chunk_start data length available_data total_sent pid w).packet_buffer
      = w.packet_buffer := by
  simp only [chunk_start, enable_chan, World.emit, chan_is_enabled]
  split_ifs <;> simp

@[simp] theorem chunk_start_env_polls (data : List Nat)
    (length available_data total_sent pid : Nat) (w : World) :
    (chunk_start data length available_data total_sent pid w).env_polls = w.env_polls := by
  simp only [chunk_start, enable_chan, World.emit, chan_is_enabled]
  split_ifs <;> simp

theorem write_data_loop_frame (data : List Nat) (length available_data : Nat)
    (fuel total_sent pid : Nat) (w : World) :
    (write_data_loop data length available_data fuel total_sent pid w).world.packet_buffer
        = w.packet_buffer
      ∧ w.bus <+: (write_data_loop data length available_data fuel total_sent pid w).world.bus := by
  induction fuel generalizing total_sent pid w with
  | zero => simp [write_data_loop]
  | succ n ih =>
    simp only [write_data_loop]
    by_cases hlt : total_sent < length
    · simp only [hlt, if_true]
      generalize hp : write_chunk_poll
        ((chunk_start data length available_data total_sent pid w).env_polls.headD [])
        { chunk_start data length available_data total_sent pid w with
          env_polls := (chunk_start data length available_data total_sent pid w).env_polls.tail }
        = p
      have hb : p.2.bus = w.bus ++ [chunk_transaction data length available_data total_sent pid] := by
        rw [← hp]; simp
      have hpb : p.2.packet_buffer = w.packet_buffer := by
        rw [← hp]; simp
      obtain ⟨e, w6⟩ := p
      cases e
      · obtain ⟨i1, i2⟩ := ih (total_sent + if length - total_sent > USB_DMA_CHUNK_SIZE then USB_DMA_CHUNK_SIZE else length - total_sent) (if pid = 2 then 0 else 2) w6
        refine ⟨i1.trans hpb, ?_⟩
        refine List.IsPrefix.trans ?_ i2
        simp only at hb
        rw [hb]
        exact List.prefix_append _ _
      · exact ⟨hpb, by simp only at hb ⊢; rw [hb]; exact List.prefix_append _ _⟩
      · exact ⟨hpb, by simp only at hb ⊢; rw [hb]; exact List.prefix_append _ _⟩
      · exact ⟨hpb, by simp only at hb ⊢; rw [hb]; exact List.prefix_append _ _⟩
    · simp [hlt]

theorem usb_write_data_frame (data : List Nat) (length timeout_ms : Nat) (w : World) :
    (usb_write_data data length timeout_ms w).world.packet_buffer = w.packet_buffer
      ∧ w.bus <+: (usb_write_data data length timeout_ms w).world.bus :=
  write_data_loop_frame _ _ _ _ _ _ _

@[simp] theorem usb_send_reset_impl_bus (w : World) : (usb_send_reset_impl w).2.bus = w.bus := by
  simp only [usb_send_reset_impl, get_conn_status, World.emit]
  split_ifs <;> rfl

@[simp] theorem usb_send_reset_impl_packet_buffer (w : World) :
    (usb_send_reset_impl w).2.packet_buffer = w.packet_buffer := by
  simp only [usb_send_reset_impl, get_conn_status, World.emit]
  split_ifs <;> rfl

@[simp] theorem usb_flush_all_fifos_bus (w : World) : (usb_flush_all_fifos w).bus = w.bus := rfl

@[simp] theorem usb_flush_all_fifos_packet_buffer (w : World) :
    (usb_flush_all_fifos w).packet_buffer = w.packet_buffer := rfl

theorem read_poll_loop_frame (buffer : Ptr) (max_len : Nat) (bytes_read : Ptr)
    (first_poll : Bool) (polls : List HcInt) (w : World) :
    (read_poll_loop buffer max_len bytes_read first_poll polls w).2.packet_buffer
        = w.packet_buffer
      ∧ w.bus <+: (read_poll_loop buffer max_len bytes_read first_poll polls w).2.bus := by
  induction polls generalizing first_poll w with
  | nil => simp [read_poll_loop]
  | cons h rest ih =>
    simp only [read_poll_loop]
    split_ifs
    all_goals first
      | (refine ⟨(ih _ _).1.trans (by simp [enable_chan]), List.IsPrefix.trans ?_ (ih _ _).2⟩
         simp [enable_chan])
      | simp
    

theorem read_failure_path_frame (bytes_read : Ptr) (w : World) :
    (read_failure_path bytes_read w).world.packet_buffer = w.packet_buffer
      ∧ w.bus <+: (read_failure_path bytes_read w).world.bus := by
  simp only [read_failure_path]
  split_ifs <;> simp

@[simp] theorem read_start_packet_buffer (max_len : Nat) (w : World) :
    (read_start max_len w).packet_buffer = w.packet_buffer := by
  simp only [read_start, enable_chan, World.emit, chan_is_enabled]
  split_ifs <;> simp

theorem read_start_bus (max_len : Nat) (w : World) :
    w.bus <+: (read_start max_len w).bus := by
  simp only [read_start, enable_chan, World.emit, chan_is_enabled]
  split_ifs <;> simp

theorem usb_read_response_frame (buffer : Ptr) (max_len timeout_ms : Nat) (bytes_read : Ptr)
    (max_nak_retries : Int) (w : World) :
    (usb_read_response buffer max_len timeout_ms bytes_read max_nak_retries w).world.packet_buffer
        = w.packet_buffer
      ∧ w.bus <+:
        (usb_read_response buffer max_len timeout_ms bytes_read max_nak_retries w).world.bus := by
  simp only [usb_read_response]
  have h := read_poll_loop_frame buffer max_len bytes_read true
    ((read_start max_len w).env_polls.headD [])
    { read_start max_len w with env_polls := (read_start max_len w).env_polls.tail }
  have hs := read_start_bus max_len w
  generalize read_poll_loop buffer max_len bytes_read true
    ((read_start max_len w).env_polls.headD [])
    { read_start max_len w with env_polls := (read_start max_len w).env_polls.tail } = p at h ⊢
  obtain ⟨e, w6⟩ := p
  simp only [read_start_packet_buffer] at h
  cases e
  · exact ⟨h.1, hs.trans h.2⟩
  · exact ⟨(read_failure_path_frame _ _).1.trans h.1,
      (hs.trans h.2).trans (read_failure_path_frame _ _).2⟩
  · exact ⟨h.1, hs.trans h.2⟩

/-! ## `usb_send_packet_impl` as a whole -/

theorem usb_send_packet_impl_frame (c : usb_packet_config_t) (w : World)
    (h : 1 ≤ c.packet_size) :
    (usb_send_packet_impl (some c) w).world.packet_buffer = build_packet_buffer c
      ∧ (setup_stage c w).2.bus <+: (usb_send_packet_impl (some c) w).world.bus := by
  have hp := setup_stage_packet_buffer c w
  simp only [usb_send_packet_impl]
  rw [if_neg (by omega)]
  generalize setup_stage c w = s at hp ⊢
  obtain ⟨f, w1⟩ := s
  cases f with
  | some f => exact ⟨hp, List.prefix_refl _⟩
  | none =>
    simp only
    split_ifs
    · exact ⟨(usb_write_data_frame _ _ _ _).1.trans hp, (usb_write_data_frame _ _ _ _).2⟩
    · exact ⟨(usb_read_response_frame _ _ _ _ _ _).1.trans hp,
        (usb_read_response_frame _ _ _ _ _ _).2⟩
    · exact ⟨hp, List.prefix_refl _⟩

theorem usb_send_packet_impl_bus (c : usb_packet_config_t) (w : World)
    (h : 1 ≤ c.packet_size) :
    ∃ later, (usb_send_packet_impl (some c) w).world.bus
      = w.bus ++ (if c.max_packet_size = 0 ∨ c.packet_size > 256 then []
                  else [setup_transaction c]) ++ later := by
  obtain ⟨later, hl⟩ := (usb_send_packet_impl_frame c w h).2
  exact ⟨later, by rw [← hl, setup_stage_bus]⟩

theorem getD_append_right_zero (l : List Nat) (k i : Nat) (h : l.length ≤ i) :
    (l ++ List.replicate k 0).getD i 0 = 0 := by
  rw [List.getD_eq_getElem?_getD, List.getElem?_append_right h, List.getElem?_replicate]
  split_ifs <;> rfl

/-- C1: a request with `packet_size = 0` is answered with `ESP_ERR_INVALID_ARG`
and leaves the whole world as it was: no register access is added to the trace,
nothing reaches the bus, and the recovery counters, the cached device info and
every buffer keep their values. -/
theorem C1_zero_packet_size_rejected (config : usb_packet_config_t) (w : World)
    (h : config.packet_size = 0) :
    (usb_send_packet_impl (some config) w).status
        = Status.returned esp_err_t.ESP_ERR_INVALID_ARG
      ∧ (usb_send_packet_impl (some config) w).world = w := by
  simp [usb_send_packet_impl, h]

theorem C1_zero_packet_size_rejected_witness :
    ({ usb_packet_config_default with packet_size := 0 } : usb_packet_config_t).packet_size = 0
      ∧ (usb_send_packet_impl (some { usb_packet_config_default with packet_size := 0 })
            World.boot).status = Status.returned esp_err_t.ESP_ERR_INVALID_ARG
      ∧ (usb_send_packet_impl (some { usb_packet_config_default with packet_size := 0 })
            World.boot).world = World.boot :=
  ⟨rfl, C1_zero_packet_size_rejected _ World.boot rfl⟩

/-- C2: for `1 ≤ packet_size ≤ 8` the send buffer holds the first `packet_size`
bytes of the setup layout and zero everywhere else, the transfer size register is
programmed with `packet_size`, and the transaction handed to the controller
carries exactly the first `packet_size` bytes of the layout. With
`max_packet_size = 0` the run ends before the channel is enabled and nothing is
handed over. -/
theorem C2_truncated_setup_bytes (config : usb_packet_config_t) (w : World)
    (h1 : 1 ≤ config.packet_size) (h8 : config.packet_size ≤ 8) :
    (usb_send_packet_impl (some config) w).world.packet_buffer.length = 256
      ∧ (∀ i, i < config.packet_size →
          (usb_send_packet_impl (some config) w).world.packet_buffer.getD i 0
            = (spec_setup_layout config).getD i 0)
      ∧ (∀ i, config.packet_size ≤ i →
          (usb_send_packet_impl (some config) w).world.packet_buffer.getD i 0 = 0)
      ∧ (setup_stage config w).2.regs.xfersize = config.packet_size
      ∧ ∃ later, (usb_send_packet_impl (some config) w).world.bus
          = w.bus
            ++ (if config.max_packet_size = 0 then []
                else [{ dir := 0, pid := 3, xfersize := config.packet_size,
                        pktcnt := ((config.packet_size + config.max_packet_size - 1) % SIZE_MOD)
                                    / config.max_packet_size,
                        payload := (spec_setup_layout config).take config.packet_size }])
            ++ later := by
  have hb := build_packet_buffer_small config h8
  have hlen : ((spec_setup_layout config).take config.packet_size).length = config.packet_size := by
    simp [spec_setup_layout]; omega
  rw [(usb_send_packet_impl_frame config w h1).1]
  refine ⟨build_packet_buffer_length config, ?_, ?_, setup_stage_xfersize config w, ?_⟩
  · intro i hi
    rw [hb, List.append_assoc, List.getD_append _ _ _ _ (by omega)]
    simp only [List.getD_eq_getElem?_getD, List.getElem?_take, hi, if_true]
  · intro i hi
    rw [hb, List.append_assoc, ← List.replicate_add]
    exact getD_append_right_zero _ _ _ (by omega)
  · obtain ⟨later, hl⟩ := usb_send_packet_impl_bus config w h1
    refine ⟨later, ?_⟩
    rw [hl]
    have h256 : ¬ config.packet_size > 256 := by omega
    have hpay : (build_packet_buffer config).take config.packet_size
        = (spec_setup_layout config).take config.packet_size := by
      rw [hb, List.append_assoc, List.take_append_of_le_length (by omega),
        List.take_of_length_le (by omega)]
    simp only [h256, or_false, setup_transaction, hpay]

theorem C2_truncated_setup_bytes_witness :
    (1 ≤ request_truncated.packet_size ∧ request_truncated.packet_size ≤ 8)
      ∧ (usb_send_packet_impl (some request_truncated) World.boot).world.packet_buffer.length
          = 256
      ∧ (∀ i, i < request_truncated.packet_size →
          (usb_send_packet_impl (some request_truncated) World.boot).world.packet_buffer.getD i 0
            = (spec_setup_layout request_truncated).getD i 0)
      ∧ (∀ i, request_truncated.packet_size ≤ i →
          (usb_send_packet_impl (some request_truncated) World.boot).world.packet_buffer.getD i 0
            = 0)
      ∧ (setup_stage request_truncated World.boot).2.regs.xfersize
          = request_truncated.packet_size
      ∧ ∃ later, (usb_send_packet_impl (some request_truncated) World.boot).world.bus
          = World.boot.bus
            ++ (if request_truncated.max_packet_size = 0 then []
                else [{ dir := 0, pid := 3, xfersize := request_truncated.packet_size,
                        pktcnt := ((request_truncated.packet_size
                                      + request_truncated.max_packet_size - 1) % SIZE_MOD)
                                    / request_truncated.max_packet_size,
                        payload := (spec_setup_layout request_truncated).take
                                      request_truncated.packet_size }])
            ++ later :=
  ⟨⟨by decide, by decide⟩,
    C2_truncated_setup_bytes request_truncated World.boot (by decide) (by decide)⟩

theorem setup_transaction_payload_large (c : usb_packet_config_t) (h : 8 < c.packet_size)
    (h256 : c.packet_size ≤ 256) :
    (setup_transaction c).payload
      = spec_setup_layout c
          ++ (List.range (c.packet_size - 8)).map (fun i => c.extra_data.getD i 0) := by
  have hmin : min (c.packet_size - 8) 248 = c.packet_size - 8 := by omega
  have hl : (spec_setup_layout c).length = 8 := rfl
  simp only [setup_transaction]
  rw [build_packet_buffer_large c h, hmin]
  exact List.take_left' (by simp [hl]; omega)

/-- C3: for `packet_size > 8` the send buffer holds the 8-byte setup layout,
then exactly `n = min (packet_size - 8) 248` bytes of extra data, byte `8 + i`
being `extra_data[i]`, and zero from index `8 + n` on; up to 256 bytes the
SETUP transaction carries the layout followed by those `packet_size - 8` bytes. -/
theorem C3_oversized_setup_bytes (config : usb_packet_config_t) (w : World)
    (h : 8 < config.packet_size) :
    (usb_send_packet_impl (some config) w).world.packet_buffer.length = 256
      ∧ (usb_send_packet_impl (some config) w).world.packet_buffer.take 8
          = spec_setup_layout config
      ∧ (∀ i, i < min (config.packet_size - 8) 248 →
          (usb_send_packet_impl (some config) w).world.packet_buffer.getD (8 + i) 0
            = config.extra_data.getD i 0)
      ∧ (∀ i, 8 + min (config.packet_size - 8) 248 ≤ i →
          (usb_send_packet_impl (some config) w).world.packet_buffer.getD i 0 = 0)
      ∧ (config.packet_size ≤ 256 →
          (setup_transaction config).payload
            = spec_setup_layout config
                ++ (List.range (config.packet_size - 8)).map
                    (fun i => config.extra_data.getD i 0))
      ∧ ∃ later, (usb_send_packet_impl (some config) w).world.bus
          = w.bus ++ (if config.max_packet_size = 0 ∨ config.packet_size > 256 then []
                      else [setup_transaction config]) ++ later := by
  have hb := build_packet_buffer_large config h
  rw [(usb_send_packet_impl_frame config w (by omega)).1]
  have hl : (spec_setup_layout config).length = 8 := rfl
  refine ⟨build_packet_buffer_length config, ?_, ?_, ?_,
    setup_transaction_payload_large config h,
    usb_send_packet_impl_bus config w (by omega)⟩
  · rw [hb, List.append_assoc, List.take_append_of_le_length (by omega),
      List.take_of_length_le (by omega)]
  · intro i hi
    rw [hb, List.getD_append _ _ _ _ (by simp [hl]; omega),
      List.getD_append_right _ _ _ _ (by omega), hl, Nat.add_sub_cancel_left,
      List.getD_eq_getElem?_getD, List.getElem?_map, List.getElem?_range hi]
    rfl
  · intro i hi
    rw [hb]
    exact getD_append_right_zero _ _ _ (by simp [hl]; omega)

theorem C3_oversized_setup_bytes_witness :
    8 < request_oversized.packet_size
      ∧ (usb_send_packet_impl (some request_oversized) World.boot).world.packet_buffer.length
          = 256
      ∧ (usb_send_packet_impl (some request_oversized) World.boot).world.packet_buffer.take 8
          = spec_setup_layout request_oversized
      ∧ (∀ i, i < min (request_oversized.packet_size - 8) 248 →
          (usb_send_packet_impl (some request_oversized) World.boot).world.packet_buffer.getD
              (8 + i) 0
            = request_oversized.extra_data.getD i 0)
      ∧ (∀ i, 8 + min (request_oversized.packet_size - 8) 248 ≤ i →
          (usb_send_packet_impl (some request_oversized) World.boot).world.packet_buffer.getD i 0
            = 0)
      ∧ (request_oversized.packet_size ≤ 256 →
          (setup_transaction request_oversized).payload
            = spec_setup_layout request_oversized
                ++ (List.range (request_oversized.packet_size - 8)).map
                    (fun i => request_oversized.extra_data.getD i 0))
      ∧ ∃ later, (usb_send_packet_impl (some request_oversized) World.boot).world.bus
          = World.boot.bus
            ++ (if request_oversized.max_packet_size = 0 ∨ request_oversized.packet_size > 256
                then [] else [setup_transaction request_oversized]) ++ later :=
  ⟨by decide, C3_oversized_setup_bytes request_oversized World.boot (by decide)⟩

/-- C4: for `packet_size ≥ 8` the first eight bytes of the send buffer are
bmRequestType, bRequest, wValue low, wValue high, wIndex low, wIndex high,
wLength low, wLength high, and so are the first eight bytes of the SETUP
transaction; the default request of `usb_packet_config_default` puts
`80 06 00 01 00 00 12 00` in the send buffer and on the bus. -/
theorem C4_setup_layout_order (config : usb_packet_config_t) (w : World)
    (h : 8 ≤ config.packet_size) :
    (usb_send_packet_impl (some config) w).world.packet_buffer.take 8
        = [config.bmRequestType, config.bRequest, config.wValue % 256,
           config.wValue / 256 % 256, config.wIndex % 256, config.wIndex / 256 % 256,
           config.wLength % 256, config.wLength / 256 % 256]
      ∧ (setup_transaction config).payload.take 8
        = [config.bmRequestType, config.bRequest, config.wValue % 256,
           config.wValue / 256 % 256, config.wIndex % 256, config.wIndex / 256 % 256,
           config.wLength % 256, config.wLength / 256 % 256]
      ∧ (∃ later, (usb_send_packet_impl (some config) w).world.bus
          = w.bus ++ (if config.max_packet_size = 0 ∨ config.packet_size > 256 then []
                      else [setup_transaction config]) ++ later)
      ∧ (usb_send_packet_impl (some usb_packet_config_default) w).world.packet_buffer.take 8
        = [0x80, 0x06, 0x00, 0x01, 0x00, 0x00, 0x12, 0x00]
      ∧ (usb_send_packet_impl (some usb_packet_config_default) w).world.bus
        = w.bus ++ [{ dir := 0, pid := 3, xfersize := 8, pktcnt := 1,
                      payload := [0x80, 0x06, 0x00, 0x01, 0x00, 0x00, 0x12, 0x00] }] := by
  have key : ∀ c : usb_packet_config_t, 8 ≤ c.packet_size →
      (build_packet_buffer c).take 8 = spec_setup_layout c := by
    intro c hc
    have hl : (spec_setup_layout c).length = 8 := rfl
    by_cases h8 : c.packet_size ≤ 8
    · have e8 : c.packet_size = 8 := by omega
      rw [build_packet_buffer_small c h8, e8, List.append_assoc,
        List.take_append_of_le_length (by simp [hl]), List.take_of_length_le (by simp [hl]),
        List.take_of_length_le (by simp [hl])]
    · rw [build_packet_buffer_large c (by omega), List.append_assoc,
        List.take_append_of_le_length (by omega), List.take_of_length_le (by omega)]
  have hd : (8 : Nat) ≤ usb_packet_config_default.packet_size := by decide
  refine ⟨?_, ?_, usb_send_packet_impl_bus config w (by omega), ?_, ?_⟩
  · rw [(usb_send_packet_impl_frame config w (by omega)).1, key config h]; rfl
  · show ((build_packet_buffer config).take config.packet_size).take 8 = _
    rw [List.take_take, Nat.min_eq_left h, key config h]; rfl
  · rw [(usb_send_packet_impl_frame _ w (by decide)).1, key _ hd]; rfl
  · have hs := setup_stage_bus usb_packet_config_default w
    have hf := setup_stage_fault usb_packet_config_default w
    simp only [usb_send_packet_impl]
    generalize setup_stage usb_packet_config_default w = s at hs hf ⊢
    obtain ⟨f, w1⟩ := s
    simp only at hs hf
    have hf2 : f = none := by rw [hf]; decide
    subst hf2
    have hp : (build_packet_buffer usb_packet_config_default).take 8
        = [0x80, 0x06, 0x00, 0x01, 0x00, 0x00, 0x12, 0x00] := by
      rw [key _ hd]; decide
    simp [usb_packet_config_default, USB_SETUP_PACKET_SIZE] at hs ⊢
    rw [hs]
    simp [setup_transaction, usb_packet_config_default, USB_SETUP_PACKET_SIZE,
      USB_CONTROL_EP0_MPS, SIZE_MOD]
    exact hp

theorem C4_setup_layout_order_witness :
    8 ≤ request_oversized.packet_size
      ∧ (usb_send_packet_impl (some request_oversized) World.boot).world.packet_buffer.take 8
        = [0x80, 0x06, 0x00, 0x01, 0x00, 0x00, 0x12, 0x00] := by
  refine ⟨by decide, ?_⟩
  exact (C4_setup_layout_order request_oversized World.boot (by decide)).1

theorem and_0x80_eq_zero (n : Nat) : (n &&& 0x80 = 0) ↔ n.testBit 7 = false := by
  have h := Nat.and_two_pow n 7
  norm_num at h
  rw [h]
  cases n.testBit 7 <;> simp

/-- Every accepted request larger than 256 bytes ends in the out-of-bounds
`memcpy` into `dma_buffer`. -/
theorem usb_send_packet_impl_oversized (c : usb_packet_config_t) (w : World)
    (h : 256 < c.packet_size) (hm : c.max_packet_size ≠ 0) :
    (usb_send_packet_impl (some c) w).status
      = Status.crashed (Fault.dma_buffer_overflow c.packet_size) := by
  have hf := setup_stage_fault c w
  simp only [usb_send_packet_impl]
  rw [if_neg (by omega)]
  generalize setup_stage c w = s at hf ⊢
  obtain ⟨f, w1⟩ := s
  simp only [hm, if_false, h, if_true, gt_iff_lt] at hf
  subst hf
  rfl

/-- With a non-zero `max_packet_size` and no wrap-around the packet count is the
rounded-up quotient and at least one. -/
theorem setup_transaction_pktcnt (c : usb_packet_config_t) (h1 : 1 ≤ c.packet_size)
    (hm : 1 ≤ c.max_packet_size) (hw : c.packet_size + c.max_packet_size - 1 < SIZE_MOD) :
    (setup_transaction c).pktcnt = (c.packet_size + c.max_packet_size - 1) / c.max_packet_size
      ∧ 1 ≤ (setup_transaction c).pktcnt
      ∧ c.packet_size ≤ (setup_transaction c).pktcnt * c.max_packet_size
      ∧ ((setup_transaction c).pktcnt - 1) * c.max_packet_size < c.packet_size := by
  have e : (setup_transaction c).pktcnt
      = (c.packet_size + c.max_packet_size - 1) / c.max_packet_size := by
    simp only [setup_transaction, Nat.mod_eq_of_lt hw]
  rw [e]
  obtain ⟨m, hm2⟩ : ∃ m, c.max_packet_size = m + 1 := ⟨c.max_packet_size - 1, by omega⟩
  obtain ⟨p, hp2⟩ : ∃ p, c.packet_size = p + 1 := ⟨c.packet_size - 1, by omega⟩
  rw [hm2, hp2]
  have e2 : p + 1 + (m + 1) - 1 = p + (m + 1) := by omega
  have e3 : (p + (m + 1)) / (m + 1) = p / (m + 1) + 1 := Nat.add_div_right _ (Nat.succ_pos m)
  rw [e2, e3]
  have h3 := Nat.div_add_mod p (m + 1)
  have h4 := Nat.mod_lt p (Nat.succ_pos m)
  generalize p / (m + 1) = q at h3 ⊢
  generalize p % (m + 1) = r at h3 h4
  have e4 : (q + 1) * (m + 1) = (m + 1) * q + (m + 1) := by ring
  have e5 : (q + 1 - 1) * (m + 1) = (m + 1) * q := by
    rw [Nat.add_sub_cancel, Nat.mul_comm]
  refine ⟨rfl, by omega, ?_, ?_⟩
  · rw [e4]; omega
  · rw [e5]; omega

/-- C5: the claim that the `memcpy` into the 256-byte `dma_buffer` never exceeds
256 bytes fails on the code: the accepted request with `packet_size = 300`
reaches `memcpy(dma_buffer, packet_buffer, 300)`, which the model records as the
fault `dma_buffer_overflow 300`. -/
theorem C5_dma_copy_exceeds_buffer :
    1 ≤ request_too_large.packet_size
      ∧ USB_MAX_PACKET_SIZE < request_too_large.packet_size
      ∧ (usb_send_packet_impl (some request_too_large) World.boot).status
          = Status.crashed (Fault.dma_buffer_overflow 300)
      ∧ (usb_send_packet_impl (some request_too_large) World.boot).world.bus = [] := by
  decide

/-- C8: the packet count `(packet_size + max_packet_size - 1) / max_packet_size`
is not defined for every accepted request: with `max_packet_size = 0` the
accepted default request divides by zero, and with `packet_size = 2^32 - 1` the
32-bit sum wraps and the programmed packet count is 0. -/
theorem C8_packet_count_undefined :
    1 ≤ request_zero_mps.packet_size
      ∧ (usb_send_packet_impl (some request_zero_mps) World.boot).status
          = Status.crashed Fault.divide_by_zero
      ∧ 1 ≤ request_size_max.packet_size
      ∧ (usb_send_packet_impl (some request_size_max) World.boot).world.regs.pktcnt = 0 := by
  decide

theorem usb_write_data_first_chunk (data : List Nat) (length timeout_ms : Nat) (w : World)
    (h : 0 < length) :
    ∃ later, (usb_write_data data length timeout_ms w).world.bus
      = w.bus ++ chunk_transaction data length
          (if length > USB_MAX_EXTRA_DATA then USB_MAX_EXTRA_DATA else length) 0 2 :: later := by
  obtain ⟨n, hn⟩ : ∃ n, length = n + 1 := ⟨length - 1, by omega⟩
  simp only [usb_write_data]
  generalize (if length > USB_MAX_EXTRA_DATA then USB_MAX_EXTRA_DATA else length) = av
  conv => enter [1, later, 1, 1, 1, 4]; rw [hn]
  simp only [write_data_loop, h, if_true]
  generalize hp : write_chunk_poll
    ((chunk_start data length av 0 2 w).env_polls.headD [])
    { chunk_start data length av 0 2 w with
      env_polls := (chunk_start data length av 0 2 w).env_polls.tail } = p
  have hb : p.2.bus = w.bus ++ [chunk_transaction data length av 0 2] := by
    rw [← hp]; simp
  obtain ⟨e, w6⟩ := p
  simp only at hb
  cases e
  · have key : ∀ ts pid, ∃ later,
        (write_data_loop data length av n ts pid w6).world.bus
          = w.bus ++ chunk_transaction data length av 0 2 :: later := by
      intro ts pid
      obtain ⟨later, hl⟩ := (write_data_loop_frame data length av n ts pid w6).2
      exact ⟨later, by rw [← hl, hb]; simp⟩
    exact key _ _
  · exact ⟨[], by simp only; rw [hb]⟩
  · exact ⟨[], by simp only; rw [hb]⟩
  · exact ⟨[], by simp only; rw [hb]⟩

theorem read_start_bus_eq (max_len : Nat) (w : World) :
    (read_start max_len w).bus = w.bus ++ [data_in_transaction max_len] := by
  simp only [read_start, enable_chan, World.emit, chan_is_enabled, data_in_transaction,
    one_ne_zero, if_false]
  split_ifs <;> simp

theorem usb_read_response_first (buffer : Ptr) (max_len timeout_ms : Nat) (bytes_read : Ptr)
    (max_nak_retries : Int) (w : World) :
    ∃ later, (usb_read_response buffer max_len timeout_ms bytes_read max_nak_retries w).world.bus
      = w.bus ++ data_in_transaction max_len :: later := by
  simp only [usb_read_response]
  have h := (read_poll_loop_frame buffer max_len bytes_read true
    ((read_start max_len w).env_polls.headD [])
    { read_start max_len w with env_polls := (read_start max_len w).env_polls.tail }).2
  generalize read_poll_loop buffer max_len bytes_read true
    ((read_start max_len w).env_polls.headD [])
    { read_start max_len w with env_polls := (read_start max_len w).env_polls.tail } = p at h ⊢
  obtain ⟨e, w6⟩ := p
  simp only [read_start_bus_eq] at h
  cases e
  · obtain ⟨later, hl⟩ := h
    exact ⟨later, by simp only; rw [← hl]; simp⟩
  · obtain ⟨later, hl⟩ := h.trans (read_failure_path_frame bytes_read w6).2
    exact ⟨later, by simp only; rw [← hl]; simp⟩
  · obtain ⟨later, hl⟩ := h
    exact ⟨later, by simp only; rw [← hl]; simp⟩

/-- C7: for an accepted request whose SETUP stage has completed (by
`setup_stage_fault`: `max_packet_size ≠ 0` and `packet_size ≤ 256`),
`usb_send_packet_impl` is the
DATA-OUT stage when bit 7 of bmRequestType is 0 and wLength > 0 (a first chunk
with direction OUT then follows the SETUP transaction on the bus), it is the
DATA-IN stage when bit 7 is 1, a response is expected and the response buffer is
not null (an IN transaction then follows), and in every other case it returns
`ESP_OK` with the world the SETUP stage left. In the first two cases the result
is the result of the data stage. -/
theorem C7_data_stage_dispatch (config : usb_packet_config_t) (w : World)
    (h1 : 1 ≤ config.packet_size) (hs : (setup_stage config w).1 = none) :
    (config.bmRequestType.testBit 7 = false ∧ 0 < config.wLength →
        usb_send_packet_impl (some config) w
          = usb_write_data config.extra_data config.wLength config.timeout_ms
              (setup_stage config w).2
        ∧ ∃ tx later, tx.dir = 0 ∧ tx.pktcnt = 1
            ∧ (usb_send_packet_impl (some config) w).world.bus
                = (setup_stage config w).2.bus ++ tx :: later)
      ∧ (config.bmRequestType.testBit 7 = true ∧ config.expect_response = true
            ∧ config.response_buffer ≠ Ptr.null →
        usb_send_packet_impl (some config) w
          = usb_read_response config.response_buffer config.response_buffer_size
              config.timeout_ms config.bytes_received config.max_nak_retries
              (setup_stage config w).2
        ∧ ∃ later, (usb_send_packet_impl (some config) w).world.bus
            = (setup_stage config w).2.bus
                ++ data_in_transaction config.response_buffer_size :: later)
      ∧ (¬ (config.bmRequestType.testBit 7 = false ∧ 0 < config.wLength)
            ∧ ¬ (config.bmRequestType.testBit 7 = true ∧ config.expect_response = true
                  ∧ config.response_buffer ≠ Ptr.null) →
        usb_send_packet_impl (some config) w
          = { status := Status.returned esp_err_t.ESP_OK, world := (setup_stage config w).2 }) := by
  have hf := hs
  have unfold_ok : usb_send_packet_impl (some config) w
      = if (config.bmRequestType &&& 0x80) = 0 ∧ config.wLength > 0 then
          usb_write_data config.extra_data config.wLength config.timeout_ms
            (setup_stage config w).2
        else if ¬ (config.bmRequestType &&& 0x80) = 0 ∧ config.expect_response = true
            ∧ config.response_buffer ≠ Ptr.null then
          usb_read_response config.response_buffer config.response_buffer_size
            config.timeout_ms config.bytes_received config.max_nak_retries
            (setup_stage config w).2
        else { status := Status.returned esp_err_t.ESP_OK, world := (setup_stage config w).2 } := by
    simp only [usb_send_packet_impl]
    rw [if_neg (by omega)]
    generalize setup_stage config w = s at hf ⊢
    obtain ⟨f, w1⟩ := s
    simp only at hf
    subst hf
    rfl
  rw [unfold_ok]
  simp only [and_0x80_eq_zero, Bool.not_eq_false]
  refine ⟨?_, ?_, ?_⟩
  · intro h
    rw [if_pos h]
    obtain ⟨later, hl⟩ := usb_write_data_first_chunk config.extra_data config.wLength
      config.timeout_ms (setup_stage config w).2 h.2
    exact ⟨rfl, _, later, rfl, rfl, hl⟩
  · intro h
    rw [if_neg (by rw [h.1]; simp), if_pos h]
    exact ⟨rfl, usb_read_response_first _ _ _ _ _ _⟩
  · intro h
    rw [if_neg h.1, if_neg h.2]

theorem C7_data_stage_dispatch_witness :
    (1 ≤ request_data_out.packet_size ∧ (setup_stage request_data_out World.boot).1 = none)
      ∧ (request_data_out.bmRequestType.testBit 7 = false ∧ 0 < request_data_out.wLength)
      ∧ usb_send_packet_impl (some request_data_out) World.boot
          = usb_write_data request_data_out.extra_data request_data_out.wLength
              request_data_out.timeout_ms (setup_stage request_data_out World.boot).2 :=
  ⟨⟨by decide, by decide⟩, by decide,
    ((C7_data_stage_dispatch request_data_out World.boot (by decide) (by decide)).1
      (by decide)).1⟩

/-! ## The DATA-OUT stage -/

theorem chunk_fill_length (data : List Nat) (av ts cs : Nat) (h : cs ≤ 64) :
    (chunk_fill data av ts cs).length = 64 := by
  simp only [chunk_fill, memcpy, memset_zero, USB_DMA_CHUNK_SIZE]
  split_ifs <;>
    simp only [List.length_append, List.length_take, List.length_map, List.length_range,
      List.length_drop, List.length_replicate] <;> omega

theorem getD_drop_add (data : List Nat) (ts i : Nat) :
    (data.drop ts).getD i 0 = data.getD (ts + i) 0 := by
  simp only [List.getD_eq_getElem?_getD, List.getElem?_drop]

theorem chunk_fill_getElem? (data : List Nat) (av ts cs i : Nat) (h : cs ≤ 64) (hi : i < cs) :
    (chunk_fill data av ts cs)[i]?
      = some (if ts + i < av then data.getD (ts + i) 0 else 0) := by
  have hz : (List.replicate 64 0)[i]? = some 0 := by
    rw [List.getElem?_replicate, if_pos (by omega)]
  simp only [chunk_fill, memcpy, memset_zero, USB_DMA_CHUNK_SIZE]
  by_cases a : ts < av
  · rw [if_pos a, List.take_zero, List.nil_append, Nat.zero_add]
    by_cases b : ts + cs ≤ av
    · rw [if_pos b, List.getElem?_append_left (by simpa using hi),
        List.getElem?_map, List.getElem?_range hi, if_pos (by omega)]
      simp only [Option.map_some', getD_drop_add]
    · rw [if_neg b]
      by_cases hlt : i < av - ts
      · rw [List.getElem?_append_left (by simpa using hlt), List.getElem?_map,
          List.getElem?_range hlt, if_pos (by omega)]
        simp only [Option.map_some', getD_drop_add]
      · rw [List.getElem?_append_right (by simpa using hlt), List.getElem?_drop]
        simp only [List.length_map, List.length_range]
        rw [show av - ts + (i - (av - ts)) = i by omega, hz, if_neg (by omega)]
  · rw [if_neg a, hz, if_neg (by omega)]

theorem chunk_fill_take (data : List Nat) (av ts cs : Nat) (h : cs ≤ 64) :
    (chunk_fill data av ts cs).take cs
      = (List.range cs).map (fun j => if ts + j < av then data.getD (ts + j) 0 else 0) := by
  apply List.ext_getElem?
  intro i
  by_cases hi : i < cs
  · rw [List.getElem?_take_of_lt hi, chunk_fill_getElem? data av ts cs i h hi, List.getElem?_map,
      List.getElem?_range hi]
    rfl
  · rw [List.getElem?_eq_none (by simp; omega), List.getElem?_eq_none (by simp; omega)]

theorem write_chunk_poll_code (polls : List HcInt) (w : World) :
    chunk_end_code (write_chunk_poll polls w).1 = spec_chunk_result polls := by
  induction polls generalizing w with
  | nil => rfl
  | cons h rest ih =>
    simp only [write_chunk_poll, spec_chunk_result, List.find?_cons]
    by_cases hh : h.chhltd = true
    · simp only [hh, if_true]
      split_ifs <;> rfl
    · have hh2 : h.chhltd = false := by simpa using hh
      simp only [hh2, Bool.false_eq_true, if_false]
      rw [ih]
      simp only [spec_chunk_result]

theorem headD_eq_getD_zero {α : Type} (l : List α) (d : α) : l.headD d = l.getD 0 d := by
  cases l <;> rfl

theorem tail_getD {α : Type} (l : List α) (k : Nat) (d : α) :
    l.tail.getD k d = l.getD (k + 1) d := by
  cases l <;> rfl

theorem chunk_count_step (length ts : Nat) (h : ts < length) :
    (length - ts + 63) / 64
      = (length - (ts + if length - ts > 64 then 64 else length - ts) + 63) / 64 + 1 := by
  split_ifs <;> omega

theorem chunk_transaction_payload (data : List Nat) (length av ts pid : Nat) :
    (chunk_transaction data length av ts pid).payload
      = (List.range (if length - ts > 64 then 64 else length - ts)).map
          (fun j => if ts + j < av then data.getD (ts + j) 0 else 0) := by
  simp only [chunk_transaction, USB_DMA_CHUNK_SIZE]
  exact chunk_fill_take _ _ _ _ (by split_ifs <;> omega)

theorem write_data_loop_spec (data : List Nat) (length av : Nat) :
    ∀ (fuel ts pid : Nat) (w : World), length - ts ≤ fuel →
      ((write_data_loop data length av fuel ts pid w).status = Status.returned esp_err_t.ESP_OK
          ↔ ∀ k, k < (length - ts + 63) / 64 →
              spec_chunk_result (w.env_polls.getD k []) = esp_err_t.ESP_OK)
      ∧ (∀ k, k < (length - ts + 63) / 64 →
          (∀ j, j < k → spec_chunk_result (w.env_polls.getD j []) = esp_err_t.ESP_OK) →
          spec_chunk_result (w.env_polls.getD k []) ≠ esp_err_t.ESP_OK →
          (write_data_loop data length av fuel ts pid w).status
              = Status.returned (spec_chunk_result (w.env_polls.getD k []))
            ∧ (write_data_loop data length av fuel ts pid w).world.bus.length
              = w.bus.length + (k + 1))
      ∧ ((write_data_loop data length av fuel ts pid w).status
            = Status.returned esp_err_t.ESP_OK →
          ∃ chunks, (write_data_loop data length av fuel ts pid w).world.bus = w.bus ++ chunks
            ∧ chunks.length = (length - ts + 63) / 64
            ∧ (chunks.map (fun t => t.payload)).flatten
              = (List.range (length - ts)).map
                  (fun j => if ts + j < av then data.getD (ts + j) 0 else 0)) := by
  intro fuel
  induction fuel with
  | zero =>
    intro ts pid w hf
    have h0 : length - ts = 0 := by omega
    simp [write_data_loop, h0]
  | succ n ih =>
    intro ts pid w hf
    simp only [write_data_loop, USB_DMA_CHUNK_SIZE]
    by_cases hlt : ts < length
    · simp only [hlt, if_true]
      rw [chunk_count_step length ts hlt]
      generalize hcs : (if length - ts > 64 then 64 else length - ts) = cs
      have hcs1 : 1 ≤ cs ∧ cs ≤ 64 ∧ cs ≤ length - ts := by
        rw [← hcs]; split_ifs <;> omega
      generalize hp : write_chunk_poll
        ((chunk_start data length av ts pid w).env_polls.headD [])
        { chunk_start data length av ts pid w with
          env_polls := (chunk_start data length av ts pid w).env_polls.tail } = p
      have hb : p.2.bus = w.bus ++ [chunk_transaction data length av ts pid] := by
        rw [← hp]; simp
      have he : p.2.env_polls = w.env_polls.tail := by
        rw [← hp]; simp
      have hc : chunk_end_code p.1 = spec_chunk_result (w.env_polls.getD 0 []) := by
        rw [← hp, write_chunk_poll_code, chunk_start_env_polls, headD_eq_getD_zero]
      have hpay := chunk_transaction_payload data length av ts pid
      rw [hcs] at hpay
      obtain ⟨e, w6⟩ := p
      simp only at hb he hc
      obtain ⟨i1, i2, i3⟩ := ih (ts + cs) (if pid = 2 then 0 else 2) w6 (by omega)
      simp only [he, tail_getD] at i1 i2
      cases e
      · -- chunk complete: the loop goes on
        simp only [chunk_end_code] at hc
        refine ⟨?_, ?_, ?_⟩
        · rw [i1]
          constructor
          · intro h k hk
            cases k with
            | zero => exact hc.symm
            | succ k => exact h k (by omega)
          · intro h k hk
            exact h (k + 1) (by omega)
        · intro k hk hprev hbad
          cases k with
          | zero => exact absurd hc.symm hbad
          | succ k =>
            obtain ⟨s1, s2⟩ := i2 k (by omega) (fun j hj => hprev (j + 1) (by omega)) hbad
            refine ⟨s1, ?_⟩
            rw [s2, hb]
            simp
            omega
        · intro hok
          obtain ⟨chunks, c1, c2, c3⟩ := i3 hok
          refine ⟨chunk_transaction data length av ts pid :: chunks, ?_, ?_, ?_⟩
          · rw [c1, hb]; simp
          · simp [c2]
          · simp only [List.map_cons, List.flatten_cons, c3, hpay]
            have hsplit : length - ts = cs + (length - (ts + cs)) := by omega
            rw [hsplit, List.range_add, List.map_append, List.map_map]
            congr 1
            apply List.map_congr_left
            intro j _
            simp only [Function.comp, Nat.add_assoc]
      all_goals
        simp only [chunk_end_code] at hc
        refine ⟨?_, ?_, ?_⟩
        · constructor
          · intro h; exact absurd h (by simp)
          · intro h
            have := h 0 (by omega)
            rw [← hc] at this
            exact absurd this (by simp)
        · intro k hk hprev hbad
          cases k with
          | zero => exact ⟨by rw [← hc], by rw [hb]; simp⟩
          | succ k =>
            have := hprev 0 (by omega)
            rw [← hc] at this
            exact absurd this (by simp)
        · intro h; exact absurd h (by simp)
    · have h0 : length - ts = 0 := by omega
      simp [hlt, h0]

/-- C9: when `usb_write_data` returns `ESP_OK`, the payloads of the chunks it
handed to the controller, concatenated, are `length` bytes: byte `i` is
`data[i]` for `i < min length 248` and zero for `min length 248 ≤ i < length`. -/
theorem C9_data_out_zero_padding (data : List Nat) (length timeout_ms : Nat) (w : World)
    (hok : (usb_write_data data length timeout_ms w).status
      = Status.returned esp_err_t.ESP_OK) :
    ∃ chunks, (usb_write_data data length timeout_ms w).world.bus = w.bus ++ chunks
      ∧ ((chunks.map (fun t => t.payload)).flatten).length = length
      ∧ (∀ i, i < min length 248 →
          ((chunks.map (fun t => t.payload)).flatten).getD i 0 = data.getD i 0)
      ∧ (∀ i, min length 248 ≤ i → i < length →
          ((chunks.map (fun t => t.payload)).flatten).getD i 0 = 0) := by
  have hav : (if length > USB_MAX_EXTRA_DATA then USB_MAX_EXTRA_DATA else length)
      = min length 248 := by
    simp only [USB_MAX_EXTRA_DATA]; split_ifs <;> omega
  simp only [usb_write_data, hav] at hok ⊢
  obtain ⟨chunks, c1, _, c3⟩ :=
    (write_data_loop_spec data length (min length 248) length 0 2 w (by omega)).2.2 hok
  simp only [Nat.sub_zero, Nat.zero_add] at c3
  refine ⟨chunks, c1, ?_, ?_, ?_⟩
  · rw [c3]; simp
  · intro i hi
    have hil : i < length := by omega
    rw [c3, List.getD_eq_getElem?_getD, List.getElem?_map, List.getElem?_range hil]
    simp only [Option.map_some', Option.getD_some, if_pos hi]
  · intro i hi hil
    rw [c3, List.getD_eq_getElem?_getD, List.getElem?_map, List.getElem?_range hil]
    have hn : ¬ i < min length 248 := by omega
    simp only [Option.map_some', Option.getD_some, if_neg hn]

/-- C10: `usb_write_data` returns `ESP_OK` exactly when every one of the
`(length + 63) / 64` chunks, in order, ends its polling loop with a halt that
carries transfer-complete. Otherwise it stops at the first chunk `k` that does
not: it returns the result of that chunk (`ESP_ERR_INVALID_RESPONSE` for a halt
with stall and no transfer-complete, `ESP_FAIL` for any other halt without
transfer-complete, `ESP_ERR_TIMEOUT` when the deadline passes without a halt)
and has handed exactly `k + 1` chunks to the controller. -/
theorem C10_data_out_first_failure (data : List Nat) (length timeout_ms : Nat) (w : World) :
    ((usb_write_data data length timeout_ms w).status = Status.returned esp_err_t.ESP_OK
        ↔ ∀ k, k < (length + 63) / 64 →
            spec_chunk_result (w.env_polls.getD k []) = esp_err_t.ESP_OK)
      ∧ ∀ k, k < (length + 63) / 64 →
          (∀ j, j < k → spec_chunk_result (w.env_polls.getD j []) = esp_err_t.ESP_OK) →
          spec_chunk_result (w.env_polls.getD k []) ≠ esp_err_t.ESP_OK →
          (usb_write_data data length timeout_ms w).status
              = Status.returned (spec_chunk_result (w.env_polls.getD k []))
            ∧ (usb_write_data data length timeout_ms w).world.bus.length
              = w.bus.length + (k + 1) := by
  have h := write_data_loop_spec data length
    (if length > USB_MAX_EXTRA_DATA then USB_MAX_EXTRA_DATA else length) length 0 2 w (by omega)
  simp only [Nat.sub_zero] at h
  exact ⟨h.1, h.2.1⟩

/-! ## The reset sequence before an enable -/

@[simp] theorem emit_trace (w : World) (ops : List HwOp) : (w.emit ops).trace = w.trace ++ ops :=
  rfl

@[simp] theorem chan_is_enabled_trace (w : World) :
    (chan_is_enabled w).2.trace = w.trace ++ [HwOp.chan_is_enabled (chan_is_enabled w).1] := rfl

@[simp] theorem get_conn_status_trace (w : World) :
    (get_conn_status w).2.trace = w.trace ++ [HwOp.get_conn_status (get_conn_status w).1] := rfl

@[simp] theorem enable_chan_trace (s : EnableSite) (w : World) :
    (enable_chan s w).trace = w.trace ++ [HwOp.enable_chan s] := rfl

@[simp] theorem audit_append (ok : ResetProgress → EnableSite → Bool) (t ops : List HwOp) :
    audit ok (t ++ ops) = ops.foldl (audit_step ok) (audit ok t) := by
  simp [audit]

/-- The audit after `wait_chan_halt`: only `halted` can have been set. -/
theorem wait_chan_halt_audit (ok : ResetProgress → EnableSite → Bool) (n : Nat) (w : World) :
    ∃ b, audit ok (wait_chan_halt n w).trace
      = ((audit ok w.trace).1,
         { (audit ok w.trace).2 with halted := (audit ok w.trace).2.halted || b }) := by
  induction n generalizing w with
  | zero => exact ⟨false, by simp [wait_chan_halt]⟩
  | succ n ih =>
    simp only [wait_chan_halt]
    cases hr : (chan_is_enabled (w.emit [HwOp.delay 1])).1
    · refine ⟨true, ?_⟩
      simp [hr, audit_step, ResetProgress.step]
    · obtain ⟨b, hb⟩ := ih (chan_is_enabled (w.emit [HwOp.delay 1])).2
      refine ⟨b, ?_⟩
      simp only [if_true, hb]
      simp [hr, audit_step, ResetProgress.step]

theorem write_chunk_poll_audit (polls : List HcInt) (w : World) :
    (audit reset_as_coded (write_chunk_poll polls w).2.trace).1
      = (audit reset_as_coded w.trace).1 := by
  induction polls generalizing w with
  | nil => rfl
  | cons h rest ih =>
    simp only [write_chunk_poll]
    split_ifs
    all_goals first
      | (rw [ih]; simp [audit_step])
      | simp [audit_step]

theorem chunk_start_audit (data : List Nat) (length av ts pid : Nat) (w : World)
    (h : (audit reset_as_coded w.trace).1 = true) :
    (audit reset_as_coded (chunk_start data length av ts pid w).trace).1 = true := by
  simp only [chunk_start]
  cases hr : (chan_is_enabled w).1 <;>
    simp [hr, audit_step, ResetProgress.step, reset_as_coded, h]

theorem write_data_loop_audit (data : List Nat) (length av : Nat) (fuel ts pid : Nat)
    (w : World) (h : (audit reset_as_coded w.trace).1 = true) :
    (audit reset_as_coded (write_data_loop data length av fuel ts pid w).world.trace).1
      = true := by
  induction fuel generalizing ts pid w with
  | zero => simpa [write_data_loop] using h
  | succ n ih =>
    simp only [write_data_loop]
    by_cases hlt : ts < length
    · simp only [hlt, if_true]
      have h1 := chunk_start_audit data length av ts pid w h
      generalize chunk_start data length av ts pid w = w4 at h1 ⊢
      have h2 := write_chunk_poll_audit (w4.env_polls.headD [])
        { w4 with env_polls := w4.env_polls.tail }
      simp only [h1] at h2
      generalize write_chunk_poll (w4.env_polls.headD [])
        { w4 with env_polls := w4.env_polls.tail } = p at h2 ⊢
      obtain ⟨e, w6⟩ := p
      cases e
      · exact ih _ _ _ h2
      · exact h2
      · exact h2
      · exact h2
    · simpa [hlt] using h

theorem usb_write_data_audit (data : List Nat) (length timeout_ms : Nat) (w : World)
    (h : (audit reset_as_coded w.trace).1 = true) :
    (audit reset_as_coded (usb_write_data data length timeout_ms w).world.trace).1 = true :=
  write_data_loop_audit _ _ _ _ _ _ _ h

theorem usb_send_reset_impl_audit (w : World) :
    (audit reset_as_coded (usb_send_reset_impl w).2.trace).1
      = (audit reset_as_coded w.trace).1 := by
  simp only [usb_send_reset_impl]
  split_ifs <;> simp [audit_step]

theorem read_failure_path_audit (bytes_read : Ptr) (w : World) :
    (audit reset_as_coded (read_failure_path bytes_read w).world.trace).1
      = (audit reset_as_coded w.trace).1 := by
  simp only [read_failure_path]
  split_ifs
  · rfl
  · simp [audit_step, usb_send_reset_impl_audit]
  · simp [audit_step, usb_send_reset_impl_audit, usb_flush_all_fifos]
  · rfl

theorem read_start_audit (max_len : Nat) (w : World)
    (h : (audit reset_as_coded w.trace).1 = true) :
    (audit reset_as_coded (read_start max_len w).trace).1 = true := by
  simp only [read_start]
  cases hr : (chan_is_enabled w).1
  · simp [hr, audit_step, ResetProgress.step, reset_as_coded, h]
  · obtain ⟨b, hb⟩ := wait_chan_halt_audit reset_as_coded 5
      ((chan_is_enabled w).2.emit [HwOp.disable_chan])
    simp [hr, hb, audit_step, ResetProgress.step, reset_as_coded, h]

theorem read_poll_loop_audit (buffer : Ptr) (max_len : Nat) (bytes_read : Ptr)
    (first_poll : Bool) (polls : List HcInt) (w : World)
    (h : (audit reset_as_coded w.trace).1 = true) :
    (audit reset_as_coded
      (read_poll_loop buffer max_len bytes_read first_poll polls w).2.trace).1 = true := by
  induction polls generalizing first_poll w with
  | nil => simpa [read_poll_loop] using h
  | cons hc rest ih =>
    simp only [read_poll_loop]
    split_ifs
    all_goals first
      | (apply ih; simp [audit_step, ResetProgress.step, reset_as_coded, h])
      | simp [audit_step, ResetProgress.step, reset_as_coded, h]

theorem usb_read_response_audit (buffer : Ptr) (max_len timeout_ms : Nat) (bytes_read : Ptr)
    (max_nak_retries : Int) (w : World) (h : (audit reset_as_coded w.trace).1 = true) :
    (audit reset_as_coded
      (usb_read_response buffer max_len timeout_ms bytes_read max_nak_retries w).world.trace).1
      = true := by
  simp only [usb_read_response]
  have h1 := read_start_audit max_len w h
  generalize read_start max_len w = w3 at h1 ⊢
  have h2 := read_poll_loop_audit buffer max_len bytes_read true (w3.env_polls.headD [])
    { w3 with env_polls := w3.env_polls.tail } h1
  generalize read_poll_loop buffer max_len bytes_read true (w3.env_polls.headD [])
    { w3 with env_polls := w3.env_polls.tail } = p at h2 ⊢
  obtain ⟨e, w6⟩ := p
  cases e
  · exact h2
  · simp only [read_failure_path_audit]; exact h2
  · exact h2

theorem setup_channel_reset_audit (w : World) :
    ∃ s, audit reset_as_coded (setup_channel_reset w).trace
        = ((audit reset_as_coded w.trace).1, s) ∧ s.full = true := by
  simp only [setup_channel_reset]
  cases hr : (chan_is_enabled w).1
  · exact ⟨_, by simp [hr, audit_step, ResetProgress.step]; rfl, by simp⟩
  · obtain ⟨b, hb⟩ := wait_chan_halt_audit reset_as_coded 10
      ((chan_is_enabled w).2.emit [HwOp.disable_chan])
    exact ⟨_, by simp [hr, hb, audit_step, ResetProgress.step]; rfl, by simp⟩

theorem setup_stage_audit (c : usb_packet_config_t) (w : World)
    (h : (audit reset_as_coded w.trace).1 = true) :
    (audit reset_as_coded (setup_stage c w).2.trace).1 = true := by
  obtain ⟨s, hs, hfull⟩ := setup_channel_reset_audit { w with packet_buffer := build_packet_buffer c }
  simp only [setup_stage]
  split_ifs <;>
    simp [hs, audit_step, ResetProgress.step, reset_as_coded, hfull, h]

theorem usb_send_packet_impl_audit (c : Option usb_packet_config_t) (w : World)
    (h : (audit reset_as_coded w.trace).1 = true) :
    (audit reset_as_coded (usb_send_packet_impl c w).world.trace).1 = true := by
  cases c with
  | none => exact h
  | some c =>
    simp only [usb_send_packet_impl]
    by_cases h0 : c.packet_size ≤ 0
    · rw [if_pos h0]; exact h
    · rw [if_neg h0]
      have hs := setup_stage_audit c w h
      generalize setup_stage c w = s at hs ⊢
      obtain ⟨f, w1⟩ := s
      cases f with
      | some f => exact hs
      | none =>
        simp only
        split_ifs
        · exact usb_write_data_audit _ _ _ _ hs
        · exact usb_read_response_audit _ _ _ _ _ _ hs
        · exact hs

/-- C6, as stated, fails: in the DATA-OUT run the chunk is enabled without an RX
FIFO flush since the SETUP enable, and in the DATA-IN run neither the start nor
the NAK re-enable follows the full sequence; the run with the SETUP stage alone
satisfies it. -/
theorem C6_full_reset_not_before_every_enable :
    enables_follow full_reset_required
        (usb_send_packet_impl (some request_data_out) world_one_completion).world.trace = false
      ∧ enables_follow full_reset_required
        (usb_send_packet_impl (some request_data_in) world_nak_then_data).world.trace = false
      ∧ enables_follow full_reset_required
        (usb_write_data [0x41] 1 1000 world_one_completion).world.trace = false
      ∧ enables_follow full_reset_required
        (usb_read_response Ptr.valid 18 1000 Ptr.valid 0 world_nak_then_data).world.trace = false
      ∧ enables_follow full_reset_required
        (usb_send_packet_impl (some usb_packet_config_default) World.boot).world.trace = true := by
  decide

/-- C6, amended: in every execution of `usb_send_packet_impl`, `usb_write_data`
and `usb_read_response` the SETUP enable is preceded by the full reset sequence
(channel idle or disabled, interrupt flags cleared, RX FIFO flushed, transfer
size register re-initialised); every DATA-OUT chunk enable and the DATA-IN start
enable is preceded, since the previous enable, by the halt, the interrupt clear
and the transfer size re-initialisation; every NAK re-enable is preceded, since
the previous enable, by a read-and-clear of the interrupt flags. Stated as an
invariant of the trace: if every enable so far met this discipline, so does
every enable after the call. -/
theorem C6_reset_before_enable_as_coded (config : Option usb_packet_config_t)
    (data : List Nat) (length timeout_ms max_len : Nat) (buffer bytes_read : Ptr)
    (max_nak_retries : Int) (w : World)
    (h : enables_follow reset_as_coded w.trace = true) :
    enables_follow reset_as_coded (usb_send_packet_impl config w).world.trace = true
      ∧ enables_follow reset_as_coded (usb_write_data data length timeout_ms w).world.trace
          = true
      ∧ enables_follow reset_as_coded
          (usb_read_response buffer max_len timeout_ms bytes_read max_nak_retries w).world.trace
          = true :=
  ⟨usb_send_packet_impl_audit config w h, usb_write_data_audit data length timeout_ms w h,
    usb_read_response_audit buffer max_len timeout_ms bytes_read max_nak_retries w h⟩

theorem C6_reset_before_enable_as_coded_witness :
    enables_follow reset_as_coded world_nak_then_data.trace = true
      ∧ enables_follow reset_as_coded
          (usb_send_packet_impl (some request_data_in) world_nak_then_data).world.trace = true
      ∧ enables_follow reset_as_coded
          (usb_write_data [0x41] 1 1000 world_nak_then_data).world.trace = true
      ∧ enables_follow reset_as_coded
          (usb_read_response Ptr.valid 18 1000 Ptr.valid 0 world_nak_then_data).world.trace
          = true :=
  ⟨by decide, C6_reset_before_enable_as_coded (some request_data_in) [0x41] 1 1000 18
    Ptr.valid Ptr.valid 0 world_nak_then_data (by decide)⟩

theorem C10_data_out_first_failure_witness :
    (usb_write_data (memset_zero 248) 100 1000 world_stall).status
        = Status.returned esp_err_t.ESP_ERR_INVALID_RESPONSE
      ∧ (usb_write_data (memset_zero 248) 100 1000 world_stall).world.bus.length = 1 := by
  have h := (C10_data_out_first_failure (memset_zero 248) 100 1000 world_stall).2 0
    (by decide) (by intro j hj; omega) (by decide)
  exact ⟨h.1, h.2⟩

@[simp] theorem read_start_env_polls (max_len : Nat) (w : World) :
    (read_start max_len w).env_polls = w.env_polls := by
  simp only [read_start, enable_chan, World.emit, chan_is_enabled]
  split_ifs <;> simp

@[simp] theorem read_start_env_xfersize (max_len : Nat) (w : World) :
    (read_start max_len w).env_xfersize = w.env_xfersize := by
  simp only [read_start, enable_chan, World.emit, chan_is_enabled]
  split_ifs
  · exact (wait_chan_halt_same _ _).2.1
  · rfl

@[simp] theorem read_start_env_rx (max_len : Nat) (w : World) :
    (read_start max_len w).env_rx = w.env_rx := by
  simp only [read_start, enable_chan, World.emit, chan_is_enabled]
  split_ifs
  · exact (wait_chan_halt_same _ _).2.2.1
  · rfl

@[simp] theorem read_start_consecutive_failures (max_len : Nat) (w : World) :
    (read_start max_len w).consecutive_failures = w.consecutive_failures := by
  simp only [read_start, enable_chan, World.emit, chan_is_enabled]
  split_ifs
  · exact (wait_chan_halt_same _ _).2.2.2.2.2.1
  · rfl

@[simp] theorem read_start_recovery_attempts (max_len : Nat) (w : World) :
    (read_start max_len w).recovery_attempts = w.recovery_attempts := by
  simp only [read_start, enable_chan, World.emit, chan_is_enabled]
  split_ifs
  · exact (wait_chan_halt_same _ _).2.2.2.2.2.2.1
  · rfl

/-- Readings that keep the loop polling are passed over; they leave the
environment script for the transfer size and the received data untouched. -/
theorem read_poll_loop_skip (buffer : Ptr) (max_len : Nat) (bytes_read : Ptr)
    (pre tail : List HcInt) :
    ∀ (first_poll : Bool) (w : World), all_keep_polling first_poll pre = true →
      ∃ fp w1, read_poll_loop buffer max_len bytes_read first_poll (pre ++ tail) w
          = read_poll_loop buffer max_len bytes_read fp tail w1
        ∧ w1.env_xfersize = w.env_xfersize ∧ w1.env_rx = w.env_rx := by
  induction pre with
  | nil => intro fp w _; exact ⟨fp, w, rfl, rfl, rfl⟩
  | cons h rest ih =>
    intro fp w hk
    simp only [all_keep_polling, keeps_polling, Bool.and_eq_true, Bool.or_eq_true,
      Bool.not_eq_true'] at hk
    obtain ⟨hk1, hk2⟩ := hk
    simp only [List.cons_append, read_poll_loop]
    by_cases hd : (fp && h.chhltd && !h.xfercompl) = true
    · rw [if_pos hd]
      obtain ⟨fp2, w1, e, x, r⟩ := ih false _ hk2
      exact ⟨fp2, w1, e, by rw [x]; rfl, by rw [r]; rfl⟩
    · rw [if_neg hd]
      by_cases hc : h.chhltd = true
      · rw [if_pos hc]
        have hx : h.xfercompl = false := by
          rcases hk1 with h1 | h1
          · rw [h1] at hc; exact absurd hc (by simp)
          · exact h1.1
        have hn : h.nak = true := by
          rcases hk1 with h1 | h1
          · rw [h1] at hc; exact absurd hc (by simp)
          · rcases h1.2 with h2 | h2
            · rw [h2, hc, hx] at hd; exact absurd rfl hd
            · exact h2
        simp only [hx, Bool.false_eq_true, if_false, hn, if_true]
        obtain ⟨fp2, w1, e, x, r⟩ := ih false _ hk2
        exact ⟨fp2, w1, e, by rw [x]; rfl, by rw [r]; rfl⟩
      · rw [if_neg hc]
        obtain ⟨fp2, w1, e, x, r⟩ := ih false _ hk2
        exact ⟨fp2, w1, e, by rw [x]; rfl, by rw [r]; rfl⟩

theorem memcpy_zero_getD (dst src : List Nat) (n i : Nat) (h : i < n) :
    (memcpy dst 0 src n).getD i 0 = src.getD i 0 := by
  simp only [memcpy, List.take_zero, List.nil_append]
  rw [List.getD_append _ _ _ _ (by simpa using h), List.getD_eq_getElem?_getD,
    List.getElem?_map, List.getElem?_range h]
  rfl

/-- The step of the polling loop at a halt with transfer-complete that reports
between 1 and 256 received bytes. -/
theorem read_poll_loop_complete (max_len : Nat) (fp : Bool) (h : HcInt) (rest : List HcInt)
    (w : World) (hh : h.chhltd = true ∧ h.xfercompl = true)
    (hr : w.env_xfersize.headD 0 < max_len) (hmax : max_len < SIZE_MOD)
    (hbuf : max_len - w.env_xfersize.headD 0 ≤ 256) :
    (read_poll_loop Ptr.valid max_len Ptr.valid fp (h :: rest) w).1 = ReadEnd.received
      ∧ (read_poll_loop Ptr.valid max_len Ptr.valid fp (h :: rest) w).2.bytes_received
          = max_len - w.env_xfersize.headD 0
      ∧ (∀ i, i < max_len - w.env_xfersize.headD 0 →
          (read_poll_loop Ptr.valid max_len Ptr.valid fp (h :: rest) w).2.response_buffer.getD i 0
            = (w.env_rx.headD []).getD i 0) := by
  have hrm : w.env_xfersize.headD 0 % SIZE_MOD = w.env_xfersize.headD 0 :=
    Nat.mod_eq_of_lt (by omega)
  have hn : (max_len % SIZE_MOD + SIZE_MOD - w.env_xfersize.headD 0) % SIZE_MOD
      = max_len - w.env_xfersize.headD 0 := by
    rw [Nat.mod_eq_of_lt hmax]
    have e : max_len + SIZE_MOD - w.env_xfersize.headD 0
        = (max_len - w.env_xfersize.headD 0) + SIZE_MOD := by omega
    rw [e, Nat.add_mod_right, Nat.mod_eq_of_lt (by omega)]
  have h1 : (fp && h.chhltd && !h.xfercompl) = false := by simp [hh.2]
  have hpos : max_len - w.env_xfersize.headD 0 > 0
      ∧ max_len - w.env_xfersize.headD 0 ≤ max_len := by omega
  have h256 : ¬ max_len - w.env_xfersize.headD 0 > 256 := by omega
  simp only [read_poll_loop, h1, Bool.false_eq_true, if_false, hh.1, hh.2, if_true, emit_trace,
    World.emit, hrm, hn, hpos, and_self, h256, reduceCtorEq, Bool.not_true, Bool.and_false]
  refine ⟨trivial, trivial, ?_⟩
  intro i hi
  exact memcpy_zero_getD _ _ _ _ hi

/-- `usb_read_response` unfolded at the polling loop. -/
theorem usb_read_response_eq (buffer : Ptr) (max_len timeout_ms : Nat) (bytes_read : Ptr)
    (max_nak_retries : Int) (w : World) :
    usb_read_response buffer max_len timeout_ms bytes_read max_nak_retries w
      = match (read_poll_loop buffer max_len bytes_read true (w.env_polls.headD [])
                { read_start max_len w with env_polls := w.env_polls.tail }).1 with
        | ReadEnd.received =>
          { status := Status.returned esp_err_t.ESP_OK,
            world := (read_poll_loop buffer max_len bytes_read true (w.env_polls.headD [])
                { read_start max_len w with env_polls := w.env_polls.tail }).2 }
        | ReadEnd.fault f =>
          { status := Status.crashed f,
            world := (read_poll_loop buffer max_len bytes_read true (w.env_polls.headD [])
                { read_start max_len w with env_polls := w.env_polls.tail }).2 }
        | ReadEnd.gave_up =>
          read_failure_path bytes_read
            (read_poll_loop buffer max_len bytes_read true (w.env_polls.headD [])
                { read_start max_len w with env_polls := w.env_polls.tail }).2 := by
  simp only [usb_read_response, read_start_env_polls]

theorem read_failure_path_status (bytes_read : Ptr) (w : World) :
    (read_failure_path bytes_read w).status = Status.crashed Fault.null_store
      ∨ (read_failure_path bytes_read w).status
          = Status.returned esp_err_t.ESP_ERR_TIMEOUT := by
  simp only [read_failure_path]
  split_ifs <;> simp

/-- `usb_read_response` has three ways to end: `ESP_OK`, `ESP_ERR_TIMEOUT`, or a
fault. -/
theorem usb_read_response_status (buffer : Ptr) (max_len timeout_ms : Nat) (bytes_read : Ptr)
    (max_nak_retries : Int) (w : World) :
    (usb_read_response buffer max_len timeout_ms bytes_read max_nak_retries w).status
        = Status.returned esp_err_t.ESP_OK
      ∨ (usb_read_response buffer max_len timeout_ms bytes_read max_nak_retries w).status
        = Status.returned esp_err_t.ESP_ERR_TIMEOUT
      ∨ ∃ f, (usb_read_response buffer max_len timeout_ms bytes_read max_nak_retries w).status
        = Status.crashed f := by
  rw [usb_read_response_eq]
  generalize read_poll_loop buffer max_len bytes_read true (w.env_polls.headD [])
    { read_start max_len w with env_polls := w.env_polls.tail } = p
  obtain ⟨e, w6⟩ := p
  cases e with
  | received => exact Or.inl rfl
  | fault f => exact Or.inr (Or.inr ⟨f, rfl⟩)
  | gave_up =>
    rcases read_failure_path_status bytes_read w6 with h | h
    · exact Or.inr (Or.inr ⟨_, h⟩)
    · exact Or.inr (Or.inl h)

/-- C11, as stated, fails at `r = max_len`: a halt with transfer-complete that
reports no byte received is not a success; the call returns `ESP_ERR_TIMEOUT`
with `bytes_read = 0` and counts a failure. -/
theorem C11_zero_length_completion_is_timeout :
    hcint_complete.chhltd = true ∧ hcint_complete.xfercompl = true
      ∧ world_zero_length_completion.env_xfersize.headD 0 ≤ 18
      ∧ (usb_read_response Ptr.valid 18 1000 Ptr.valid (-1)
            world_zero_length_completion).status
          = Status.returned esp_err_t.ESP_ERR_TIMEOUT
      ∧ (usb_read_response Ptr.valid 18 1000 Ptr.valid (-1)
            world_zero_length_completion).world.bytes_received = 0
      ∧ (usb_read_response Ptr.valid 18 1000 Ptr.valid (-1)
            world_zero_length_completion).world.consecutive_failures = 1 := by
  decide

/-- C11, amended: in a call with non-null `buffer` and `bytes_read`, when the
readings before keep the loop polling and a poll observes a halt with
transfer-complete while the remaining transfer size `r` satisfies `r < max_len`
and `max_len - r ≤ 256`, `usb_read_response` returns `ESP_OK` with
`bytes_read = max_len - r`, and the first `bytes_read` bytes of the destination
are the first `bytes_read` bytes of the receive DMA buffer. -/
theorem C11_data_in_completion (max_len timeout_ms : Nat) (max_nak_retries : Int) (w : World)
    (pre rest : List HcInt) (h : HcInt)
    (hpolls : w.env_polls.headD [] = pre ++ h :: rest)
    (hpre : all_keep_polling true pre = true)
    (hh : h.chhltd = true ∧ h.xfercompl = true)
    (hr : w.env_xfersize.headD 0 < max_len) (hmax : max_len < SIZE_MOD)
    (hbuf : max_len - w.env_xfersize.headD 0 ≤ 256) :
    (usb_read_response Ptr.valid max_len timeout_ms Ptr.valid max_nak_retries w).status
        = Status.returned esp_err_t.ESP_OK
      ∧ (usb_read_response Ptr.valid max_len timeout_ms Ptr.valid max_nak_retries
            w).world.bytes_received = max_len - w.env_xfersize.headD 0
      ∧ (∀ i, i < max_len - w.env_xfersize.headD 0 →
          (usb_read_response Ptr.valid max_len timeout_ms Ptr.valid max_nak_retries
              w).world.response_buffer.getD i 0
            = (w.env_rx.headD []).getD i 0) := by
  rw [usb_read_response_eq, hpolls]
  obtain ⟨fp, w1, e, x, r⟩ := read_poll_loop_skip Ptr.valid max_len Ptr.valid pre (h :: rest)
    true { read_start max_len w with env_polls := w.env_polls.tail } hpre
  simp only [read_start_env_xfersize, read_start_env_rx] at x r
  rw [e]
  have hc := read_poll_loop_complete max_len fp h rest w1 hh (by rw [x]; exact hr) hmax
    (by rw [x]; exact hbuf)
  rw [x, r] at hc
  generalize read_poll_loop Ptr.valid max_len Ptr.valid fp (h :: rest) w1 = p at hc
  obtain ⟨e2, w6⟩ := p
  obtain ⟨c1, c2, c3⟩ := hc
  simp only at c1 c2 c3
  subst c1
  exact ⟨rfl, c2, c3⟩

theorem C11_data_in_completion_witness :
    (world_descriptor.env_polls.headD [] = [hcint_idle] ++ hcint_complete :: []
        ∧ all_keep_polling true [hcint_idle] = true
        ∧ (hcint_complete.chhltd = true ∧ hcint_complete.xfercompl = true)
        ∧ world_descriptor.env_xfersize.headD 0 < 18 ∧ 18 < SIZE_MOD
        ∧ 18 - world_descriptor.env_xfersize.headD 0 ≤ 256)
      ∧ (usb_read_response Ptr.valid 18 1000 Ptr.valid (-1) world_descriptor).status
          = Status.returned esp_err_t.ESP_OK
      ∧ (usb_read_response Ptr.valid 18 1000 Ptr.valid (-1)
            world_descriptor).world.bytes_received = 18 - world_descriptor.env_xfersize.headD 0
      ∧ (∀ i, i < 18 - world_descriptor.env_xfersize.headD 0 →
          (usb_read_response Ptr.valid 18 1000 Ptr.valid (-1)
              world_descriptor).world.response_buffer.getD i 0
            = (world_descriptor.env_rx.headD []).getD i 0) :=
  ⟨by decide, C11_data_in_completion 18 1000 (-1) world_descriptor [hcint_idle] []
    hcint_complete (by decide) (by decide) (by decide) (by decide) (by decide) (by decide)⟩

/-- C12: a halt with the stall flag, or with another error, seen by a poll
that is not the first one and carries neither transfer-complete nor NAK, makes
`usb_read_response` leave the loop and return `ESP_ERR_TIMEOUT`, the code of a
timeout, with the failure counted; it returns neither
`ESP_ERR_INVALID_RESPONSE` nor `ESP_FAIL`. -/
theorem C12_stall_reported_as_timeout :
    (usb_read_response Ptr.valid 18 1000 Ptr.valid (-1) world_in_stall).status
        = Status.returned esp_err_t.ESP_ERR_TIMEOUT
      ∧ (usb_read_response Ptr.valid 18 1000 Ptr.valid (-1) world_in_error).status
        = Status.returned esp_err_t.ESP_ERR_TIMEOUT
      ∧ (usb_read_response Ptr.valid 18 1000 Ptr.valid (-1) World.boot).status
        = Status.returned esp_err_t.ESP_ERR_TIMEOUT
      ∧ (usb_read_response Ptr.valid 18 1000 Ptr.valid (-1)
          world_in_stall).world.consecutive_failures = 1
      ∧ (usb_send_packet_impl (some request_data_in) world_in_stall).status
        = Status.returned esp_err_t.ESP_ERR_TIMEOUT := by
  decide

theorem read_poll_loop_received_counters (buffer : Ptr) (max_len : Nat) (bytes_read : Ptr)
    (first_poll : Bool) (polls : List HcInt) (w : World)
    (h : (read_poll_loop buffer max_len bytes_read first_poll polls w).1 = ReadEnd.received) :
    (read_poll_loop buffer max_len bytes_read first_poll polls w).2.consecutive_failures = 0
      ∧ (read_poll_loop buffer max_len bytes_read first_poll polls w).2.recovery_attempts
          = 0 := by
  induction polls generalizing first_poll w with
  | nil => simp [read_poll_loop] at h
  | cons hc rest ih =>
    simp only [read_poll_loop] at h ⊢
    split_ifs at h ⊢
    all_goals first
      | exact ih _ _ h
      | exact ⟨rfl, rfl⟩

/-- C15: a `usb_read_response` call that returns `ESP_OK` leaves the
consecutive-failure counter and the recovery-attempt counter at zero, whatever
their values were. -/
theorem C15_success_resets_counters (buffer : Ptr) (max_len timeout_ms : Nat)
    (bytes_read : Ptr) (max_nak_retries : Int) (w : World)
    (hok : (usb_read_response buffer max_len timeout_ms bytes_read max_nak_retries w).status
      = Status.returned esp_err_t.ESP_OK) :
    (usb_read_response buffer max_len timeout_ms bytes_read max_nak_retries
        w).world.consecutive_failures = 0
      ∧ (usb_read_response buffer max_len timeout_ms bytes_read max_nak_retries
        w).world.recovery_attempts = 0 := by
  rw [usb_read_response_eq] at hok ⊢
  have hc := read_poll_loop_received_counters buffer max_len bytes_read true
    (w.env_polls.headD []) { read_start max_len w with env_polls := w.env_polls.tail }
  generalize read_poll_loop buffer max_len bytes_read true (w.env_polls.headD [])
    { read_start max_len w with env_polls := w.env_polls.tail } = p at hok hc ⊢
  obtain ⟨e, w6⟩ := p
  cases e with
  | received => exact hc rfl
  | fault f => simp at hok
  | gave_up =>
    rcases read_failure_path_status bytes_read w6 with h | h
    · simp only at hok; rw [h] at hok; simp at hok
    · simp only at hok; rw [h] at hok; simp at hok

theorem C15_success_resets_counters_witness :
    (usb_read_response Ptr.valid 18 1000 Ptr.valid (-1) world_elevated_then_data).status
        = Status.returned esp_err_t.ESP_OK
      ∧ (usb_read_response Ptr.valid 18 1000 Ptr.valid (-1)
          world_elevated_then_data).world.consecutive_failures = 0
      ∧ (usb_read_response Ptr.valid 18 1000 Ptr.valid (-1)
          world_elevated_then_data).world.recovery_attempts = 0 :=
  ⟨by decide, C15_success_resets_counters Ptr.valid 18 1000 Ptr.valid (-1)
    world_elevated_then_data (by decide)⟩

@[simp] theorem read_failure_path_bus (bytes_read : Ptr) (w : World) :
    (read_failure_path bytes_read w).world.bus = w.bus := by
  simp only [read_failure_path]
  split_ifs <;> simp

theorem read_poll_loop_naks (buffer : Ptr) (max_len : Nat) (bytes_read : Ptr) (k : Nat) :
    ∀ w : World,
      (read_poll_loop buffer max_len bytes_read false (List.replicate k hcint_nak) w).1
          = ReadEnd.gave_up
        ∧ (read_poll_loop buffer max_len bytes_read false
            (List.replicate k hcint_nak) w).2.bus.length = w.bus.length + k := by
  induction k with
  | zero => intro w; exact ⟨rfl, rfl⟩
  | succ k ih =>
    intro w
    have hc : hcint_nak.chhltd = true := rfl
    have hx : hcint_nak.xfercompl = false := rfl
    have hn : hcint_nak.nak = true := rfl
    simp only [List.replicate_succ, read_poll_loop, hc, hx, hn, Bool.false_and,
      Bool.false_eq_true, if_false, if_true]
    obtain ⟨i1, i2⟩ := ih ((enable_chan EnableSite.nak_retry
      (w.emit [HwOp.hcint_read_and_clear])).emit [HwOp.delay 1])
    refine ⟨i1, ?_⟩
    rw [i2]
    simp [enable_chan]
    omega

theorem usb_read_response_naks (timeout_ms : Nat) (n : Int) (k : Nat) :
    (usb_read_response Ptr.valid 18 timeout_ms Ptr.valid n (world_naks k)).status
        = Status.returned esp_err_t.ESP_ERR_TIMEOUT
      ∧ (usb_read_response Ptr.valid 18 timeout_ms Ptr.valid n (world_naks k)).world.bus.length
        = k + 1 := by
  rw [usb_read_response_eq]
  have hp : (world_naks k).env_polls.headD [] = hcint_idle :: List.replicate k hcint_nak := rfl
  have hi : hcint_idle.chhltd = false := rfl
  rw [hp]
  simp only [read_poll_loop, hi, Bool.and_false, Bool.false_and, Bool.false_eq_true, if_false]
  obtain ⟨i1, i2⟩ := read_poll_loop_naks Ptr.valid 18 Ptr.valid k
    ((({ read_start 18 (world_naks k) with env_polls := (world_naks k).env_polls.tail } :
      World).emit [HwOp.hcint_read_and_clear]).emit [HwOp.delay 1])
  generalize read_poll_loop Ptr.valid 18 Ptr.valid false (List.replicate k hcint_nak)
    ((({ read_start 18 (world_naks k) with env_polls := (world_naks k).env_polls.tail } :
      World).emit [HwOp.hcint_read_and_clear]).emit [HwOp.delay 1]) = p at i1 i2 ⊢
  obtain ⟨e, w6⟩ := p
  simp only at i1 i2
  subst i1
  simp only [emit_bus, read_start_bus_eq] at i2
  have hb : (world_naks k).bus = [] := rfl
  rw [hb] at i2
  refine ⟨?_, ?_⟩
  · rcases read_failure_path_status Ptr.valid w6 with h | h
    · simp [read_failure_path] at h
    · exact h
  · simp only [read_failure_path_bus, i2]
    simp
    omega

/-- C13: `max_nak_retries` is not read. Two `usb_read_response` calls, and two
requests given to `usb_send_packet_impl`, that differ only in it end with the
same result and the same world (return code, `bytes_read`, copied data, recovery
counters, trace). The number of NAK re-enables is set by the readings obtained
before the deadline alone: with `max_nak_retries = 0` a device that NAKs `k`
times is handed the IN transaction `k + 1` times. -/
theorem C13_max_nak_retries_advisory (buffer : Ptr) (max_len timeout_ms : Nat)
    (bytes_read : Ptr) (n1 n2 : Int) (config : usb_packet_config_t) (w : World) (k : Nat) :
    usb_read_response buffer max_len timeout_ms bytes_read n1 w
        = usb_read_response buffer max_len timeout_ms bytes_read n2 w
      ∧ usb_send_packet_impl (some { config with max_nak_retries := n1 }) w
        = usb_send_packet_impl (some { config with max_nak_retries := n2 }) w
      ∧ (usb_read_response Ptr.valid 18 timeout_ms Ptr.valid 0 (world_naks k)).status
        = Status.returned esp_err_t.ESP_ERR_TIMEOUT
      ∧ (usb_read_response Ptr.valid 18 timeout_ms Ptr.valid 0 (world_naks k)).world.bus.length
        = k + 1 := by
  exact ⟨rfl, rfl, (usb_read_response_naks timeout_ms 0 k).1,
    (usb_read_response_naks timeout_ms 0 k).2⟩

@[simp] theorem emit_consecutive_failures (w : World) (ops : List HwOp) :
    (w.emit ops).consecutive_failures = w.consecutive_failures := rfl

@[simp] theorem emit_recovery_attempts (w : World) (ops : List HwOp) :
    (w.emit ops).recovery_attempts = w.recovery_attempts := rfl

theorem wait_chan_halt_count (op : HwOp)
    (hop : op = HwOp.gintsts_clear_intrs ∨ op = HwOp.dis_pwr) (n : Nat) (w : World) :
    (wait_chan_halt n w).trace.count op = w.trace.count op := by
  induction n generalizing w with
  | zero => rfl
  | succ n ih =>
    simp only [wait_chan_halt]
    split_ifs
    · rw [ih]; rcases hop with rfl | rfl <;> simp
    · rcases hop with rfl | rfl <;> simp

theorem read_start_count (op : HwOp)
    (hop : op = HwOp.gintsts_clear_intrs ∨ op = HwOp.dis_pwr) (max_len : Nat) (w : World) :
    (read_start max_len w).trace.count op = w.trace.count op := by
  simp only [read_start]
  split_ifs
  · simp only [enable_chan_trace, emit_trace, List.count_append, wait_chan_halt_count op hop]
    rcases hop with rfl | rfl <;> simp
  · rcases hop with rfl | rfl <;> simp

theorem read_poll_loop_count (op : HwOp)
    (hop : op = HwOp.gintsts_clear_intrs ∨ op = HwOp.dis_pwr) (buffer : Ptr) (max_len : Nat)
    (bytes_read : Ptr) (first_poll : Bool) (polls : List HcInt) (w : World) :
    (read_poll_loop buffer max_len bytes_read first_poll polls w).2.trace.count op
      = w.trace.count op := by
  induction polls generalizing first_poll w with
  | nil => rfl
  | cons h rest ih =>
    simp only [read_poll_loop]
    split_ifs
    all_goals first
      | (rw [ih]; rcases hop with rfl | rfl <;> simp)
      | (rcases hop with rfl | rfl <;> simp)

theorem read_poll_loop_gave_up_counters (buffer : Ptr) (max_len : Nat) (bytes_read : Ptr)
    (first_poll : Bool) (polls : List HcInt) (w : World)
    (h : (read_poll_loop buffer max_len bytes_read first_poll polls w).1 = ReadEnd.gave_up) :
    (read_poll_loop buffer max_len bytes_read first_poll polls w).2.consecutive_failures
        = w.consecutive_failures
      ∧ (read_poll_loop buffer max_len bytes_read first_poll polls w).2.recovery_attempts
        = w.recovery_attempts := by
  induction polls generalizing first_poll w with
  | nil => exact ⟨rfl, rfl⟩
  | cons hc rest ih =>
    simp only [read_poll_loop] at h ⊢
    split_ifs at h ⊢
    all_goals first
      | exact ih _ _ h
      | exact ⟨rfl, rfl⟩

theorem usb_send_reset_impl_count (op : HwOp)
    (hop : op = HwOp.gintsts_clear_intrs ∨ op = HwOp.dis_pwr) (w : World) :
    (usb_send_reset_impl w).2.trace.count op = w.trace.count op := by
  simp only [usb_send_reset_impl]
  split_ifs <;> rcases hop with rfl | rfl <;> simp

@[simp] theorem usb_send_reset_impl_consecutive_failures (w : World) :
    (usb_send_reset_impl w).2.consecutive_failures = w.consecutive_failures := by
  simp only [usb_send_reset_impl, get_conn_status, World.emit]
  split_ifs <;> rfl

@[simp] theorem usb_send_reset_impl_recovery_attempts (w : World) :
    (usb_send_reset_impl w).2.recovery_attempts = w.recovery_attempts := by
  simp only [usb_send_reset_impl, get_conn_status, World.emit]
  split_ifs <;> rfl

/-- The failure path: what one failed call does to the counters and which
recovery it runs. -/
theorem read_failure_path_effect (w : World) :
    (read_failure_path Ptr.valid w).world.consecutive_failures
        = (if w.consecutive_failures + 1 ≥ 5 then 0 else w.consecutive_failures + 1)
      ∧ (read_failure_path Ptr.valid w).world.recovery_attempts
        = (if w.consecutive_failures + 1 ≥ 5 then
            (if w.recovery_attempts + 1 ≥ 3 then 0 else w.recovery_attempts + 1)
           else w.recovery_attempts)
      ∧ tier1_count (read_failure_path Ptr.valid w).world.trace
        = tier1_count w.trace
          + (if w.consecutive_failures + 1 ≥ 5 ∧ ¬ w.recovery_attempts + 1 ≥ 3 then 1 else 0)
      ∧ tier2_count (read_failure_path Ptr.valid w).world.trace
        = tier2_count w.trace
          + (if w.consecutive_failures + 1 ≥ 5 ∧ w.recovery_attempts + 1 ≥ 3 then 1 else 0) := by
  simp only [read_failure_path, MAX_CONSECUTIVE_FAILURES, MAX_RECOVERY_ATTEMPTS, tier1_count,
    tier2_count, reduceCtorEq, if_false]
  by_cases h5 : w.consecutive_failures + 1 ≥ 5
  · by_cases h3 : w.recovery_attempts + 1 ≥ 3
    · simp [h5, h3, usb_send_reset_impl_count, usb_flush_all_fifos]
    · simp [h5, h3, usb_send_reset_impl_count, usb_flush_all_fifos]
  · simp [h5]

/-- What a `usb_read_response` call that returns `ESP_ERR_TIMEOUT` does to the
recovery counters and which recovery it runs. -/
theorem usb_read_response_timeout_effect (buffer : Ptr) (max_len timeout_ms : Nat)
    (max_nak_retries : Int) (w : World)
    (h : (usb_read_response buffer max_len timeout_ms Ptr.valid max_nak_retries w).status
      = Status.returned esp_err_t.ESP_ERR_TIMEOUT) :
    (usb_read_response buffer max_len timeout_ms Ptr.valid max_nak_retries
        w).world.consecutive_failures
        = (if w.consecutive_failures + 1 ≥ 5 then 0 else w.consecutive_failures + 1)
      ∧ (usb_read_response buffer max_len timeout_ms Ptr.valid max_nak_retries
        w).world.recovery_attempts
        = (if w.consecutive_failures + 1 ≥ 5 then
            (if w.recovery_attempts + 1 ≥ 3 then 0 else w.recovery_attempts + 1)
           else w.recovery_attempts)
      ∧ tier1_count (usb_read_response buffer max_len timeout_ms Ptr.valid max_nak_retries
          w).world.trace
        = tier1_count w.trace
          + (if w.consecutive_failures + 1 ≥ 5 ∧ ¬ w.recovery_attempts + 1 ≥ 3 then 1 else 0)
      ∧ tier2_count (usb_read_response buffer max_len timeout_ms Ptr.valid max_nak_retries
          w).world.trace
        = tier2_count w.trace
          + (if w.consecutive_failures + 1 ≥ 5 ∧ w.recovery_attempts + 1 ≥ 3 then 1 else 0) := by
  rw [usb_read_response_eq] at h ⊢
  have hc := read_poll_loop_gave_up_counters buffer max_len Ptr.valid true
    (w.env_polls.headD []) { read_start max_len w with env_polls := w.env_polls.tail }
  have h1 := read_poll_loop_count HwOp.gintsts_clear_intrs (Or.inl rfl) buffer max_len Ptr.valid
    true (w.env_polls.headD []) { read_start max_len w with env_polls := w.env_polls.tail }
  have h2 := read_poll_loop_count HwOp.dis_pwr (Or.inr rfl) buffer max_len Ptr.valid
    true (w.env_polls.headD []) { read_start max_len w with env_polls := w.env_polls.tail }
  have s1 := read_start_count HwOp.gintsts_clear_intrs (Or.inl rfl) max_len w
  have s2 := read_start_count HwOp.dis_pwr (Or.inr rfl) max_len w
  generalize read_poll_loop buffer max_len Ptr.valid true (w.env_polls.headD [])
    { read_start max_len w with env_polls := w.env_polls.tail } = p at h hc h1 h2 ⊢
  obtain ⟨e, w6⟩ := p
  cases e with
  | received => simp at h
  | fault f => simp at h
  | gave_up =>
    obtain ⟨c1, c2⟩ := hc rfl
    simp only [read_start_consecutive_failures, read_start_recovery_attempts] at c1 c2
    simp only [s1, s2] at h1 h2
    have he := read_failure_path_effect w6
    simp only [tier1_count, tier2_count] at he ⊢
    rw [c1, c2, h1, h2] at he
    exact he

theorem read_calls_timeouts (buffer : Ptr) (max_len timeout_ms : Nat) (max_nak_retries : Int)
    (w : World) (h0 : w.consecutive_failures = 0) (h1 : w.recovery_attempts = 0) (n : Nat)
    (hall : ∀ k, k < n →
      (usb_read_response buffer max_len timeout_ms Ptr.valid max_nak_retries
        (read_calls buffer max_len timeout_ms Ptr.valid max_nak_retries k w)).status
        = Status.returned esp_err_t.ESP_ERR_TIMEOUT) :
    (read_calls buffer max_len timeout_ms Ptr.valid max_nak_retries n w).consecutive_failures
        = ((n % 5 : Nat) : Int)
      ∧ (read_calls buffer max_len timeout_ms Ptr.valid max_nak_retries n w).recovery_attempts
        = ((n / 5 % 3 : Nat) : Int)
      ∧ tier1_count (read_calls buffer max_len timeout_ms Ptr.valid max_nak_retries n w).trace
        = tier1_count w.trace + (n / 5 - n / 15)
      ∧ tier2_count (read_calls buffer max_len timeout_ms Ptr.valid max_nak_retries n w).trace
        = tier2_count w.trace + n / 15 := by
  induction n with
  | zero => simp [read_calls, h0, h1]
  | succ n ih =>
    obtain ⟨i1, i2, i3, i4⟩ := ih (fun k hk => hall k (by omega))
    obtain ⟨e1, e2, e3, e4⟩ := usb_read_response_timeout_effect buffer max_len timeout_ms
      max_nak_retries _ (hall n (by omega))
    simp only [read_calls]
    rw [e1, e2, e3, e4, i1, i2, i3, i4]
    refine ⟨?_, ?_, ?_, ?_⟩
    · split_ifs <;> omega
    · split_ifs <;> omega
    · split_ifs <;> omega
    · split_ifs <;> omega

/-! ## No transfer touches the cached device info -/

@[simp] theorem emit_cached_device_info (w : World) (ops : List HwOp) :
    (w.emit ops).cached_device_info = w.cached_device_info := rfl

@[simp] theorem chan_is_enabled_cached_device_info (w : World) :
    (chan_is_enabled w).2.cached_device_info = w.cached_device_info := rfl

@[simp] theorem get_conn_status_cached_device_info (w : World) :
    (get_conn_status w).2.cached_device_info = w.cached_device_info := rfl

@[simp] theorem enable_chan_cached_device_info (s : EnableSite) (w : World) :
    (enable_chan s w).cached_device_info = w.cached_device_info := rfl

@[simp] theorem wait_chan_halt_cached_device_info (n : Nat) (w : World) :
    (wait_chan_halt n w).cached_device_info = w.cached_device_info :=
  (wait_chan_halt_same n w).2.2.2.2.2.2.2.1

@[simp] theorem write_chunk_poll_cached_device_info (polls : List HcInt) (w : World) :
    (write_chunk_poll polls w).2.cached_device_info = w.cached_device_info := by
  induction polls generalizing w with
  | nil => rfl
  | cons h rest ih => simp only [write_chunk_poll]; split_ifs <;> simp [ih]

@[simp] theorem chunk_start_cached_device_info (data : List Nat)
    (length available_data total_sent pid : Nat) (w : World) :
    (chunk_start data length available_data total_sent pid w).cached_device_info
      = w.cached_device_info := by
  simp only [chunk_start, enable_chan, World.emit, chan_is_enabled]
  split_ifs <;> simp

@[simp] theorem write_data_loop_cached_device_info (data : List Nat)
    (length available_data : Nat) (fuel total_sent pid : Nat) (w : World) :
    (write_data_loop data length available_data fuel total_sent pid w).world.cached_device_info
      = w.cached_device_info := by
  induction fuel generalizing total_sent pid w with
  | zero => rfl
  | succ n ih =>
    simp only [write_data_loop]
    by_cases hlt : total_sent < length
    · simp only [hlt, if_true]
      generalize hp : write_chunk_poll
        ((chunk_start data length available_data total_sent pid w).env_polls.headD [])
        { chunk_start data length available_data total_sent pid w with
          env_polls := (chunk_start data length available_data total_sent pid w).env_polls.tail }
        = p
      have hb : p.2.cached_device_info = w.cached_device_info := by
        rw [← hp]; simp
      obtain ⟨e, w6⟩ := p
      cases e
      · exact (ih _ _ w6).trans hb
      · exact hb
      · exact hb
      · exact hb
    · simp [hlt]

@[simp] theorem usb_write_data_cached_device_info (data : List Nat) (length timeout_ms : Nat)
    (w : World) :
    (usb_write_data data length timeout_ms w).world.cached_device_info
      = w.cached_device_info :=
  write_data_loop_cached_device_info _ _ _ _ _ _ _

@[simp] theorem usb_send_reset_impl_cached_device_info (w : World) :
    (usb_send_reset_impl w).2.cached_device_info = w.cached_device_info := by
  simp only [usb_send_reset_impl, get_conn_status, World.emit]
  split_ifs <;> rfl

@[simp] theorem usb_flush_all_fifos_cached_device_info (w : World) :
    (usb_flush_all_fifos w).cached_device_info = w.cached_device_info := rfl

@[simp] theorem read_poll_loop_cached_device_info (buffer : Ptr) (max_len : Nat)
    (bytes_read : Ptr) (first_poll : Bool) (polls : List HcInt) (w : World) :
    (read_poll_loop buffer max_len bytes_read first_poll polls w).2.cached_device_info
      = w.cached_device_info := by
  induction polls generalizing first_poll w with
  | nil => rfl
  | cons h rest ih =>
    simp only [read_poll_loop]
    split_ifs
    all_goals first
      | (rw [ih]; rfl)
      | rfl

@[simp] theorem read_failure_path_cached_device_info (bytes_read : Ptr) (w : World) :
    (read_failure_path bytes_read w).world.cached_device_info = w.cached_device_info := by
  simp only [read_failure_path]
  split_ifs <;> simp

@[simp] theorem read_start_cached_device_info (max_len : Nat) (w : World) :
    (read_start max_len w).cached_device_info = w.cached_device_info := by
  simp only [read_start, enable_chan, World.emit, chan_is_enabled]
  split_ifs <;> simp

@[simp] theorem usb_read_response_cached_device_info (buffer : Ptr) (max_len timeout_ms : Nat)
    (bytes_read : Ptr) (max_nak_retries : Int) (w : World) :
    (usb_read_response buffer max_len timeout_ms bytes_read max_nak_retries
      w).world.cached_device_info = w.cached_device_info := by
  rw [usb_read_response_eq]
  have h := read_poll_loop_cached_device_info buffer max_len bytes_read true
    (w.env_polls.headD []) { read_start max_len w with env_polls := w.env_polls.tail }
  generalize read_poll_loop buffer max_len bytes_read true (w.env_polls.headD [])
    { read_start max_len w with env_polls := w.env_polls.tail } = p at h ⊢
  obtain ⟨e, w6⟩ := p
  simp only [read_start_cached_device_info] at h
  cases e
  · exact h
  · simp only [read_failure_path_cached_device_info]; exact h
  · exact h

@[simp] theorem setup_stage_cached_device_info (c : usb_packet_config_t) (w : World) :
    (setup_stage c w).2.cached_device_info = w.cached_device_info := by
  have h := setup_channel_reset_same { w with packet_buffer := build_packet_buffer c }
  simp only [World.same_state] at h
  simp only [setup_stage]
  split_ifs <;> simp [World.emit, enable_chan, h]

@[simp] theorem usb_send_packet_impl_cached_device_info (c : Option usb_packet_config_t)
    (w : World) :
    (usb_send_packet_impl c w).world.cached_device_info = w.cached_device_info := by
  cases c with
  | none => rfl
  | some c =>
    simp only [usb_send_packet_impl]
    by_cases h0 : c.packet_size ≤ 0
    · rw [if_pos h0]
    · rw [if_neg h0]
      have hs := setup_stage_cached_device_info c w
      generalize setup_stage c w = s at hs ⊢
      obtain ⟨f, w1⟩ := s
      cases f with
      | some f => exact hs
      | none =>
        simp only at hs ⊢
        split_ifs <;> simp [hs]

/-- C17 (code defect). A device is fetched and cached, then taken away and
replaced while no `get_device_info` call is made. The monitor of `main.c` reads
the port as disconnected and then as connected again, yet the next
`usb_get_device_info_impl` call returns the record cached before the disconnect
(vendor 0x1234, product 0x5678) and puts no transaction on the bus: the cache
was never invalidated. -/
theorem C17_cache_survives_observed_disconnect :
    (usb_get_device_info_impl Ptr.valid world_device_swapped).1.status
        = Status.returned esp_err_t.ESP_OK
    ∧ (usb_get_device_info_impl Ptr.valid world_device_swapped).1.world.bus.length = 2
    ∧ (monitor_round true
        (usb_get_device_info_impl Ptr.valid world_device_swapped).1.world).1 = false
    ∧ (monitor_round true
        (usb_get_device_info_impl Ptr.valid world_device_swapped).1.world).2.cached_device_info.connected
        = true
    ∧ (monitor_round false (monitor_round true
        (usb_get_device_info_impl Ptr.valid world_device_swapped).1.world).2).1 = true
    ∧ (usb_get_device_info_impl Ptr.valid (monitor_round false (monitor_round true
        (usb_get_device_info_impl Ptr.valid world_device_swapped).1.world).2).2).1.status
        = Status.returned esp_err_t.ESP_OK
    ∧ (usb_get_device_info_impl Ptr.valid (monitor_round false (monitor_round true
        (usb_get_device_info_impl Ptr.valid world_device_swapped).1.world).2).2).2
        = some (usb_get_device_info_impl Ptr.valid world_device_swapped).1.world.cached_device_info
    ∧ ((usb_get_device_info_impl Ptr.valid (monitor_round false (monitor_round true
        (usb_get_device_info_impl Ptr.valid world_device_swapped).1.world).2).2).2.map
          (fun i => (i.vid, i.pid))) = some (0x1234, 0x5678)
    ∧ (usb_get_device_info_impl Ptr.valid (monitor_round false (monitor_round true
        (usb_get_device_info_impl Ptr.valid world_device_swapped).1.world).2).2).1.world.bus
        = (usb_get_device_info_impl Ptr.valid world_device_swapped).1.world.bus := by
  decide

/-- A cache hit: with a valid cache and a connected port the call returns the
cached record after the one port read. -/
theorem usb_get_device_info_impl_hit (w : World)
    (hc : w.cached_device_info.connected = true) (hconn : w.env_conn.headD false = true) :
    usb_get_device_info_impl Ptr.valid w
      = ({ status := Status.returned esp_err_t.ESP_OK, world := (get_conn_status w).2 },
         some w.cached_device_info) := by
  have h1 : (get_conn_status w).1 = true := hconn
  have h2 : (get_conn_status w).2.cached_device_info.connected = true := hc
  simp only [usb_get_device_info_impl]
  rw [if_neg (by decide), if_neg (by simp [h1]), if_pos h2]
  rfl

/-- A call that returns `ESP_OK` leaves a valid cache that agrees with the
returned record on the parsed fields. -/
theorem usb_get_device_info_impl_ok (w : World)
    (hok : (usb_get_device_info_impl Ptr.valid w).1.status = Status.returned esp_err_t.ESP_OK) :
    ∃ i, (usb_get_device_info_impl Ptr.valid w).2 = some i
      ∧ (usb_get_device_info_impl Ptr.valid w).1.world.cached_device_info.connected = true
      ∧ same_descriptor_fields
          (usb_get_device_info_impl Ptr.valid w).1.world.cached_device_info i := by
  simp only [usb_get_device_info_impl] at hok ⊢
  rw [if_neg (by decide)] at hok ⊢
  by_cases h1 : ¬ (get_conn_status w).1 = true
  · rw [if_pos h1] at hok; simp at hok
  · rw [if_neg h1] at hok ⊢
    by_cases h2 : (get_conn_status w).2.cached_device_info.connected = true
    · rw [if_pos h2]
      exact ⟨_, rfl, h2, rfl, rfl, rfl, rfl, rfl, rfl⟩
    · rw [if_neg h2] at hok ⊢
      generalize descriptor_fetch (get_conn_status w).2 = f at hok ⊢
      obtain ⟨st, fw⟩ := f
      cases st with
      | crashed x => simp at hok
      | returned ret =>
        simp only at hok ⊢
        by_cases h3 : ret = esp_err_t.ESP_OK ∧ fw.bytes_received ≥ USB_DEVICE_DESCRIPTOR_SIZE
        · rw [if_pos h3]
          exact ⟨_, rfl, rfl, rfl, rfl, rfl, rfl, rfl, rfl⟩
        · rw [if_neg h3] at hok; simp at hok

/-- No operation but `USB_OP_CLEAR_CACHE` changes a valid cache, as long as a
`get_device_info` finds the port connected. -/
theorem worker_execute_keeps_cache (op : WorkerOp) (w : World)
    (hclear : op ≠ WorkerOp.USB_OP_CLEAR_CACHE)
    (hc : w.cached_device_info.connected = true)
    (hconn : op.is_info_request = true → w.env_conn.headD false = true) :
    (worker_execute op w).world.cached_device_info = w.cached_device_info := by
  cases op with
  | USB_OP_RESET => simp [worker_execute]
  | USB_OP_SEND_PACKET config => simp [worker_execute]
  | USB_OP_GET_STATUS => simp [worker_execute]
  | USB_OP_GET_DEVICE_INFO info =>
    cases info with
    | null => rfl
    | valid =>
      simp only [worker_execute]
      rw [usb_get_device_info_impl_hit w hc (hconn rfl)]
      rfl
  | USB_OP_CLEAR_CACHE => exact absurd rfl hclear

theorem worker_run_keeps_cache (ops : List WorkerOp) :
    ∀ (w w2 : World), WorkerOp.USB_OP_CLEAR_CACHE ∉ ops →
      w.cached_device_info.connected = true → reads_connected ops w = true →
      worker_run ops w = some w2 → w2.cached_device_info = w.cached_device_info := by
  induction ops with
  | nil =>
    intro w w2 _ _ _ hrun
    simp only [worker_run, Option.some.injEq] at hrun
    rw [← hrun]
  | cons op ops ih =>
    intro w w2 hclear hc hstay hrun
    have hop : op ≠ WorkerOp.USB_OP_CLEAR_CACHE := fun h => hclear (by simp [h])
    have hrest : WorkerOp.USB_OP_CLEAR_CACHE ∉ ops := fun h => hclear (by simp [h])
    simp only [reads_connected, Bool.and_eq_true, Bool.or_eq_true] at hstay
    have hk := worker_execute_keeps_cache op w hop hc (fun h => by
      rcases hstay.1 with h1 | h1
      · rw [h] at h1; exact absurd h1 (by decide)
      · exact h1)
    simp only [worker_run] at hrun
    cases hs : (worker_execute op w).status with
    | crashed x => rw [hs] at hrun; simp at hrun
    | returned e =>
      rw [hs] at hrun
      have h := ih (worker_execute op w).world w2 hrest (by rw [hk]; exact hc) hstay.2 hrun
      rw [h, hk]

/-- C16. After a `get_device_info` call that returned success (having fetched
the descriptor and cached it, or found it cached), let the worker run any operations other than `USB_OP_CLEAR_CACHE`, none
of them faulting, with the port reading connected at every `get_device_info`.
A further call that finds the port connected then returns success with the same
VID, PID, class, subclass, protocol and max packet size as the first call, adds
no transaction to the bus, and touches the hardware only for the one read of
the port status (no descriptor transfer, no bus reset). -/
theorem C16_cached_info_round_trip (w w2 : World) (ops : List WorkerOp)
    (hfetch : (usb_get_device_info_impl Ptr.valid w).1.status
      = Status.returned esp_err_t.ESP_OK)
    (hclear : WorkerOp.USB_OP_CLEAR_CACHE ∉ ops)
    (hstay : reads_connected ops (usb_get_device_info_impl Ptr.valid w).1.world = true)
    (hrun : worker_run ops (usb_get_device_info_impl Ptr.valid w).1.world = some w2)
    (hconn : w2.env_conn.headD false = true) :
    (usb_get_device_info_impl Ptr.valid w2).1.status = Status.returned esp_err_t.ESP_OK
    ∧ (∃ first later, (usb_get_device_info_impl Ptr.valid w).2 = some first
        ∧ (usb_get_device_info_impl Ptr.valid w2).2 = some later
        ∧ same_descriptor_fields later first)
    ∧ (usb_get_device_info_impl Ptr.valid w2).1.world.bus = w2.bus
    ∧ (usb_get_device_info_impl Ptr.valid w2).1.world.trace
        = w2.trace ++ [HwOp.get_conn_status true]
    ∧ (usb_get_device_info_impl Ptr.valid w2).1.world.cached_device_info
        = (usb_get_device_info_impl Ptr.valid w).1.world.cached_device_info := by
  obtain ⟨first, hfirst, hvalid, hsame⟩ := usb_get_device_info_impl_ok w hfetch
  have hkeep := worker_run_keeps_cache ops _ w2 hclear hvalid hstay hrun
  have hc2 : w2.cached_device_info.connected = true := by rw [hkeep]; exact hvalid
  rw [usb_get_device_info_impl_hit w2 hc2 hconn]
  refine ⟨rfl, ⟨first, w2.cached_device_info, hfirst, rfl, ?_⟩, rfl, ?_, hkeep⟩
  · rw [hkeep]; exact hsame
  · simp only [get_conn_status_trace]
    have h1 : (get_conn_status w2).1 = true := hconn
    rw [h1]

set_option maxRecDepth 100000 in
theorem C16_cached_info_round_trip_witness :
    world_device_attached.cached_device_info.connected = false
    ∧ (usb_get_device_info_impl Ptr.valid world_device_attached).1.world.bus.length = 2
    ∧ (usb_get_device_info_impl Ptr.valid world_device_attached).1.status
        = Status.returned esp_err_t.ESP_OK
    ∧ WorkerOp.USB_OP_CLEAR_CACHE ∉ sample_later_ops
    ∧ reads_connected sample_later_ops
        (usb_get_device_info_impl Ptr.valid world_device_attached).1.world = true
    ∧ worker_run sample_later_ops
        (usb_get_device_info_impl Ptr.valid world_device_attached).1.world
        = some world_after_later_ops
    ∧ world_after_later_ops.env_conn.headD false = true
    ∧ (usb_get_device_info_impl Ptr.valid world_after_later_ops).1.status
        = Status.returned esp_err_t.ESP_OK
    ∧ (usb_get_device_info_impl Ptr.valid world_after_later_ops).1.world.bus
        = world_after_later_ops.bus :=
  have h := C16_cached_info_round_trip world_device_attached world_after_later_ops
    sample_later_ops (by decide) (by decide) (by decide) (by decide) (by decide)
  ⟨by decide, by decide, by decide, by decide, by decide, by decide, by decide, h.1, h.2.2.1⟩

theorem read_poll_loop_no_fault (max_len : Nat) (hmax : max_len ≤ 256)
    (first_poll : Bool) (polls : List HcInt) (w : World) (f : Fault) :
    (read_poll_loop Ptr.valid max_len Ptr.valid first_poll polls w).1 ≠ ReadEnd.fault f := by
  induction polls generalizing first_poll w with
  | nil => simp [read_poll_loop]
  | cons h rest ih =>
    simp only [read_poll_loop]
    split_ifs
    all_goals first
      | exact ih _ _
      | contradiction
      | (exfalso; omega)
      | simp

theorem byte_pair_lt (d : List Nat) (i j : Nat) :
    (byte_at d i ||| (byte_at d j <<< 8)) % 65536 = byte_at d i ||| (byte_at d j <<< 8) := by
  apply Nat.mod_eq_of_lt
  have hi : byte_at d i < 2 ^ 16 :=
    lt_of_lt_of_le (Nat.mod_lt _ (by decide)) (by decide)
  have hj : byte_at d j <<< 8 < 2 ^ 16 := by
    have h : byte_at d j < 256 := Nat.mod_lt _ (by decide)
    rw [Nat.shiftLeft_eq]
    omega
  exact Nat.or_lt_two_pow hi hj

/-- The descriptor request cannot fault: its sizes are fixed and its pointers
are those of local variables. -/
theorem descriptor_request_returns (w : World) :
    ∃ e, (usb_send_packet_impl (some device_descriptor_request) w).status
      = Status.returned e := by
  have hs : (setup_stage device_descriptor_request w).1 = none := by
    simp only [setup_stage]
    rw [if_neg (by decide), if_neg (by decide)]
  simp only [usb_send_packet_impl]
  rw [if_neg (by decide)]
  simp only [hs]
  rw [if_neg (by decide), if_pos (by decide)]
  rw [usb_read_response_eq]
  have hn := read_poll_loop_no_fault device_descriptor_request.response_buffer_size
    (by decide) true ((setup_stage device_descriptor_request w).2.env_polls.headD [])
    { read_start device_descriptor_request.response_buffer_size
        (setup_stage device_descriptor_request w).2 with
      env_polls := (setup_stage device_descriptor_request w).2.env_polls.tail }
  have hb : device_descriptor_request.response_buffer = Ptr.valid := rfl
  have hr : device_descriptor_request.bytes_received = Ptr.valid := rfl
  rw [hb, hr]
  generalize read_poll_loop Ptr.valid device_descriptor_request.response_buffer_size Ptr.valid
    true ((setup_stage device_descriptor_request w).2.env_polls.headD [])
    { read_start device_descriptor_request.response_buffer_size
        (setup_stage device_descriptor_request w).2 with
      env_polls := (setup_stage device_descriptor_request w).2.env_polls.tail } = p at hn ⊢
  obtain ⟨e, w6⟩ := p
  cases e with
  | received => exact ⟨_, rfl⟩
  | gave_up =>
    simp only [read_failure_path]
    rw [if_neg (by decide)]
    exact ⟨_, rfl⟩
  | fault f => exact absurd rfl (hn f)

theorem descriptor_fetch_returns (w : World) :
    ∃ e, (descriptor_fetch w).status = Status.returned e := by
  simp only [descriptor_fetch]
  exact descriptor_request_returns _

@[simp] theorem descriptor_fetch_cached_device_info (w : World) :
    (descriptor_fetch w).world.cached_device_info = w.cached_device_info := by
  simp only [descriptor_fetch]
  rw [usb_send_packet_impl_cached_device_info]
  split_ifs <;> simp [World.emit]

/-- C18. On a cache miss with the port reading connected, `get_device_info`
returns `ESP_OK` exactly when the descriptor transfer returned `ESP_OK` with at
least 18 bytes. In that case the cache holds, marked connected,
vid = d[8] | d[9] << 8, pid = d[10] | d[11] << 8, class = d[4], subclass = d[5],
protocol = d[6] and max packet size = d[7] of the received descriptor `d`, and
the caller gets the same numbers. In every other case the call returns
`ESP_FAIL` and the cache is what it was, still invalid. -/
theorem C18_cache_miss_fetch (w : World) (f : Outcome) (d : List Nat)
    (hconn : w.env_conn.headD false = true)
    (hmiss : w.cached_device_info.connected = false)
    (hf : f = descriptor_fetch (get_conn_status w).2)
    (hd : d = f.world.response_buffer) :
    ((usb_get_device_info_impl Ptr.valid w).1.status = Status.returned esp_err_t.ESP_OK
      ↔ (f.status = Status.returned esp_err_t.ESP_OK ∧ f.world.bytes_received ≥ 18))
    ∧ (f.status = Status.returned esp_err_t.ESP_OK ∧ f.world.bytes_received ≥ 18 →
        (usb_get_device_info_impl Ptr.valid w).1.world.cached_device_info
          = { connected := true
              vid := byte_at d 8 ||| (byte_at d 9 <<< 8)
              pid := byte_at d 10 ||| (byte_at d 11 <<< 8)
              device_class := byte_at d 4
              device_subclass := byte_at d 5
              device_protocol := byte_at d 6
              max_packet_size := byte_at d 7
              manufacturer := "", product := "", serial := "" }
        ∧ (usb_get_device_info_impl Ptr.valid w).2
          = some { connected := true
                   vid := byte_at d 8 ||| (byte_at d 9 <<< 8)
                   pid := byte_at d 10 ||| (byte_at d 11 <<< 8)
                   device_class := byte_at d 4
                   device_subclass := byte_at d 5
                   device_protocol := byte_at d 6
                   max_packet_size := byte_at d 7
                   manufacturer := "N/A", product := "N/A", serial := "N/A" })
    ∧ (¬ (f.status = Status.returned esp_err_t.ESP_OK ∧ f.world.bytes_received ≥ 18) →
        (usb_get_device_info_impl Ptr.valid w).1.status = Status.returned esp_err_t.ESP_FAIL
        ∧ (usb_get_device_info_impl Ptr.valid w).1.world.cached_device_info
            = w.cached_device_info
        ∧ (usb_get_device_info_impl Ptr.valid w).1.world.cached_device_info.connected
            = false) := by
  have h1 : (get_conn_status w).1 = true := hconn
  have h2 : ¬ (get_conn_status w).2.cached_device_info.connected = true := by
    simp [hmiss]
  have hk := descriptor_fetch_cached_device_info (get_conn_status w).2
  obtain ⟨e, he⟩ := descriptor_fetch_returns (get_conn_status w).2
  simp only [usb_get_device_info_impl]
  rw [if_neg (by decide), if_neg (by simp [h1]), if_neg h2]
  rw [← hf] at hk he ⊢
  subst hd
  obtain ⟨st, fw⟩ := f
  simp only at he hk ⊢
  subst he
  simp only [Status.returned.injEq]
  by_cases h3 : e = esp_err_t.ESP_OK ∧ fw.bytes_received ≥ USB_DEVICE_DESCRIPTOR_SIZE
  · have h3b : e = esp_err_t.ESP_OK ∧ fw.bytes_received ≥ 18 := h3
    rw [if_pos h3]
    refine ⟨⟨fun _ => h3b, fun _ => rfl⟩, fun _ => ⟨?_, ?_⟩, fun hn => absurd h3b hn⟩
    · simp [parse_device_descriptor, device_info_zero, byte_pair_lt]
    · simp [parse_device_descriptor, device_info_zero, byte_pair_lt]
  · have h3b : ¬ (e = esp_err_t.ESP_OK ∧ fw.bytes_received ≥ 18) := h3
    rw [if_neg h3]
    refine ⟨⟨fun h => by simp at h, fun h => absurd h h3b⟩, fun h => absurd h h3b,
      fun _ => ⟨rfl, ?_, ?_⟩⟩
    · simpa using hk
    · simp only; rw [hk]; simpa using hmiss

set_option maxRecDepth 100000 in
theorem C18_cache_miss_fetch_witness :
    world_device_attached.env_conn.headD false = true
    ∧ world_device_attached.cached_device_info.connected = false
    ∧ (descriptor_fetch (get_conn_status world_device_attached).2).status
        = Status.returned esp_err_t.ESP_OK
    ∧ (descriptor_fetch (get_conn_status world_device_attached).2).world.bytes_received = 18
    ∧ (usb_get_device_info_impl Ptr.valid world_device_attached).1.status
        = Status.returned esp_err_t.ESP_OK
    ∧ (usb_get_device_info_impl Ptr.valid world_device_attached).1.world.cached_device_info.vid
        = 0x1234 :=
  have h := C18_cache_miss_fetch world_device_attached
    (descriptor_fetch (get_conn_status world_device_attached).2)
    (descriptor_fetch (get_conn_status world_device_attached).2).world.response_buffer
    (by decide) (by decide) rfl rfl
  ⟨by decide, by decide, by decide, by decide, h.1.2 ⟨by decide, by decide⟩, by decide⟩

/-- C19, as the claim states it, fails: with `timeout_ms = 10000` the caller of
`usb_send_packet` waits 10500 ms, which is more than 10 seconds and longer
than the window of init. -/
theorem C19_send_packet_window_exceeds_init :
    completion_wait_ms usb_op_type_t.USB_OP_SEND_PACKET 10000 = 10500
    ∧ ¬ completion_wait_ms usb_op_type_t.USB_OP_SEND_PACKET 10000 ≤ 10000
    ∧ completion_wait_ms usb_op_type_t.USB_OP_INIT 10000
        < completion_wait_ms usb_op_type_t.USB_OP_SEND_PACKET 10000 := by
  decide

/-- C19, amended. The fixed windows are init 10000, reset 5000, device-info
2000, status 1000 and clear-cache 1000 ms: each lies between 1000 and 10000 and
none is longer than that of init. The window of send-packet is
max((timeout_ms + 500) mod 2^32, 1000): it is at least 1000 and below 2^32 for
every `timeout_ms`, and it is within 10000 exactly when
(timeout_ms + 500) mod 2^32 is. -/
theorem C19_completion_windows (type : usb_op_type_t) (timeout_ms : Nat) :
    completion_wait_ms usb_op_type_t.USB_OP_INIT timeout_ms = 10000
    ∧ completion_wait_ms usb_op_type_t.USB_OP_RESET timeout_ms = 5000
    ∧ completion_wait_ms usb_op_type_t.USB_OP_GET_DEVICE_INFO timeout_ms = 2000
    ∧ completion_wait_ms usb_op_type_t.USB_OP_GET_STATUS timeout_ms = 1000
    ∧ completion_wait_ms usb_op_type_t.USB_OP_CLEAR_CACHE timeout_ms = 1000
    ∧ completion_wait_ms usb_op_type_t.USB_OP_SEND_PACKET timeout_ms
        = max ((timeout_ms + 500) % 2 ^ 32) 1000
    ∧ 1000 ≤ completion_wait_ms type timeout_ms
    ∧ completion_wait_ms type timeout_ms < 2 ^ 32
    ∧ (type ≠ usb_op_type_t.USB_OP_SEND_PACKET →
        completion_wait_ms type timeout_ms ≤ 10000
        ∧ completion_wait_ms type timeout_ms
            ≤ completion_wait_ms usb_op_type_t.USB_OP_INIT timeout_ms)
    ∧ (completion_wait_ms usb_op_type_t.USB_OP_SEND_PACKET timeout_ms ≤ 10000
        ↔ (timeout_ms + 500) % 2 ^ 32 ≤ 10000) := by
  have hm : (timeout_ms + 500) % 4294967296 < 4294967296 := Nat.mod_lt _ (by decide)
  have hsend : completion_wait_ms usb_op_type_t.USB_OP_SEND_PACKET timeout_ms
      = max ((timeout_ms + 500) % 2 ^ 32) 1000 := by
    simp only [completion_wait_ms]
    norm_num
    split_ifs <;> omega
  refine ⟨rfl, rfl, rfl, rfl, rfl, hsend, ?_, ?_, ?_, ?_⟩
  · cases type <;> simp only [completion_wait_ms] <;> (try split_ifs) <;> omega
  · cases type <;> simp only [completion_wait_ms] <;> (try split_ifs) <;> omega
  · intro hne
    cases type <;> simp only [completion_wait_ms] <;> first | omega | exact absurd rfl hne
  · rw [hsend]
    norm_num

theorem C19_completion_windows_witness :
    completion_wait_ms usb_op_type_t.USB_OP_SEND_PACKET 1000 = max ((1000 + 500) % 2 ^ 32) 1000
    ∧ completion_wait_ms usb_op_type_t.USB_OP_SEND_PACKET 1000 = 1500
    ∧ completion_wait_ms usb_op_type_t.USB_OP_SEND_PACKET 4294967295 = 1000 :=
  ⟨(C19_completion_windows usb_op_type_t.USB_OP_SEND_PACKET 1000).2.2.2.2.2.1,
   by decide, by decide⟩

/-- The whole effect of `usb_send_reset_impl`: two port readings are consumed
and the HAL calls are appended to the trace. -/
theorem usb_send_reset_impl_eq (w : World) :
    usb_send_reset_impl w
      = (esp_err_t.ESP_OK,
         { w with
           env_conn := w.env_conn.tail.tail
           trace := w.trace ++ port_check_ops (w.env_conn.headD false) ++ reset_signal_ops
             ++ port_check_ops (w.env_conn.tail.headD false) }) := by
  cases h1 : w.env_conn.headD false <;> cases h2 : w.env_conn.tail.headD false <;>
    simp only [usb_send_reset_impl, get_conn_status, World.emit, port_check_ops,
      reset_signal_ops, h1, h2, Bool.false_eq_true, if_false, if_true, List.append_assoc,
      List.cons_append, List.nil_append]

theorem tail_all_false (l : List Bool) (h : ∀ b ∈ l, b = false) : ∀ b ∈ l.tail, b = false :=
  fun b hb => h b (List.mem_of_mem_tail hb)

theorem headD_all_false (l : List Bool) (h : ∀ b ∈ l, b = false) : l.headD false = false := by
  cases l with
  | nil => rfl
  | cons a t => exact h a (by simp)

theorem reset_calls_no_device (n : Nat) (w : World) (h : ∀ b ∈ w.env_conn, b = false) :
    reset_calls n w
      = { w with
          env_conn := w.env_conn.drop (2 * n)
          trace := w.trace ++ (List.replicate n
            ([HwOp.get_conn_status false] ++ reset_signal_ops
              ++ [HwOp.get_conn_status false])).flatten } := by
  induction n with
  | zero => simp [reset_calls]
  | succ n ih =>
    simp only [reset_calls, ih, usb_send_reset_impl_eq]
    have hd : ∀ b ∈ w.env_conn.drop (2 * n), b = false :=
      fun b hb => h b (List.mem_of_mem_drop hb)
    have h1 := headD_all_false _ hd
    have h2 := headD_all_false _ (tail_all_false _ hd)
    simp only [h1, h2, port_check_ops, Bool.false_eq_true, if_false]
    have e : (w.env_conn.drop (2 * n)).tail.tail = w.env_conn.drop (2 * (n + 1)) := by
      rw [List.tail_drop, List.tail_drop]
      congr 1
    have hr : ∀ x : List HwOp,
        (List.replicate (n + 1) x).flatten = (List.replicate n x).flatten ++ x := by
      intro x
      rw [List.replicate_succ', List.flatten_append]
      simp
    rw [e, hr]
    simp only [List.append_assoc]

theorem reset_calls_frame (n : Nat) (w : World) :
    (reset_calls n w).consecutive_failures = w.consecutive_failures
      ∧ (reset_calls n w).recovery_attempts = w.recovery_attempts
      ∧ (reset_calls n w).cached_device_info = w.cached_device_info
      ∧ (reset_calls n w).regs = w.regs
      ∧ (reset_calls n w).bus = w.bus := by
  induction n with
  | zero => exact ⟨rfl, rfl, rfl, rfl, rfl⟩
  | succ n ih =>
    simp only [reset_calls, usb_send_reset_impl_eq]
    exact ih

/-- C24. For every port state `usb_send_reset_impl` returns `ESP_OK`; its whole
effect is to read the port status before and after and to drive the reset
signal: assert, 15 ms, de-assert, 20 ms. The recovery counters, the cached
device info, the channel registers and the bus are as before, after one call
and after any number of calls. With no device on the port, `n` calls leave the
world of a single call, apart from the port readings consumed and the trace,
which repeats the same sequence `n` times; the next call returns `ESP_OK`
again. -/
theorem C24_reset_idempotent (w : World) (n : Nat) :
    (usb_send_reset_impl w).1 = esp_err_t.ESP_OK
    ∧ (usb_send_reset_impl w).2
        = { w with
            env_conn := w.env_conn.tail.tail
            trace := w.trace ++ port_check_ops (w.env_conn.headD false) ++ reset_signal_ops
              ++ port_check_ops (w.env_conn.tail.headD false) }
    ∧ (usb_send_reset_impl (reset_calls n w)).1 = esp_err_t.ESP_OK
    ∧ (reset_calls n w).consecutive_failures = w.consecutive_failures
    ∧ (reset_calls n w).recovery_attempts = w.recovery_attempts
    ∧ (reset_calls n w).cached_device_info = w.cached_device_info
    ∧ (reset_calls n w).regs = w.regs
    ∧ (reset_calls n w).bus = w.bus
    ∧ ((∀ b ∈ w.env_conn, b = false) →
        reset_calls n w
          = { reset_calls 1 w with
              env_conn := w.env_conn.drop (2 * n)
              trace := w.trace ++ (List.replicate n
                ([HwOp.get_conn_status false] ++ reset_signal_ops
                  ++ [HwOp.get_conn_status false])).flatten }) := by
  have hf := reset_calls_frame n w
  refine ⟨by rw [usb_send_reset_impl_eq], by rw [usb_send_reset_impl_eq],
    by rw [usb_send_reset_impl_eq], hf.1, hf.2.1, hf.2.2.1, hf.2.2.2.1, hf.2.2.2.2, ?_⟩
  intro h
  rw [reset_calls_no_device n w h, reset_calls_no_device 1 w h]

theorem C24_reset_idempotent_witness :
    (∀ b ∈ world_no_device.env_conn, b = false)
    ∧ (usb_send_reset_impl world_no_device).1 = esp_err_t.ESP_OK
    ∧ (reset_calls 2 world_no_device).consecutive_failures = 3
    ∧ (reset_calls 2 world_no_device).recovery_attempts = 1
    ∧ reset_calls 2 world_no_device
        = { reset_calls 1 world_no_device with
            env_conn := world_no_device.env_conn.drop (2 * 2)
            trace := world_no_device.trace ++ (List.replicate 2
              ([HwOp.get_conn_status false] ++ reset_signal_ops
                ++ [HwOp.get_conn_status false])).flatten } :=
  have h := C24_reset_idempotent world_no_device 2
  ⟨by decide, h.1, h.2.2.2.1, h.2.2.2.2.1, h.2.2.2.2.2.2.2.2 (by decide)⟩

/-- C26. In the polling loop of `usb_read_response` a halt without
transfer-complete read on the very first poll is passed over whatever its NAK
and stall flags: the loop only waits and polls again, now with `first_poll`
false. A halt without transfer-complete read on any later poll is acted on: with
NAK the channel is re-enabled, otherwise the loop ends at once and the readings
after it are not looked at. A halt with transfer-complete is treated the same
on the first and on a later poll. A first reading without halt uses up the
first poll as well, so at most one halt is passed over in a call. -/
theorem C26_stale_halt_discarded_once (buffer : Ptr) (max_len : Nat) (bytes_read : Ptr)
    (h : HcInt) (rest : List HcInt) (w : World) (hh : h.chhltd = true) :
    (h.xfercompl = false →
      read_poll_loop buffer max_len bytes_read true (h :: rest) w
        = read_poll_loop buffer max_len bytes_read false rest
            ((w.emit [HwOp.hcint_read_and_clear]).emit [HwOp.delay 1]))
    ∧ (h.xfercompl = false →
      read_poll_loop buffer max_len bytes_read false (h :: rest) w
        = if h.nak then
            read_poll_loop buffer max_len bytes_read false rest
              ((enable_chan EnableSite.nak_retry
                (w.emit [HwOp.hcint_read_and_clear])).emit [HwOp.delay 1])
          else (ReadEnd.gave_up, w.emit [HwOp.hcint_read_and_clear]))
    ∧ (h.xfercompl = true →
      read_poll_loop buffer max_len bytes_read true (h :: rest) w
        = read_poll_loop buffer max_len bytes_read false (h :: rest) w)
    ∧ (∀ h0 : HcInt, h0.chhltd = false →
      read_poll_loop buffer max_len bytes_read true (h0 :: h :: rest) w
        = read_poll_loop buffer max_len bytes_read false (h :: rest)
            ((w.emit [HwOp.hcint_read_and_clear]).emit [HwOp.delay 1])) := by
  refine ⟨?_, ?_, ?_, ?_⟩
  · intro hx
    rw [read_poll_loop]
    simp [hh, hx]
  · intro hx
    rw [read_poll_loop]
    simp [hh, hx]
  · intro hx
    rw [read_poll_loop, read_poll_loop]
    simp [hh, hx]
  · intro h0 h0h
    rw [read_poll_loop]
    simp [h0h]

set_option maxRecDepth 100000 in
theorem C26_stale_halt_discarded_once_witness :
    hcint_stall.chhltd = true
    ∧ read_poll_loop Ptr.valid 18 Ptr.valid true [hcint_stall, hcint_complete] world_descriptor
        = read_poll_loop Ptr.valid 18 Ptr.valid false [hcint_complete]
            ((world_descriptor.emit [HwOp.hcint_read_and_clear]).emit [HwOp.delay 1])
    ∧ (usb_read_response Ptr.valid 18 1000 Ptr.valid (-1) world_stall_then_data).status
        = Status.returned esp_err_t.ESP_OK
    ∧ (usb_read_response Ptr.valid 18 1000 Ptr.valid (-1) world_idle_stall_data).status
        = Status.returned esp_err_t.ESP_ERR_TIMEOUT :=
  ⟨by decide,
   (C26_stale_halt_discarded_once Ptr.valid 18 Ptr.valid hcint_stall [hcint_complete]
      world_descriptor (by decide)).1 (by decide),
   by decide, by decide⟩

@[simp] theorem chan_is_enabled_consecutive_failures (w : World) :
    (chan_is_enabled w).2.consecutive_failures = w.consecutive_failures := rfl

@[simp] theorem get_conn_status_consecutive_failures (w : World) :
    (get_conn_status w).2.consecutive_failures = w.consecutive_failures := rfl

@[simp] theorem enable_chan_consecutive_failures (s : EnableSite) (w : World) :
    (enable_chan s w).consecutive_failures = w.consecutive_failures := rfl

@[simp] theorem wait_chan_halt_consecutive_failures (n : Nat) (w : World) :
    (wait_chan_halt n w).consecutive_failures = w.consecutive_failures :=
  (wait_chan_halt_same n w).2.2.2.2.2.1

@[simp] theorem write_chunk_poll_consecutive_failures (polls : List HcInt) (w : World) :
    (write_chunk_poll polls w).2.consecutive_failures = w.consecutive_failures := by
  induction polls generalizing w with
  | nil => rfl
  | cons h rest ih => simp only [write_chunk_poll]; split_ifs <;> simp [ih]

@[simp] theorem chunk_start_consecutive_failures (data : List Nat)
    (length available_data total_sent pid : Nat) (w : World) :
    (chunk_start data length available_data total_sent pid w).consecutive_failures
      = w.consecutive_failures := by
  simp only [chunk_start, enable_chan, World.emit, chan_is_enabled]
  split_ifs <;> simp

@[simp] theorem write_data_loop_consecutive_failures (data : List Nat)
    (length available_data : Nat) (fuel total_sent pid : Nat) (w : World) :
    (write_data_loop data length available_data fuel total_sent pid w).world.consecutive_failures
      = w.consecutive_failures := by
  induction fuel generalizing total_sent pid w with
  | zero => rfl
  | succ n ih =>
    simp only [write_data_loop]
    by_cases hlt : total_sent < length
    · simp only [hlt, if_true]
      generalize hp : write_chunk_poll
        ((chunk_start data length available_data total_sent pid w).env_polls.headD [])
        { chunk_start data length available_data total_sent pid w with
          env_polls := (chunk_start data length available_data total_sent pid w).env_polls.tail }
        = p
      have hb : p.2.consecutive_failures = w.consecutive_failures := by
        rw [← hp]; simp
      obtain ⟨e, w6⟩ := p
      cases e
      · exact (ih _ _ w6).trans hb
      · exact hb
      · exact hb
      · exact hb
    · simp [hlt]

@[simp] theorem usb_write_data_consecutive_failures (data : List Nat) (length timeout_ms : Nat)
    (w : World) :
    (usb_write_data data length timeout_ms w).world.consecutive_failures
      = w.consecutive_failures :=
  write_data_loop_consecutive_failures _ _ _ _ _ _ _

@[simp] theorem usb_flush_all_fifos_consecutive_failures (w : World) :
    (usb_flush_all_fifos w).consecutive_failures = w.consecutive_failures := rfl

@[simp] theorem setup_stage_consecutive_failures (c : usb_packet_config_t) (w : World) :
    (setup_stage c w).2.consecutive_failures = w.consecutive_failures := by
  have h := setup_channel_reset_same { w with packet_buffer := build_packet_buffer c }
  simp only [World.same_state] at h
  simp only [setup_stage]
  split_ifs <;> simp [World.emit, enable_chan, h]

@[simp] theorem chan_is_enabled_recovery_attempts (w : World) :
    (chan_is_enabled w).2.recovery_attempts = w.recovery_attempts := rfl

@[simp] theorem get_conn_status_recovery_attempts (w : World) :
    (get_conn_status w).2.recovery_attempts = w.recovery_attempts := rfl

@[simp] theorem enable_chan_recovery_attempts (s : EnableSite) (w : World) :
    (enable_chan s w).recovery_attempts = w.recovery_attempts := rfl

@[simp] theorem wait_chan_halt_recovery_attempts (n : Nat) (w : World) :
    (wait_chan_halt n w).recovery_attempts = w.recovery_attempts :=
  (wait_chan_halt_same n w).2.2.2.2.2.2.1

@[simp] theorem write_chunk_poll_recovery_attempts (polls : List HcInt) (w : World) :
    (write_chunk_poll polls w).2.recovery_attempts = w.recovery_attempts := by
  induction polls generalizing w with
  | nil => rfl
  | cons h rest ih => simp only [write_chunk_poll]; split_ifs <;> simp [ih]

@[simp] theorem chunk_start_recovery_attempts (data : List Nat)
    (length available_data total_sent pid : Nat) (w : World) :
    (chunk_start data length available_data total_sent pid w).recovery_attempts
      = w.recovery_attempts := by
  simp only [chunk_start, enable_chan, World.emit, chan_is_enabled]
  split_ifs <;> simp

@[simp] theorem write_data_loop_recovery_attempts (data : List Nat)
    (length available_data : Nat) (fuel total_sent pid : Nat) (w : World) :
    (write_data_loop data length available_data fuel total_sent pid w).world.recovery_attempts
      = w.recovery_attempts := by
  induction fuel generalizing total_sent pid w with
  | zero => rfl
  | succ n ih =>
    simp only [write_data_loop]
    by_cases hlt : total_sent < length
    · simp only [hlt, if_true]
      generalize hp : write_chunk_poll
        ((chunk_start data length available_data total_sent pid w).env_polls.headD [])
        { chunk_start data length available_data total_sent pid w with
          env_polls := (chunk_start data length available_data total_sent pid w).env_polls.tail }
        = p
      have hb : p.2.recovery_attempts = w.recovery_attempts := by
        rw [← hp]; simp
      obtain ⟨e, w6⟩ := p
      cases e
      · exact (ih _ _ w6).trans hb
      · exact hb
      · exact hb
      · exact hb
    · simp [hlt]

@[simp] theorem usb_write_data_recovery_attempts (data : List Nat) (length timeout_ms : Nat)
    (w : World) :
    (usb_write_data data length timeout_ms w).world.recovery_attempts
      = w.recovery_attempts :=
  write_data_loop_recovery_attempts _ _ _ _ _ _ _

@[simp] theorem usb_flush_all_fifos_recovery_attempts (w : World) :
    (usb_flush_all_fifos w).recovery_attempts = w.recovery_attempts := rfl

@[simp] theorem setup_stage_recovery_attempts (c : usb_packet_config_t) (w : World) :
    (setup_stage c w).2.recovery_attempts = w.recovery_attempts := by
  have h := setup_channel_reset_same { w with packet_buffer := build_packet_buffer c }
  simp only [World.same_state] at h
  simp only [setup_stage]
  split_ifs <;> simp [World.emit, enable_chan, h]

theorem read_poll_loop_counters (buffer : Ptr) (max_len : Nat) (bytes_read : Ptr)
    (first_poll : Bool) (polls : List HcInt) (w : World) :
    same_counters w (read_poll_loop buffer max_len bytes_read first_poll polls w).2
      ∨ ((read_poll_loop buffer max_len bytes_read first_poll polls w).2.consecutive_failures = 0
        ∧ (read_poll_loop buffer max_len bytes_read first_poll polls w).2.recovery_attempts
            = 0) := by
  induction polls generalizing first_poll w with
  | nil => exact Or.inl ⟨rfl, rfl⟩
  | cons hc rest ih =>
    simp only [read_poll_loop]
    split_ifs
    all_goals first
      | exact ih _ _
      | exact Or.inl ⟨rfl, rfl⟩
      | exact Or.inr ⟨rfl, rfl⟩

theorem read_failure_path_range (bytes_read : Ptr) (w : World) (h : counters_in_range w) :
    counters_in_range (read_failure_path bytes_read w).world := by
  cases bytes_read with
  | null => exact h
  | valid =>
    obtain ⟨e1, e2, _, _⟩ := read_failure_path_effect w
    obtain ⟨h1, h2, h3, h4⟩ := h
    simp only [counters_in_range]
    rw [e1, e2]
    refine ⟨?_, ?_, ?_, ?_⟩ <;> split_ifs <;> omega

theorem usb_read_response_range (buffer : Ptr) (max_len timeout_ms : Nat) (bytes_read : Ptr)
    (max_nak_retries : Int) (w : World) (h : counters_in_range w) :
    counters_in_range
      (usb_read_response buffer max_len timeout_ms bytes_read max_nak_retries w).world := by
  rw [usb_read_response_eq]
  have hc := read_poll_loop_counters buffer max_len bytes_read true (w.env_polls.headD [])
    { read_start max_len w with env_polls := w.env_polls.tail }
  generalize read_poll_loop buffer max_len bytes_read true (w.env_polls.headD [])
    { read_start max_len w with env_polls := w.env_polls.tail } = p at hc ⊢
  obtain ⟨e, w6⟩ := p
  have hr : counters_in_range w6 := by
    simp only [same_counters, read_start_consecutive_failures,
      read_start_recovery_attempts] at hc
    simp only [counters_in_range] at h ⊢
    rcases hc with ⟨c1, c2⟩ | ⟨c1, c2⟩
    · rw [c1, c2]; exact h
    · rw [c1, c2]; decide
  cases e with
  | received => exact hr
  | fault f => exact hr
  | gave_up => exact read_failure_path_range bytes_read w6 hr

theorem usb_send_packet_impl_range (config : Option usb_packet_config_t) (w : World)
    (h : counters_in_range w) : counters_in_range (usb_send_packet_impl config w).world := by
  cases config with
  | none => exact h
  | some c =>
    have hs : counters_in_range (setup_stage c w).2 := by
      simp only [counters_in_range, setup_stage_consecutive_failures,
        setup_stage_recovery_attempts]
      exact h
    simp only [usb_send_packet_impl]
    by_cases h0 : c.packet_size ≤ 0
    · rw [if_pos h0]; exact h
    · rw [if_neg h0]
      generalize setup_stage c w = s at hs ⊢
      obtain ⟨f, w1⟩ := s
      cases f with
      | some f => exact hs
      | none =>
        simp only at hs ⊢
        split_ifs
        · simp only [counters_in_range, usb_write_data_consecutive_failures,
            usb_write_data_recovery_attempts]
          exact hs
        · exact usb_read_response_range _ _ _ _ _ _ hs
        · exact hs

theorem descriptor_fetch_range (w : World) (h : counters_in_range w) :
    counters_in_range (descriptor_fetch w).world := by
  simp only [descriptor_fetch]
  apply usb_send_packet_impl_range
  simp only [counters_in_range] at h ⊢
  split_ifs <;> simpa using h

theorem usb_get_device_info_impl_range (info : Ptr) (w : World) (h : counters_in_range w) :
    counters_in_range (usb_get_device_info_impl info w).1.world := by
  cases info with
  | null => exact h
  | valid =>
    have hf := descriptor_fetch_range (get_conn_status w).2 h
    simp only [usb_get_device_info_impl]
    rw [if_neg (by decide)]
    by_cases h1 : ¬ (get_conn_status w).1 = true
    · rw [if_pos h1]; exact h
    · rw [if_neg h1]
      by_cases h2 : (get_conn_status w).2.cached_device_info.connected = true
      · rw [if_pos h2]; exact h
      · rw [if_neg h2]
        generalize descriptor_fetch (get_conn_status w).2 = f at hf ⊢
        obtain ⟨st, fw⟩ := f
        cases st with
        | crashed x => exact hf
        | returned ret =>
          simp only
          by_cases h3 : ret = esp_err_t.ESP_OK ∧ fw.bytes_received ≥ USB_DEVICE_DESCRIPTOR_SIZE
          · rw [if_pos h3]; exact hf
          · rw [if_neg h3]; exact hf

theorem worker_execute_range (op : WorkerOp) (w : World) (h : counters_in_range w) :
    counters_in_range (worker_execute op w).world := by
  cases op with
  | USB_OP_RESET =>
    simp only [worker_execute, counters_in_range, usb_send_reset_impl_consecutive_failures,
      usb_send_reset_impl_recovery_attempts]
    exact h
  | USB_OP_SEND_PACKET config => exact usb_send_packet_impl_range config w h
  | USB_OP_GET_STATUS => exact h
  | USB_OP_GET_DEVICE_INFO info => exact usb_get_device_info_impl_range info w h
  | USB_OP_CLEAR_CACHE => exact h

theorem worker_run_range (ops : List WorkerOp) :
    ∀ (w w2 : World), counters_in_range w → worker_run ops w = some w2 →
      counters_in_range w2 := by
  induction ops with
  | nil =>
    intro w w2 h hrun
    simp only [worker_run, Option.some.injEq] at hrun
    rw [← hrun]; exact h
  | cons op ops ih =>
    intro w w2 h hrun
    simp only [worker_run] at hrun
    cases hs : (worker_execute op w).status with
    | crashed x => rw [hs] at hrun; simp at hrun
    | returned e =>
      rw [hs] at hrun
      exact ih _ w2 (worker_execute_range op w h) hrun

/-- C27. The recovery counters start at (0, 0), which lies in the range
0..4 for consecutive failures and 0..2 for recovery attempts, and from a world
in that range every `usb_read_response` call, whatever its outcome, leaves a
world in that range; so does every operation of the worker and every run of
operations. The SETUP stage, `usb_write_data`, `usb_send_reset_impl`, and
`usb_get_device_info_impl` when it is served from the cache or finds the port
disconnected leave both counters as they are. -/
theorem C27_recovery_counters_invariant (w : World) (hinv : counters_in_range w) :
    counters_in_range World.boot
    ∧ (∀ (buffer : Ptr) (max_len timeout_ms : Nat) (bytes_read : Ptr) (max_nak_retries : Int),
        counters_in_range
          (usb_read_response buffer max_len timeout_ms bytes_read max_nak_retries w).world)
    ∧ (∀ op : WorkerOp, counters_in_range (worker_execute op w).world)
    ∧ (∀ (ops : List WorkerOp) (w2 : World), worker_run ops w = some w2 →
        counters_in_range w2)
    ∧ (∀ c : usb_packet_config_t, same_counters w (setup_stage c w).2)
    ∧ (∀ (data : List Nat) (length timeout_ms : Nat),
        same_counters w (usb_write_data data length timeout_ms w).world)
    ∧ same_counters w (usb_send_reset_impl w).2
    ∧ same_counters w (get_conn_status w).2
    ∧ (∀ info : Ptr,
        (w.env_conn.headD false = false ∨ w.cached_device_info.connected = true
          ∨ info = Ptr.null) →
        same_counters w (usb_get_device_info_impl info w).1.world) := by
  refine ⟨by simp only [counters_in_range]; decide,
    fun b m t br n => usb_read_response_range b m t br n w hinv,
    fun op => worker_execute_range op w hinv,
    fun ops w2 hrun => worker_run_range ops w w2 hinv hrun,
    fun c => ⟨setup_stage_consecutive_failures c w, setup_stage_recovery_attempts c w⟩,
    fun d l t => ⟨usb_write_data_consecutive_failures d l t w,
      usb_write_data_recovery_attempts d l t w⟩,
    ⟨usb_send_reset_impl_consecutive_failures w, usb_send_reset_impl_recovery_attempts w⟩,
    ⟨rfl, rfl⟩, ?_⟩
  intro info hcase
  cases info with
  | null => exact ⟨rfl, rfl⟩
  | valid =>
    simp only [usb_get_device_info_impl]
    rw [if_neg (by decide)]
    by_cases h1 : (get_conn_status w).1 = true
    · rw [if_neg (by simp [h1])]
      have h2 : (get_conn_status w).2.cached_device_info.connected = true := by
        rcases hcase with hc | hc | hc
        · have : (get_conn_status w).1 = false := hc
          rw [this] at h1; exact absurd h1 (by decide)
        · exact hc
        · exact absurd hc (by decide)
      rw [if_pos h2]
      exact ⟨rfl, rfl⟩
    · rw [if_pos h1]
      exact ⟨rfl, rfl⟩

set_option maxRecDepth 100000 in
theorem C27_recovery_counters_invariant_witness :
    counters_in_range world_elevated_then_data
    ∧ counters_in_range
        (usb_read_response Ptr.valid 18 1000 Ptr.valid (-1) world_elevated_then_data).world
    ∧ counters_in_range
        (usb_read_response Ptr.valid 18 1000 Ptr.valid (-1) { World.boot with
          consecutive_failures := 4, recovery_attempts := 2 }).world
    ∧ (usb_read_response Ptr.valid 18 1000 Ptr.valid (-1) { World.boot with
          consecutive_failures := 4, recovery_attempts := 2 }).world.recovery_attempts = 0 :=
  ⟨by simp only [counters_in_range]; decide,
   (C27_recovery_counters_invariant world_elevated_then_data
      (by simp only [counters_in_range]; decide)).2.1 Ptr.valid 18 1000 Ptr.valid (-1),
   (C27_recovery_counters_invariant { World.boot with
      consecutive_failures := 4, recovery_attempts := 2 }
      (by simp only [counters_in_range]; decide)).2.1 Ptr.valid 18 1000 Ptr.valid (-1),
   by decide⟩

@[simp] theorem emit_response_buffer (w : World) (ops : List HwOp) :
    (w.emit ops).response_buffer = w.response_buffer := rfl

@[simp] theorem chan_is_enabled_response_buffer (w : World) :
    (chan_is_enabled w).2.response_buffer = w.response_buffer := rfl

@[simp] theorem get_conn_status_response_buffer (w : World) :
    (get_conn_status w).2.response_buffer = w.response_buffer := rfl

@[simp] theorem enable_chan_response_buffer (s : EnableSite) (w : World) :
    (enable_chan s w).response_buffer = w.response_buffer := rfl

@[simp] theorem wait_chan_halt_response_buffer (n : Nat) (w : World) :
    (wait_chan_halt n w).response_buffer = w.response_buffer :=
  (wait_chan_halt_same n w).2.2.2.2.2.2.2.2.2.2.2.2.1

@[simp] theorem usb_send_reset_impl_response_buffer (w : World) :
    (usb_send_reset_impl w).2.response_buffer = w.response_buffer := by
  simp only [usb_send_reset_impl, get_conn_status, World.emit]
  split_ifs <;> rfl

@[simp] theorem usb_flush_all_fifos_response_buffer (w : World) :
    (usb_flush_all_fifos w).response_buffer = w.response_buffer := rfl

@[simp] theorem read_start_response_buffer (max_len : Nat) (w : World) :
    (read_start max_len w).response_buffer = w.response_buffer := by
  simp only [read_start, enable_chan, World.emit, chan_is_enabled]
  split_ifs <;> simp

/-- What the polling loop leaves when it ends with data: the byte count comes
from a register value read during the call. When it ends otherwise the
destination buffer is untouched. -/
theorem read_poll_loop_result (buffer : Ptr) (max_len : Nat) (bytes_read : Ptr)
    (first_poll : Bool) (polls : List HcInt) (w : World) :
    ((read_poll_loop buffer max_len bytes_read first_poll polls w).1 = ReadEnd.received →
      ∃ r, (r ∈ w.env_xfersize ∨ r = 0)
        ∧ 0 < (max_len % SIZE_MOD + SIZE_MOD - r % SIZE_MOD) % SIZE_MOD
        ∧ (max_len % SIZE_MOD + SIZE_MOD - r % SIZE_MOD) % SIZE_MOD ≤ max_len
        ∧ (read_poll_loop buffer max_len bytes_read first_poll polls w).2.bytes_received
            = (max_len % SIZE_MOD + SIZE_MOD - r % SIZE_MOD) % SIZE_MOD)
    ∧ ((read_poll_loop buffer max_len bytes_read first_poll polls w).1 ≠ ReadEnd.received →
      (read_poll_loop buffer max_len bytes_read first_poll polls w).2.response_buffer
        = w.response_buffer) := by
  induction polls generalizing first_poll w with
  | nil => exact ⟨fun h => by simp [read_poll_loop] at h, fun _ => rfl⟩
  | cons hc rest ih =>
    have hmem : ∀ r, (r ∈ w.env_xfersize.tail ∨ r = 0) → (r ∈ w.env_xfersize ∨ r = 0) := by
      intro r hr
      rcases hr with hr | hr
      · exact Or.inl (List.mem_of_mem_tail hr)
      · exact Or.inr hr
    have hhead : w.env_xfersize.headD 0 ∈ w.env_xfersize ∨ w.env_xfersize.headD 0 = 0 := by
      cases w.env_xfersize with
      | nil => exact Or.inr rfl
      | cons a t => exact Or.inl (by simp)
    simp only [read_poll_loop]
    split_ifs with c1 c2 c3 c4 c5 c6 c7 c8 c9
    all_goals first
      | exact ih _ _
      | (refine ⟨fun h => ?_, fun h => ?_⟩
         · obtain ⟨r, hr, h1, h2, h3⟩ := (ih _ _).1 h
           exact ⟨r, hmem r hr, h1, h2, h3⟩
         · exact (ih _ _).2 h)
      | exact ⟨fun h => by simp at h, fun _ => rfl⟩
      | exact ⟨fun _ => ⟨w.env_xfersize.headD 0, hhead, c5.1, c5.2, rfl⟩,
          fun h => absurd rfl h⟩

theorem remaining_below_max (max_len r : Nat) (hmax : max_len < SIZE_MOD)
    (h1 : 0 < (max_len % SIZE_MOD + SIZE_MOD - r % SIZE_MOD) % SIZE_MOD)
    (h2 : (max_len % SIZE_MOD + SIZE_MOD - r % SIZE_MOD) % SIZE_MOD ≤ max_len) :
    r % SIZE_MOD < max_len
      ∧ (max_len % SIZE_MOD + SIZE_MOD - r % SIZE_MOD) % SIZE_MOD = max_len - r % SIZE_MOD := by
  have hr : r % SIZE_MOD < SIZE_MOD := Nat.mod_lt _ (by decide)
  simp only [SIZE_MOD] at *
  norm_num at *
  omega

/-- C28. A `usb_read_response` call that returns `ESP_OK` leaves
`1 ≤ bytes_read ≤ max_len`. A call that returns anything else returns
`ESP_ERR_TIMEOUT` with `bytes_read = 0`, the destination buffer as it was, and
the consecutive-failure counter incremented, then set to zero when the
increment reaches 5 and recovery runs. A success comes from a remaining-size
register value `r` read during the call with `r < max_len`, and
`bytes_read = max_len - r`: a value greater than `max_len` never gives
success. -/
theorem C28_data_in_outcomes (buffer bytes_read : Ptr) (max_len timeout_ms : Nat)
    (max_nak_retries : Int) (w : World) :
    ((usb_read_response buffer max_len timeout_ms bytes_read max_nak_retries w).status
        = Status.returned esp_err_t.ESP_OK →
      1 ≤ (usb_read_response buffer max_len timeout_ms bytes_read max_nak_retries
            w).world.bytes_received
      ∧ (usb_read_response buffer max_len timeout_ms bytes_read max_nak_retries
            w).world.bytes_received ≤ max_len)
    ∧ (∀ e, (usb_read_response buffer max_len timeout_ms bytes_read max_nak_retries w).status
          = Status.returned e → e ≠ esp_err_t.ESP_OK →
        e = esp_err_t.ESP_ERR_TIMEOUT
        ∧ (usb_read_response buffer max_len timeout_ms bytes_read max_nak_retries
            w).world.bytes_received = 0
        ∧ (usb_read_response buffer max_len timeout_ms bytes_read max_nak_retries
            w).world.response_buffer = w.response_buffer
        ∧ (usb_read_response buffer max_len timeout_ms bytes_read max_nak_retries
            w).world.consecutive_failures
            = (if w.consecutive_failures + 1 ≥ 5 then 0 else w.consecutive_failures + 1))
    ∧ (max_len < SIZE_MOD →
        (usb_read_response buffer max_len timeout_ms bytes_read max_nak_retries w).status
          = Status.returned esp_err_t.ESP_OK →
        ∃ r, (r ∈ w.env_xfersize ∨ r = 0) ∧ r % SIZE_MOD < max_len
          ∧ (usb_read_response buffer max_len timeout_ms bytes_read max_nak_retries
              w).world.bytes_received = max_len - r % SIZE_MOD) := by
  have hok : (usb_read_response buffer max_len timeout_ms bytes_read max_nak_retries w).status
        = Status.returned esp_err_t.ESP_OK →
      ∃ r, (r ∈ w.env_xfersize ∨ r = 0)
        ∧ 0 < (max_len % SIZE_MOD + SIZE_MOD - r % SIZE_MOD) % SIZE_MOD
        ∧ (max_len % SIZE_MOD + SIZE_MOD - r % SIZE_MOD) % SIZE_MOD ≤ max_len
        ∧ (usb_read_response buffer max_len timeout_ms bytes_read max_nak_retries
            w).world.bytes_received
            = (max_len % SIZE_MOD + SIZE_MOD - r % SIZE_MOD) % SIZE_MOD := by
    rw [usb_read_response_eq]
    have hres := (read_poll_loop_result buffer max_len bytes_read true (w.env_polls.headD [])
      { read_start max_len w with env_polls := w.env_polls.tail }).1
    generalize read_poll_loop buffer max_len bytes_read true (w.env_polls.headD [])
      { read_start max_len w with env_polls := w.env_polls.tail } = p at hres ⊢
    simp only [read_start_env_xfersize] at hres
    obtain ⟨e, w6⟩ := p
    cases e with
    | received => intro _; exact hres rfl
    | fault f => intro h; simp at h
    | gave_up =>
      intro h
      rcases read_failure_path_status bytes_read w6 with h2 | h2
      · simp only at h; rw [h2] at h; simp at h
      · simp only at h; rw [h2] at h; simp at h
  refine ⟨?_, ?_, ?_⟩
  · intro h
    obtain ⟨r, _, h1, h2, h3⟩ := hok h
    rw [h3]; exact ⟨h1, h2⟩
  · intro e he hne
    have heq : e = esp_err_t.ESP_ERR_TIMEOUT := by
      rcases usb_read_response_status buffer max_len timeout_ms bytes_read max_nak_retries w
        with h | h | ⟨f, h⟩
      · rw [h] at he; exact absurd (Status.returned.inj he).symm hne
      · rw [h] at he; exact (Status.returned.inj he).symm
      · rw [h] at he; simp at he
    subst heq
    cases bytes_read with
    | null =>
      exfalso
      rw [usb_read_response_eq] at he
      generalize read_poll_loop buffer max_len Ptr.null true (w.env_polls.headD [])
        { read_start max_len w with env_polls := w.env_polls.tail } = p at he
      obtain ⟨e, w6⟩ := p
      cases e <;> simp [read_failure_path] at he
    | valid =>
      refine ⟨rfl, ?_, ?_,
        (usb_read_response_timeout_effect buffer max_len timeout_ms max_nak_retries w he).1⟩
      · rw [usb_read_response_eq] at he ⊢
        generalize read_poll_loop buffer max_len Ptr.valid true (w.env_polls.headD [])
          { read_start max_len w with env_polls := w.env_polls.tail } = p at he ⊢
        obtain ⟨e, w6⟩ := p
        cases e with
        | received => simp at he
        | fault f => simp at he
        | gave_up =>
          simp only [read_failure_path]
          rw [if_neg (by decide)]
          split_ifs <;> simp [World.emit, usb_send_reset_impl_eq, usb_flush_all_fifos]
      · rw [usb_read_response_eq] at he ⊢
        have hres := (read_poll_loop_result buffer max_len Ptr.valid true
          (w.env_polls.headD [])
          { read_start max_len w with env_polls := w.env_polls.tail }).2
        generalize read_poll_loop buffer max_len Ptr.valid true (w.env_polls.headD [])
          { read_start max_len w with env_polls := w.env_polls.tail } = p at he hres ⊢
        simp only [read_start_response_buffer] at hres
        obtain ⟨e, w6⟩ := p
        cases e with
        | received => simp at he
        | fault f => simp at he
        | gave_up =>
          have hb : w6.response_buffer = w.response_buffer := hres (by simp)
          simp only [read_failure_path]
          rw [if_neg (by decide)]
          split_ifs <;> simp [World.emit, usb_send_reset_impl_eq, usb_flush_all_fifos, hb]
  · intro hmax h
    obtain ⟨r, hr, h1, h2, h3⟩ := hok h
    obtain ⟨a, b⟩ := remaining_below_max max_len r hmax h1 h2
    exact ⟨r, hr, a, by rw [h3, b]⟩

set_option maxRecDepth 100000 in
theorem C28_data_in_outcomes_witness :
    (usb_read_response Ptr.valid 18 1000 Ptr.valid (-1) world_descriptor).status
        = Status.returned esp_err_t.ESP_OK
    ∧ (1 ≤ (usb_read_response Ptr.valid 18 1000 Ptr.valid (-1)
            world_descriptor).world.bytes_received
      ∧ (usb_read_response Ptr.valid 18 1000 Ptr.valid (-1)
            world_descriptor).world.bytes_received ≤ 18)
    ∧ (usb_read_response Ptr.valid 18 1000 Ptr.valid (-1) world_remaining_above_max).status
        = Status.returned esp_err_t.ESP_ERR_TIMEOUT
    ∧ (usb_read_response Ptr.valid 18 1000 Ptr.valid (-1)
          world_remaining_above_max).world.bytes_received = 0 :=
  ⟨by decide,
   (C28_data_in_outcomes Ptr.valid Ptr.valid 18 1000 (-1) world_descriptor).1 (by decide),
   by decide,
   ((C28_data_in_outcomes Ptr.valid Ptr.valid 18 1000 (-1) world_remaining_above_max).2.1
      esp_err_t.ESP_ERR_TIMEOUT (by decide) (by decide)).2.1⟩

theorem pid_after_two (k : Nat) : pid_after 2 k = if k % 2 = 0 then 2 else 0 := by
  have h : ∀ k, pid_after 2 k = (if k % 2 = 0 then 2 else 0)
      ∧ pid_after 0 k = (if k % 2 = 0 then 0 else 2) := by
    intro k
    induction k with
    | zero => exact ⟨rfl, rfl⟩
    | succ n ih =>
      simp only [pid_after, if_true]
      refine ⟨?_, ?_⟩
      · rw [ih.2]; split_ifs <;> omega
      · rw [if_neg (by decide), ih.1]; split_ifs <;> omega
  exact (h k).1

/-- The loop does not depend on the bound once it covers the bytes left. -/
theorem write_data_loop_fuel (data : List Nat) (length av : Nat) :
    ∀ (fuel1 fuel2 ts pid : Nat) (w : World), length - ts ≤ fuel1 → length - ts ≤ fuel2 →
      write_data_loop data length av fuel1 ts pid w
        = write_data_loop data length av fuel2 ts pid w := by
  intro fuel1
  induction fuel1 with
  | zero =>
    intro fuel2 ts pid w h1 _
    have h0 : ¬ ts < length := by omega
    cases fuel2 with
    | zero => rfl
    | succ m => simp [write_data_loop, h0]
  | succ n ih =>
    intro fuel2 ts pid w h1 h2
    cases fuel2 with
    | zero =>
      have h0 : ¬ ts < length := by omega
      simp [write_data_loop, h0]
    | succ m =>
      simp only [write_data_loop, USB_DMA_CHUNK_SIZE]
      by_cases hlt : ts < length
      · simp only [hlt, if_true]
        have e := ih m (ts + if length - ts > 64 then 64 else length - ts)
          (if pid = 2 then 0 else 2)
        rw [e]
        · split_ifs <;> omega
        · split_ifs <;> omega
      · simp [hlt]

theorem chunk_sizes_sum (n : Nat) :
    ∀ length, (length + 63) / 64 = n →
      ((List.range n).map (fun k => min 64 (length - 64 * k))).sum = length := by
  induction n with
  | zero => intro length h; simp; omega
  | succ n ih =>
    intro length h
    rw [List.range_succ_eq_map, List.map_cons, List.sum_cons, List.map_map]
    by_cases hl : length ≤ 64
    · have hn : n = 0 := by omega
      subst hn
      simp
      omega
    · have e := ih (length - 64) (by omega)
      have hf : ((fun k => min 64 (length - 64 * k)) ∘ Nat.succ)
          = (fun k => min 64 (length - 64 - 64 * k)) := by
        funext k
        simp only [Function.comp, Nat.succ_eq_add_one]
        congr 1
        omega
      rw [hf, e]
      simp
      omega

/-- When every chunk completes, the transactions handed to the controller are
the chunks at offsets `ts`, `ts + 64`, ... with the PID toggling after each. -/
theorem write_data_loop_chunks (data : List Nat) (length av : Nat) :
    ∀ (fuel ts pid : Nat) (w : World), length - ts ≤ fuel →
      (write_data_loop data length av fuel ts pid w).status
          = Status.returned esp_err_t.ESP_OK →
      (write_data_loop data length av fuel ts pid w).world.bus
        = w.bus ++ (List.range ((length - ts + 63) / 64)).map
            (fun k => chunk_transaction data length av (ts + 64 * k) (pid_after pid k)) := by
  intro fuel
  induction fuel with
  | zero =>
    intro ts pid w hf _
    have h0 : length - ts = 0 := by omega
    simp [write_data_loop, h0]
  | succ n ih =>
    intro ts pid w hf
    simp only [write_data_loop, USB_DMA_CHUNK_SIZE]
    by_cases hlt : ts < length
    · simp only [hlt, if_true]
      rw [chunk_count_step length ts hlt]
      generalize hcs : (if length - ts > 64 then 64 else length - ts) = cs
      have hcs1 : 1 ≤ cs ∧ cs ≤ 64 ∧ cs ≤ length - ts ∧ (cs < 64 → length - (ts + cs) = 0) := by
        rw [← hcs]; split_ifs <;> omega
      generalize hp : write_chunk_poll
        ((chunk_start data length av ts pid w).env_polls.headD [])
        { chunk_start data length av ts pid w with
          env_polls := (chunk_start data length av ts pid w).env_polls.tail } = p
      have hb : p.2.bus = w.bus ++ [chunk_transaction data length av ts pid] := by
        rw [← hp]; simp
      obtain ⟨e, w6⟩ := p
      simp only at hb
      have i3 := ih (ts + cs) (if pid = 2 then 0 else 2) w6 (by omega)
      cases e
      · intro hok
        rw [i3 hok, hb, List.range_succ_eq_map, List.map_cons, List.map_map,
          List.append_assoc]
        congr 1
        simp only [List.singleton_append, Nat.mul_zero, Nat.add_zero, pid_after]
        congr 1
        by_cases h64 : cs = 64
        · subst h64
          apply List.map_congr_left
          intro k _
          simp only [Function.comp, Nat.succ_eq_add_one, pid_after]
          congr 1
          omega
        · have hz : (length - (ts + cs) + 63) / 64 = 0 := by omega
          rw [hz]
          rfl
      all_goals
        intro h; exact absurd h (by simp)
    · intro _
      have h0 : length - ts = 0 := by omega
      simp [hlt, h0]

/-- C25. When all chunks complete (`usb_write_data` returns `ESP_OK`), the
transactions handed to the controller are exactly ceil(length / 64) chunks;
chunk `k`, counted from 0, is an OUT transaction with transfer size
min(64, length - 64 k), packet count 1 and data PID 2 (DATA1) for even `k` and 0
(DATA0) for odd `k`; the transfer sizes add up to `length`. The loop ends: its
result is the same for every bound on the number of iterations that is at least
`length`. -/
theorem C25_data_out_chunking (data : List Nat) (length timeout_ms : Nat) (w : World)
    (hlen : 1 ≤ length)
    (hok : (usb_write_data data length timeout_ms w).status
      = Status.returned esp_err_t.ESP_OK) :
    ∃ chunks : List Transaction,
      (usb_write_data data length timeout_ms w).world.bus = w.bus ++ chunks
      ∧ chunks.length = (length + 63) / 64
      ∧ 1 ≤ chunks.length
      ∧ (∀ k, k < (length + 63) / 64 → ∃ t, chunks[k]? = some t
          ∧ t.dir = 0
          ∧ t.xfersize = min 64 (length - 64 * k)
          ∧ t.pktcnt = 1
          ∧ t.pid = (if k % 2 = 0 then 2 else 0))
      ∧ (chunks.map (fun t => t.xfersize)).sum = length
      ∧ (∀ fuel, length ≤ fuel →
          write_data_loop data length
              (if length > USB_MAX_EXTRA_DATA then USB_MAX_EXTRA_DATA else length) fuel 0 2 w
            = usb_write_data data length timeout_ms w) := by
  simp only [usb_write_data] at hok ⊢
  have hc := write_data_loop_chunks data length
    (if length > USB_MAX_EXTRA_DATA then USB_MAX_EXTRA_DATA else length) length 0 2 w
    (by omega) hok
  simp only [Nat.sub_zero, Nat.zero_add] at hc
  have hx : ∀ k p, (chunk_transaction data length
      (if length > USB_MAX_EXTRA_DATA then USB_MAX_EXTRA_DATA else length) (64 * k) p).xfersize
      = min 64 (length - 64 * k) := by
    intro k p
    simp only [chunk_transaction, USB_DMA_CHUNK_SIZE]
    split_ifs <;> omega
  refine ⟨_, hc, by simp, by simp; omega, ?_, ?_, ?_⟩
  · intro k hk
    refine ⟨chunk_transaction data length
      (if length > USB_MAX_EXTRA_DATA then USB_MAX_EXTRA_DATA else length) (64 * k)
      (pid_after 2 k), ?_, rfl, hx k _, rfl, ?_⟩
    · rw [List.getElem?_map, List.getElem?_range hk]
      rfl
    · exact pid_after_two k
  · rw [List.map_map]
    have hf : ((fun t : Transaction => t.xfersize) ∘ fun k => chunk_transaction data length
        (if length > USB_MAX_EXTRA_DATA then USB_MAX_EXTRA_DATA else length) (64 * k)
        (pid_after 2 k)) = fun k => min 64 (length - 64 * k) := by
      funext k
      exact hx k _
    rw [hf]
    exact chunk_sizes_sum _ length rfl
  · intro fuel hf
    exact write_data_loop_fuel data length _ fuel length 0 2 w (by omega) (by omega)

set_option maxRecDepth 100000 in
theorem C25_data_out_chunking_witness :
    1 ≤ 130
    ∧ (usb_write_data [1, 2, 3] 130 1000 world_three_completions).status
        = Status.returned esp_err_t.ESP_OK
    ∧ (usb_write_data [1, 2, 3] 130 1000 world_three_completions).world.bus.map
        (fun t => (t.xfersize, t.pktcnt, t.pid)) = [(64, 1, 2), (64, 1, 0), (2, 1, 2)]
    ∧ ∃ chunks : List Transaction,
      (usb_write_data [1, 2, 3] 130 1000 world_three_completions).world.bus
        = world_three_completions.bus ++ chunks
      ∧ chunks.length = (130 + 63) / 64
      ∧ 1 ≤ chunks.length
      ∧ (∀ k, k < (130 + 63) / 64 → ∃ t, chunks[k]? = some t
          ∧ t.dir = 0
          ∧ t.xfersize = min 64 (130 - 64 * k)
          ∧ t.pktcnt = 1
          ∧ t.pid = (if k % 2 = 0 then 2 else 0))
      ∧ (chunks.map (fun t => t.xfersize)).sum = 130
      ∧ (∀ fuel, 130 ≤ fuel →
          write_data_loop [1, 2, 3] 130
              (if 130 > USB_MAX_EXTRA_DATA then USB_MAX_EXTRA_DATA else 130) fuel 0 2
              world_three_completions
            = usb_write_data [1, 2, 3] 130 1000 world_three_completions) :=
  ⟨by decide, by decide, by decide,
   C25_data_out_chunking [1, 2, 3] 130 1000 world_three_completions (by decide) (by decide)⟩

/-- C30 (code defect). The first `usb_get_device_info_impl` call on an attached
device fetches the descriptor and returns the strings "N/A"; the next call is
served from the cache, with no transfer, and returns empty strings: the two
records agree on the parsed numbers and differ in manufacturer, product and
serial, because the cache is filled before the strings are set. -/
theorem C30_cached_strings_differ :
    (usb_get_device_info_impl Ptr.valid world_device_attached).1.status
        = Status.returned esp_err_t.ESP_OK
    ∧ (usb_get_device_info_impl Ptr.valid world_device_attached).1.world.bus.length = 2
    ∧ (usb_get_device_info_impl Ptr.valid world_device_attached).2.map
        (fun i => (i.vid, i.pid, i.manufacturer, i.product, i.serial))
        = some (0x1234, 0x5678, "N/A", "N/A", "N/A")
    ∧ (usb_get_device_info_impl Ptr.valid
        (usb_get_device_info_impl Ptr.valid world_device_attached).1.world).1.status
        = Status.returned esp_err_t.ESP_OK
    ∧ (usb_get_device_info_impl Ptr.valid
        (usb_get_device_info_impl Ptr.valid world_device_attached).1.world).1.world.bus.length
        = 2
    ∧ (usb_get_device_info_impl Ptr.valid
        (usb_get_device_info_impl Ptr.valid world_device_attached).1.world).2.map
        (fun i => (i.vid, i.pid, i.manufacturer, i.product, i.serial))
        = some (0x1234, 0x5678, "", "", "")
    ∧ (usb_get_device_info_impl Ptr.valid
        (usb_get_device_info_impl Ptr.valid world_device_attached).1.world).2
        ≠ (usb_get_device_info_impl Ptr.valid world_device_attached).2 := by
  decide

set_option maxRecDepth 100000 in
/-- C23 (code defect). `packetSize=0` is rejected before the engine is touched,
but `packetSize=-1` is not: converted to `size_t` it is 4294967295, which passes
the test `packetSize <= 0`, and the handler hands the engine a request with
`packet_size = 4294967295`; the engine programs that transfer size and runs
into the copy of 4294967295 bytes into its 256-byte buffer. -/
theorem C23_negative_packet_size_reaches_engine :
    (api_send_request_handler (some (query_with_packet_size 0)) World.boot)
        = (HandlerEnd.responded packet_size_rejected, World.boot)
    ∧ query_packet_size (query_with_packet_size (-1)) = 4294967295
    ∧ (send_request_config (query_with_packet_size (-1))).packet_size = 4294967295
    ∧ (api_send_request_handler (some (query_with_packet_size (-1))) World.boot).1
        ≠ HandlerEnd.responded packet_size_rejected
    ∧ (api_send_request_handler (some (query_with_packet_size (-1))) World.boot).1
        = HandlerEnd.engine_fault (Fault.dma_buffer_overflow 4294967295)
    ∧ HwOp.set_xfersize 4294967295
        ∈ (api_send_request_handler (some (query_with_packet_size (-1))) World.boot).2.trace
    ∧ (api_send_request_handler (some (query_with_packet_size (-1))) World.boot).2.regs.xfersize
        = 4294967295 := by
  decide

theorem hex_dump_length (buf : List Nat) (n : Nat) :
    (((List.range n).map (fun i => hex_byte (byte_at buf i))).flatten).length = 3 * n := by
  induction n with
  | zero => rfl
  | succ n ih =>
    rw [List.range_succ, List.map_append, List.flatten_append, List.length_append, ih]
    simp [hex_byte]
    omega

theorem build_hex_str_length (buf : List Nat) (b : Nat) :
    (build_hex_str buf b).length
      = if b > 128 then 384 + 5 + (Nat.toDigits 10 (b - 128)).length + 6 else 3 * b := by
  simp only [build_hex_str, HTTP_RESPONSE_MAX_BYTES]
  split_ifs
  · simp only [List.length_append, hex_dump_length]
    rfl
  · exact hex_dump_length buf b

set_option maxRecDepth 100000 in
/-- C29 (code defect). The hex dump takes three characters per dumped byte and
a terminator: for 1 to 127 received bytes it fits the 384 characters of
`hex_str`, but for 128 bytes it needs 385, and for more than 128 bytes the
"... (N more)" suffix is written after the 384 characters already used, so for
every byte count from 128 on `sprintf` writes past the end of the buffer. The
ASCII string has min(bytes_received, 128) characters, each the printable byte
itself or a dot. -/
theorem C29_hex_dump_exceeds_buffer :
    HTTP_HEX_STR_MAX_LEN = 384
    ∧ (∀ (buf : List Nat) (ret : esp_err_t) (c : Bool),
        send_request_response ret 128 buf c = HandlerEnd.hex_str_overflow 385)
    ∧ send_request_response esp_err_t.ESP_OK 200 (memset_zero 512) true
        = HandlerEnd.hex_str_overflow 398
    ∧ (send_request_config query_long_read).wLength = 255
    ∧ (api_send_request_handler (some query_long_read) world_long_response).1
        = HandlerEnd.hex_str_overflow 398
    ∧ (∀ (buf : List Nat) (b : Nat), 128 ≤ b →
        HTTP_HEX_STR_MAX_LEN < (build_hex_str buf b).length + 1)
    ∧ (∀ (buf : List Nat) (b : Nat), b ≤ 127 →
        (build_hex_str buf b).length + 1 ≤ HTTP_HEX_STR_MAX_LEN)
    ∧ (∀ (buf : List Nat) (b : Nat), (build_ascii_str buf b).length = min b 128)
    ∧ (∀ (buf : List Nat) (b i : Nat), i < min b 128 →
        (build_ascii_str buf b)[i]?
          = some (if 32 ≤ byte_at buf i ∧ byte_at buf i ≤ 126 then Char.ofNat (byte_at buf i)
                  else '.')) := by
  refine ⟨rfl, ?_, ?_, ?_, ?_, ?_, ?_, ?_, ?_⟩
  · intro buf ret c
    simp [send_request_response, build_hex_str_length, HTTP_HEX_STR_MAX_LEN]
  · simp only [send_request_response, build_hex_str_length, HTTP_HEX_STR_MAX_LEN]
    decide
  · decide
  · decide
  · intro buf b hb
    rw [build_hex_str_length, HTTP_HEX_STR_MAX_LEN]
    split_ifs <;> omega
  · intro buf b hb
    rw [build_hex_str_length, HTTP_HEX_STR_MAX_LEN]
    split_ifs <;> omega
  · intro buf b
    simp only [build_ascii_str, HTTP_RESPONSE_MAX_BYTES, List.length_map, List.length_range]
    split_ifs <;> omega
  · intro buf b i hi
    simp only [build_ascii_str, HTTP_RESPONSE_MAX_BYTES, ascii_char]
    rw [List.getElem?_map, List.getElem?_range (by split_ifs <;> omega)]
    rfl

/-- C22. Over the model of the store, `load_usb_phy_config` returns `ESP_OK`
and leaves controller and target at their defaults. When the store can be
opened and holds the namespace, `otg_mode` and `otg_speed` are each the byte
stored under the key, or the default when the key is absent; otherwise both are
the defaults. After a `usb_save_phy_config m s` that returns `ESP_OK`, a load
yields `otg_mode = m` and `otg_speed = s`, for all bytes `m` and `s`. -/
theorem C22_phy_config_round_trip (d : usb_phy_config_t) (store : NvsStore) (m s : Nat)
    (hd : d.otg_mode < 256 ∧ d.otg_speed < 256) (hm : m < 256) (hs : s < 256) :
    (load_usb_phy_config d store).1 = esp_err_t.ESP_OK
    ∧ (load_usb_phy_config d store).2.controller = d.controller
    ∧ (load_usb_phy_config d store).2.target = d.target
    ∧ (load_usb_phy_config d store).2.otg_mode
        = (if store.initialised = true ∧ NVS_NAMESPACE ∈ store.namespaces then
            (store.entries.lookup (NVS_NAMESPACE, "otg_mode")).getD d.otg_mode
           else d.otg_mode)
    ∧ (load_usb_phy_config d store).2.otg_speed
        = (if store.initialised = true ∧ NVS_NAMESPACE ∈ store.namespaces then
            (store.entries.lookup (NVS_NAMESPACE, "otg_speed")).getD d.otg_speed
           else d.otg_speed)
    ∧ ((usb_save_phy_config m s store).1 = esp_err_t.ESP_OK →
        (load_usb_phy_config d (usb_save_phy_config m s store).2).2
          = { controller := d.controller, target := d.target, otg_mode := m, otg_speed := s })
    := by
  obtain ⟨hd1, hd2⟩ := hd
  have e1 : d.otg_mode % 256 = d.otg_mode := Nat.mod_eq_of_lt hd1
  have e2 : d.otg_speed % 256 = d.otg_speed := Nat.mod_eq_of_lt hd2
  have e3 : m % 256 = m := Nat.mod_eq_of_lt hm
  have e4 : s % 256 = s := Nat.mod_eq_of_lt hs
  have hload : ∀ st : NvsStore, load_usb_phy_config d st
      = (esp_err_t.ESP_OK,
         if st.initialised = true ∧ NVS_NAMESPACE ∈ st.namespaces then
           { d with
             otg_mode := (st.entries.lookup (NVS_NAMESPACE, "otg_mode")).getD d.otg_mode
             otg_speed := (st.entries.lookup (NVS_NAMESPACE, "otg_speed")).getD d.otg_speed }
         else d) := by
    intro st
    simp only [load_usb_phy_config, nvs_open_readonly, nvs_get_u8, e1, e2]
    cases hi : st.initialised
    · simp
    · by_cases hn : NVS_NAMESPACE ∈ st.namespaces
      · simp only [hn, if_true, and_self]
        cases st.entries.lookup (NVS_NAMESPACE, "otg_mode") <;>
          cases st.entries.lookup (NVS_NAMESPACE, "otg_speed") <;> simp
      · simp [hn]
  refine ⟨by rw [hload], ?_, ?_, ?_, ?_, ?_⟩
  · rw [hload]; split_ifs <;> rfl
  · rw [hload]; split_ifs <;> rfl
  · rw [hload]; split_ifs <;> rfl
  · rw [hload]; split_ifs <;> rfl
  · intro hok
    have hi : store.initialised = true := by
      cases h : store.initialised
      · simp [usb_save_phy_config, nvs_open_readwrite, h] at hok
      · rfl
    have hsave : (usb_save_phy_config m s store).2
        = { initialised := true
            namespaces := if NVS_NAMESPACE ∈ store.namespaces then store.namespaces
              else NVS_NAMESPACE :: store.namespaces
            entries := ((NVS_NAMESPACE, "otg_speed"), s) :: ((NVS_NAMESPACE, "otg_mode"), m)
              :: store.entries } := by
      obtain ⟨ini, nss, ents⟩ := store
      simp only at hi
      subst hi
      simp only [usb_save_phy_config, nvs_open_readwrite, nvs_set_u8, nvs_commit, e3, e4]
      by_cases hn : NVS_NAMESPACE ∈ nss
      · simp [hn]
      · simp [hn]
    have k1 : ((NVS_NAMESPACE, "otg_mode") == (NVS_NAMESPACE, "otg_speed")) = false := by
      decide
    have k2 : ((NVS_NAMESPACE, "otg_speed") == (NVS_NAMESPACE, "otg_speed")) = true := by
      decide
    have k3 : ((NVS_NAMESPACE, "otg_mode") == (NVS_NAMESPACE, "otg_mode")) = true := by
      decide
    have hns : NVS_NAMESPACE ∈ (if NVS_NAMESPACE ∈ store.namespaces then store.namespaces
        else NVS_NAMESPACE :: store.namespaces) := by
      split_ifs with hn
      · exact hn
      · simp
    rw [hload, hsave]
    simp only [hns, and_self, if_true, List.lookup, k1, k2, k3, Option.getD_some]

theorem C22_phy_config_round_trip_witness :
    (sample_phy_defaults.otg_mode < 256 ∧ sample_phy_defaults.otg_speed < 256)
    ∧ (usb_save_phy_config 0 1 store_empty).1 = esp_err_t.ESP_OK
    ∧ (load_usb_phy_config sample_phy_defaults store_empty).2 = sample_phy_defaults
    ∧ (load_usb_phy_config sample_phy_defaults (usb_save_phy_config 0 1 store_empty).2).2
        = { controller := sample_phy_defaults.controller, target := sample_phy_defaults.target,
            otg_mode := 0, otg_speed := 1 } :=
  ⟨by decide, by decide, by decide,
   (C22_phy_config_round_trip sample_phy_defaults store_empty 0 1 (by decide) (by decide)
      (by decide)).2.2.2.2.2 (by decide)⟩

set_option maxRecDepth 100000 in
theorem C9_data_out_zero_padding_witness :
    (usb_write_data data_all_aa 300 1000 world_five_completions).status
        = Status.returned esp_err_t.ESP_OK
      ∧ (((usb_write_data data_all_aa 300 1000 world_five_completions).world.bus.map
            (fun t => t.payload)).flatten).length = 300
      ∧ (((usb_write_data data_all_aa 300 1000 world_five_completions).world.bus.map
            (fun t => t.payload)).flatten).take 248 = data_all_aa
      ∧ (((usb_write_data data_all_aa 300 1000 world_five_completions).world.bus.map
            (fun t => t.payload)).flatten).drop 248 = List.replicate 52 0
      ∧ ∃ chunks, (usb_write_data data_all_aa 300 1000 world_five_completions).world.bus
          = world_five_completions.bus ++ chunks
        ∧ ((chunks.map (fun t => t.payload)).flatten).length = 300
        ∧ (∀ i, i < min 300 248 →
            ((chunks.map (fun t => t.payload)).flatten).getD i 0 = data_all_aa.getD i 0)
        ∧ (∀ i, min 300 248 ≤ i → i < 300 →
            ((chunks.map (fun t => t.payload)).flatten).getD i 0 = 0) :=
  ⟨by decide, by decide, by decide, by decide,
   C9_data_out_zero_padding data_all_aa 300 1000 world_five_completions (by decide)⟩

/-- The HAL calls of the failure path, to the last call. -/
theorem read_failure_path_trace (w : World) :
    (read_failure_path Ptr.valid w).world.trace
      = w.trace ++
        (if w.consecutive_failures + 1 ≥ 5 then
          (if w.recovery_attempts + 1 ≥ 3 then
            tier2_ops (w.env_conn.headD false) (w.env_conn.tail.headD false)
           else tier1_ops (w.env_conn.headD false) (w.env_conn.tail.headD false))
         else []) := by
  simp only [read_failure_path, MAX_CONSECUTIVE_FAILURES, MAX_RECOVERY_ATTEMPTS,
    reduceCtorEq, if_false]
  by_cases h5 : w.consecutive_failures + 1 ≥ 5
  · by_cases h3 : w.recovery_attempts + 1 ≥ 3
    · simp [h5, h3, usb_send_reset_impl_eq, World.emit, tier2_ops]
    · simp [h5, h3, usb_send_reset_impl_eq, World.emit, tier1_ops, usb_flush_all_fifos]
  · simp [h5]

/-- A call that returns `ESP_ERR_TIMEOUT` ends in the failure path, entered
with the counters the call started with. -/
theorem usb_read_response_timeout_world (buffer : Ptr) (max_len timeout_ms : Nat)
    (max_nak_retries : Int) (w : World)
    (h : (usb_read_response buffer max_len timeout_ms Ptr.valid max_nak_retries w).status
      = Status.returned esp_err_t.ESP_ERR_TIMEOUT) :
    (usb_read_response buffer max_len timeout_ms Ptr.valid max_nak_retries w).world
        = (read_failure_path Ptr.valid (read_poll_end buffer max_len Ptr.valid w)).world
      ∧ (read_poll_end buffer max_len Ptr.valid w).consecutive_failures
          = w.consecutive_failures
      ∧ (read_poll_end buffer max_len Ptr.valid w).recovery_attempts = w.recovery_attempts := by
  simp only [usb_read_response, read_poll_end] at h ⊢
  have hc := read_poll_loop_gave_up_counters buffer max_len Ptr.valid true
    ((read_start max_len w).env_polls.headD [])
    { read_start max_len w with env_polls := (read_start max_len w).env_polls.tail }
  generalize read_poll_loop buffer max_len Ptr.valid true
    ((read_start max_len w).env_polls.headD [])
    { read_start max_len w with env_polls := (read_start max_len w).env_polls.tail } = p
    at h hc ⊢
  obtain ⟨e, w6⟩ := p
  cases e with
  | received => simp at h
  | fault f => simp at h
  | gave_up =>
    obtain ⟨c1, c2⟩ := hc rfl
    simp only [read_start_consecutive_failures, read_start_recovery_attempts] at c1 c2
    exact ⟨rfl, c1, c2⟩

theorem recovery_step (buffer : Ptr) (max_len timeout_ms : Nat)
    (max_nak_retries : Int) (w : World)
    (h0 : w.consecutive_failures = 0) (h1 : w.recovery_attempts = 0) (k : Nat) (hk : k < 15)
    (hall : ∀ k, k < 15 →
      (usb_read_response buffer max_len timeout_ms Ptr.valid max_nak_retries
        (read_calls buffer max_len timeout_ms Ptr.valid max_nak_retries k w)).status
        = Status.returned esp_err_t.ESP_ERR_TIMEOUT) :
    (read_calls buffer max_len timeout_ms Ptr.valid max_nak_retries (k + 1) w).trace
      = (read_poll_end buffer max_len Ptr.valid (read_calls buffer max_len timeout_ms Ptr.valid max_nak_retries k w)).trace
        ++ recovery_ops (k + 1)
            ((read_poll_end buffer max_len Ptr.valid (read_calls buffer max_len timeout_ms Ptr.valid max_nak_retries k w)).env_conn.headD false)
            ((read_poll_end buffer max_len Ptr.valid (read_calls buffer max_len timeout_ms Ptr.valid max_nak_retries k w)).env_conn.tail.headD false) := by
  obtain ⟨i1, i2, _, _⟩ := read_calls_timeouts buffer max_len timeout_ms max_nak_retries w
    h0 h1 k (fun j hj => hall j (by omega))
  obtain ⟨e, c1, c2⟩ := usb_read_response_timeout_world buffer max_len timeout_ms
    max_nak_retries _ (hall k hk)
  simp only [read_calls]
  rw [e, read_failure_path_trace, c1, c2, i1, i2]
  congr 1
  simp only [recovery_ops]
  split_ifs <;> first | rfl | omega

/-- C14: from both counters at zero, consecutive `usb_read_response` calls that
return `ESP_ERR_TIMEOUT` run no recovery on the first four, Tier-1 once on the
fifth, which leaves the consecutive-failure counter at zero; Tier-1 again on the
tenth; and Tier-2 (VBUS power cycle) on the fifteenth and not before, with no
Tier-1 that time. After `n ≤ 15` such calls the counters are `n % 5` and
`(n / 5) % 3`, Tier-1 has run `n / 5 - n / 15` times and Tier-2 `n / 15` times.
What each call appends to the trace after its polling loop is exactly the
recovery it runs: nothing, or the Tier-1 sequence (flush of the three FIFOs,
1 ms, clearing of the global interrupts, bus reset, 150 ms), or the Tier-2
sequence (port power off, 500 ms, port power on, 500 ms, bus reset, 200 ms). -/
theorem C14_recovery_escalation (buffer : Ptr) (max_len timeout_ms : Nat)
    (max_nak_retries : Int) (w : World)
    (h0 : w.consecutive_failures = 0) (h1 : w.recovery_attempts = 0)
    (hall : ∀ k, k < 15 →
      (usb_read_response buffer max_len timeout_ms Ptr.valid max_nak_retries
        (read_calls buffer max_len timeout_ms Ptr.valid max_nak_retries k w)).status
        = Status.returned esp_err_t.ESP_ERR_TIMEOUT) :
    (∀ n, n ≤ 15 →
        (read_calls buffer max_len timeout_ms Ptr.valid max_nak_retries n
            w).consecutive_failures = ((n % 5 : Nat) : Int)
          ∧ (read_calls buffer max_len timeout_ms Ptr.valid max_nak_retries n
            w).recovery_attempts = ((n / 5 % 3 : Nat) : Int)
          ∧ tier1_count (read_calls buffer max_len timeout_ms Ptr.valid max_nak_retries n
              w).trace = tier1_count w.trace + (n / 5 - n / 15)
          ∧ tier2_count (read_calls buffer max_len timeout_ms Ptr.valid max_nak_retries n
              w).trace = tier2_count w.trace + n / 15)
      ∧ (∀ n, n < 5 →
          tier1_count (read_calls buffer max_len timeout_ms Ptr.valid max_nak_retries n
            w).trace = tier1_count w.trace)
      ∧ tier1_count (read_calls buffer max_len timeout_ms Ptr.valid max_nak_retries 5
          w).trace = tier1_count w.trace + 1
      ∧ (read_calls buffer max_len timeout_ms Ptr.valid max_nak_retries 5
          w).consecutive_failures = 0
      ∧ tier1_count (read_calls buffer max_len timeout_ms Ptr.valid max_nak_retries 10
          w).trace = tier1_count w.trace + 2
      ∧ (∀ n, n < 15 →
          tier2_count (read_calls buffer max_len timeout_ms Ptr.valid max_nak_retries n
            w).trace = tier2_count w.trace)
      ∧ tier2_count (read_calls buffer max_len timeout_ms Ptr.valid max_nak_retries 15
          w).trace = tier2_count w.trace + 1
      ∧ tier1_count (read_calls buffer max_len timeout_ms Ptr.valid max_nak_retries 15
          w).trace = tier1_count w.trace + 2
      ∧ (∀ k, k < 15 →
          (read_calls buffer max_len timeout_ms Ptr.valid max_nak_retries (k + 1) w).trace
            = (read_poll_end buffer max_len Ptr.valid (read_calls buffer max_len timeout_ms Ptr.valid max_nak_retries k w)).trace
              ++ recovery_ops (k + 1)
                  ((read_poll_end buffer max_len Ptr.valid (read_calls buffer max_len timeout_ms Ptr.valid max_nak_retries k w)).env_conn.headD false)
                  ((read_poll_end buffer max_len Ptr.valid (read_calls buffer max_len timeout_ms Ptr.valid max_nak_retries k w)).env_conn.tail.headD false))
      ∧ (read_calls buffer max_len timeout_ms Ptr.valid max_nak_retries 5 w).trace
          = (read_poll_end buffer max_len Ptr.valid (read_calls buffer max_len timeout_ms Ptr.valid max_nak_retries 4 w)).trace
            ++ tier1_ops
                ((read_poll_end buffer max_len Ptr.valid (read_calls buffer max_len timeout_ms Ptr.valid max_nak_retries 4 w)).env_conn.headD false)
                ((read_poll_end buffer max_len Ptr.valid (read_calls buffer max_len timeout_ms Ptr.valid max_nak_retries 4 w)).env_conn.tail.headD false)
      ∧ (read_calls buffer max_len timeout_ms Ptr.valid max_nak_retries 10 w).trace
          = (read_poll_end buffer max_len Ptr.valid (read_calls buffer max_len timeout_ms Ptr.valid max_nak_retries 9 w)).trace
            ++ tier1_ops
                ((read_poll_end buffer max_len Ptr.valid (read_calls buffer max_len timeout_ms Ptr.valid max_nak_retries 9 w)).env_conn.headD false)
                ((read_poll_end buffer max_len Ptr.valid (read_calls buffer max_len timeout_ms Ptr.valid max_nak_retries 9 w)).env_conn.tail.headD false)
      ∧ (read_calls buffer max_len timeout_ms Ptr.valid max_nak_retries 15 w).trace
          = (read_poll_end buffer max_len Ptr.valid (read_calls buffer max_len timeout_ms Ptr.valid max_nak_retries 14 w)).trace
            ++ tier2_ops
                ((read_poll_end buffer max_len Ptr.valid (read_calls buffer max_len timeout_ms Ptr.valid max_nak_retries 14 w)).env_conn.headD false)
                ((read_poll_end buffer max_len Ptr.valid (read_calls buffer max_len timeout_ms Ptr.valid max_nak_retries 14 w)).env_conn.tail.headD false) := by
  have key : ∀ n, n ≤ 15 → _ := fun n hn =>
    read_calls_timeouts buffer max_len timeout_ms max_nak_retries w h0 h1 n
      (fun k hk => hall k (by omega))
  have hstep : ∀ k, k < 15 → _ := fun k hk =>
    recovery_step buffer max_len timeout_ms max_nak_retries w h0 h1 k hk hall
  refine ⟨key, ?_, ?_, ?_, ?_, ?_, ?_, ?_, hstep, ?_, ?_, ?_⟩
  · intro n hn
    rw [(key n (by omega)).2.2.1]
    omega
  · rw [(key 5 (by omega)).2.2.1]
  · rw [(key 5 (by omega)).1]; rfl
  · rw [(key 10 (by omega)).2.2.1]
  · intro n hn
    rw [(key n (by omega)).2.2.2]
    omega
  · rw [(key 15 (by omega)).2.2.2]
  · rw [(key 15 (by omega)).2.2.1]
  · exact hstep 4 (by omega)
  · exact hstep 9 (by omega)
  · exact hstep 14 (by omega)

set_option maxRecDepth 100000 in
theorem C14_recovery_escalation_witness :
    (World.boot.consecutive_failures = 0 ∧ World.boot.recovery_attempts = 0
        ∧ ∀ k, k < 15 →
          (usb_read_response Ptr.valid 18 500 Ptr.valid 50
            (read_calls Ptr.valid 18 500 Ptr.valid 50 k World.boot)).status
            = Status.returned esp_err_t.ESP_ERR_TIMEOUT)
      ∧ (∀ n, n < 5 →
          tier1_count (read_calls Ptr.valid 18 500 Ptr.valid 50 n World.boot).trace
            = tier1_count World.boot.trace)
      ∧ tier1_count (read_calls Ptr.valid 18 500 Ptr.valid 50 5 World.boot).trace
          = tier1_count World.boot.trace + 1
      ∧ (read_calls Ptr.valid 18 500 Ptr.valid 50 5 World.boot).consecutive_failures = 0
      ∧ tier2_count (read_calls Ptr.valid 18 500 Ptr.valid 50 15 World.boot).trace
          = tier2_count World.boot.trace + 1
      ∧ (read_calls Ptr.valid 18 500 Ptr.valid 50 1 World.boot).trace
          = (read_poll_end Ptr.valid 18 Ptr.valid
              (read_calls Ptr.valid 18 500 Ptr.valid 50 0 World.boot)).trace ++ []
      ∧ (read_calls Ptr.valid 18 500 Ptr.valid 50 5 World.boot).trace
          = (read_poll_end Ptr.valid 18 Ptr.valid
              (read_calls Ptr.valid 18 500 Ptr.valid 50 4 World.boot)).trace
            ++ [HwOp.flush_nptx_fifo, HwOp.flush_ptx_fifo, HwOp.flush_rx_fifo, HwOp.delay 1,
                HwOp.gintsts_clear_intrs, HwOp.get_conn_status false,
                HwOp.set_port_reset true, HwOp.delay 15, HwOp.set_port_reset false,
                HwOp.delay 20, HwOp.get_conn_status false, HwOp.delay 150]
      ∧ (read_calls Ptr.valid 18 500 Ptr.valid 50 15 World.boot).trace
          = (read_poll_end Ptr.valid 18 Ptr.valid
              (read_calls Ptr.valid 18 500 Ptr.valid 50 14 World.boot)).trace
            ++ [HwOp.dis_pwr, HwOp.delay 500, HwOp.en_pwr, HwOp.delay 500,
                HwOp.get_conn_status false,
                HwOp.set_port_reset true, HwOp.delay 15, HwOp.set_port_reset false,
                HwOp.delay 20, HwOp.get_conn_status false, HwOp.delay 200] :=
  have h := C14_recovery_escalation Ptr.valid 18 500 50 World.boot rfl rfl (by decide)
  ⟨⟨rfl, rfl, by decide⟩, h.2.1, h.2.2.1, h.2.2.2.1, h.2.2.2.2.2.2.1,
   h.2.2.2.2.2.2.2.2.1 0 (by decide), h.2.2.2.2.2.2.2.2.2.1, h.2.2.2.2.2.2.2.2.2.2.2⟩

set_option maxRecDepth 1000000 in
/-- C20 (code defect). A caller of `usb_send_packet` waits 1000 ms for an
operation whose delays alone add up to 1346 ms (100 ms of polling and a Tier-2
recovery); it times out and gives the mutex back while the worker is still
busy. The next caller takes the mutex, finds no stale signal to clear, hands
over its own operation and is then woken by the completion signal of the first
operation. Without timing out, `usb_is_device_connected` returns false for a
connected device, and a caller of `usb_send_reset` returns the
`ESP_ERR_TIMEOUT` of the first operation; in both cases the worker begins the
caller's own operation only after the caller has returned, and that operation
gives a different result (true, `ESP_OK`). -/
theorem C20_caller_woken_by_stale_completion :
    completion_wait_ms usb_op_type_t.USB_OP_SEND_PACKET request_short_timeout.timeout_ms
        = 1000
    ∧ delay_total (worker_execute
        (WorkerOp.USB_OP_SEND_PACKET (some request_short_timeout)) world_hung_device).world.trace
        = 1346
    ∧ (dispatch_run schedule_stale_completion
        (Dispatcher.start
          [ApiCall.execute (WorkerOp.USB_OP_SEND_PACKET (some request_short_timeout)),
           ApiCall.is_connected] world_hung_device)).map (fun d => d.events)
        = some
          [DispatchEvent.op_begun (some (WorkerOp.USB_OP_SEND_PACKET (some request_short_timeout))),
           DispatchEvent.call_returned 0 (ApiResult.code esp_err_t.ESP_ERR_TIMEOUT) true,
           DispatchEvent.op_done esp_err_t.ESP_ERR_TIMEOUT false,
           DispatchEvent.call_returned 1 (ApiResult.flag false) false,
           DispatchEvent.op_begun (some WorkerOp.USB_OP_GET_STATUS),
           DispatchEvent.op_done esp_err_t.ESP_OK true]
    ∧ (dispatch_run schedule_stale_completion
        (Dispatcher.start
          [ApiCall.execute (WorkerOp.USB_OP_SEND_PACKET (some request_short_timeout)),
           ApiCall.is_connected] world_hung_device)).map
          (fun d => d.callers.map (fun c => c.2))
        = some [CallerPc.returned (ApiResult.code esp_err_t.ESP_ERR_TIMEOUT) true,
                CallerPc.returned (ApiResult.flag false) false]
    ∧ (dispatch_run schedule_stale_completion
        (Dispatcher.start
          [ApiCall.execute (WorkerOp.USB_OP_SEND_PACKET (some request_short_timeout)),
           ApiCall.execute WorkerOp.USB_OP_RESET] world_hung_device)).map (fun d => d.events)
        = some
          [DispatchEvent.op_begun (some (WorkerOp.USB_OP_SEND_PACKET (some request_short_timeout))),
           DispatchEvent.call_returned 0 (ApiResult.code esp_err_t.ESP_ERR_TIMEOUT) true,
           DispatchEvent.op_done esp_err_t.ESP_ERR_TIMEOUT false,
           DispatchEvent.call_returned 1 (ApiResult.code esp_err_t.ESP_ERR_TIMEOUT) false,
           DispatchEvent.op_begun (some WorkerOp.USB_OP_RESET),
           DispatchEvent.op_done esp_err_t.ESP_OK false] := by
  decide

theorem ops_in_flight_append (l1 l2 : List DispatchEvent) :
    ops_in_flight (l1 ++ l2) = ops_in_flight l1 + ops_in_flight l2 := by
  induction l1 with
  | nil => simp [ops_in_flight]
  | cons e rest ih =>
    cases e <;>
      (show ops_in_flight (_ :: (rest ++ l2)) = _
       rw [ops_in_flight, ops_in_flight, ih]
       try omega)

theorem dispatch_step_serialised (s : Step) (d d1 : Dispatcher)
    (h : dispatch_step s d = some d1) (hinv : ops_in_flight d.events = worker_busy d) :
    ops_in_flight d1.events = worker_busy d1 := by
  cases s with
  | caller i =>
    simp only [dispatch_step, caller_step] at h
    split at h
    · simp at h
    · split at h
      all_goals first
        | (split_ifs at h
           all_goals
             (cases h
              simpa [ops_in_flight_append, ops_in_flight, worker_busy] using hinv))
        | (cases h
           simpa [ops_in_flight_append, ops_in_flight, worker_busy] using hinv)
        | simp at h
  | timeout i =>
    simp only [dispatch_step, timeout_step] at h
    split at h
    · simp at h
    · split at h
      all_goals first
        | (split_ifs at h
           all_goals
             (cases h
              simpa [ops_in_flight_append, ops_in_flight, worker_busy] using hinv))
        | simp at h
  | worker =>
    simp only [dispatch_step, worker_step] at h
    cases hw : d.worker with
    | wait_ready =>
      rw [hw] at h
      simp only [worker_busy, hw] at hinv
      simp only at h
      split_ifs at h
      cases h
      simp [ops_in_flight_append, ops_in_flight, worker_busy, hinv]
    | executing op =>
      rw [hw] at h
      simp only [worker_busy, hw] at hinv
      cases op with
      | none =>
        simp only at h
        cases h
        simp [ops_in_flight_append, ops_in_flight, worker_busy, hinv]
      | some o =>
        simp only at h
        split at h
        · simp at h
        · cases h
          simp [ops_in_flight_append, ops_in_flight, worker_busy, hinv]

/-- Along every schedule the operations begun and not finished are those the
one worker is executing: never more than one, and the next one begins only
after the completion of the one before has been signalled. -/
theorem dispatch_run_serialised (sched : List Step) :
    ∀ (d d1 : Dispatcher), dispatch_run sched d = some d1 →
      ops_in_flight d.events = worker_busy d →
      ops_in_flight d1.events = worker_busy d1
        ∧ 0 ≤ ops_in_flight d1.events ∧ ops_in_flight d1.events ≤ 1 := by
  induction sched with
  | nil =>
    intro d d1 h hinv
    simp only [dispatch_run, Option.some.injEq] at h
    subst h
    refine ⟨hinv, ?_, ?_⟩ <;> rw [hinv] <;> simp only [worker_busy] <;> split <;> decide
  | cons s rest ih =>
    intro d d1 h hinv
    simp only [dispatch_run] at h
    cases hs : dispatch_step s d with
    | none => rw [hs] at h; simp at h
    | some d2 =>
      rw [hs] at h
      exact ih d2 d1 h (dispatch_step_serialised s d d2 hs hinv)

end USBane
